import Mathlib

/-!
# vHive snapshot orchestration: a shallow embedding

The Go sources embedded here are

* `remote-firecracker-snapshots-poc/orchestrator.go`, `devmapper.go`, `snapinfo.go`
* `vanilla_firecracker_snapshots/taskworkflow.go`, `snapshotting/snapshot.go`
* `cri/firecracker/service.go`

Go code that talks to the outside world (containerd, the hypervisor, the
kernel, subprocesses) is embedded as a state-passing computation that
appends every external call to a trace and takes the result of the call from
an environment.  The environment answers as a function of the whole trace,
so an external service may answer differently each time it is called.

A Go `string` is a Lean `String`; a Go `error` is its message; wrapping an
error with `%w` (or `errors.Wrapf`) puts a text in front of the message.
A Go `map[string]V` is a function `String → Option V`.
-/

namespace VHive

/-! ## Results, maps and the trace-recording computation -/

/-- Message of a Go `error` value. -/
abbrev Error := String

/-- Outcome of running a Go function: a normal return without error, a
return with a non-nil error, or a run-time panic. -/
inductive Res (α : Type) where
  | ok (a : α)
  | err (e : Error)
  | panic (msg : String)
  deriving Repr, DecidableEq

/-- Go `map[string]V`. -/
abbrev GoMap (V : Type) := String → Option V

/-- Empty map, as made by `make(map[string]V)`. -/
def GoMap.empty {V : Type} : GoMap V := fun _ => none

/-- Map assignment `m[k] = v`. -/
def GoMap.set {V : Type} (m : GoMap V) (k : String) (v : V) : GoMap V :=
  fun x => if x = k then some v else m x

/-- Builtin `delete(m, k)`. -/
def GoMap.delete {V : Type} (m : GoMap V) (k : String) : GoMap V :=
  fun x => if x = k then none else m x

/-- State of a run: the program state and the external calls made so far,
oldest first. -/
structure Cfg (σ Ev : Type) where
  st : σ
  trace : List Ev

/-- A Go function body: given the environment and the current state it
yields an outcome and the state it leaves behind.  State changes made before
an error return or a panic stay in place, as in Go. -/
def Run (Env Ev σ α : Type) : Type := Env → Cfg σ Ev → Res α × Cfg σ Ev

namespace Run

variable {Env Ev σ α β : Type}

/-- Normal return of a value. -/
def ret (a : α) : Run Env Ev σ α := fun _ c => (Res.ok a, c)

/-- Sequencing: the rest runs only after a normal return. -/
def andThen (m : Run Env Ev σ α) (f : α → Run Env Ev σ β) : Run Env Ev σ β := fun env c =>
  match m env c with
  | (Res.ok a, c1) => f a env c1
  | (Res.err e, c1) => (Res.err e, c1)
  | (Res.panic p, c1) => (Res.panic p, c1)

instance : Monad (Run Env Ev σ) where
  pure := ret
  bind := andThen

/-- Go `return err` with a non-nil error. -/
def fail (e : Error) : Run Env Ev σ α := fun _ c => (Res.err e, c)

/-- Run-time panic. -/
def panic (msg : String) : Run Env Ev σ α := fun _ c => (Res.panic msg, c)

/-- Read the program state. -/
def get : Run Env Ev σ σ := fun _ c => (Res.ok c.st, c)

/-- Update the program state. -/
def modify (f : σ → σ) : Run Env Ev σ Unit := fun _ c => (Res.ok (), { c with st := f c.st })

/-- An external call: the event is appended to the trace and the environment,
shown the trace including this call, gives the call's result. -/
def call (ev : Ev) (answer : Env → List Ev → Except Error α) : Run Env Ev σ α := fun env c =>
  let tr := c.trace ++ [ev]
  match answer env tr with
  | Except.ok a => (Res.ok a, { c with trace := tr })
  | Except.error e => (Res.err e, { c with trace := tr })

/-- A query of external in-memory state that is not recorded as a call. -/
def ask (answer : Env → List Ev → α) : Run Env Ev σ α := fun env c =>
  (Res.ok (answer env c.trace), c)

/-- Go `if err != nil { return fmt.Errorf("<pre>%w", err) }` around a call. -/
def wrapErr (pre : String) (m : Run Env Ev σ α) : Run Env Ev σ α := fun env c =>
  match m env c with
  | (Res.err e, c1) => (Res.err (pre ++ e), c1)
  | r => r

/-- A call whose returned error is dropped by the caller. -/
def ignoreErr (m : Run Env Ev σ α) : Run Env Ev σ Unit := fun env c =>
  match m env c with
  | (Res.ok _, c1) => (Res.ok (), c1)
  | (Res.err _, c1) => (Res.ok (), c1)
  | (Res.panic p, c1) => (Res.panic p, c1)

/-- Go `defer`: `cleanup` runs when `body` returns, with or without error,
and also when it panics; the outcome is that of `body` unless `cleanup`
itself panics. -/
def withDefer (cleanup : Run Env Ev σ Unit) (body : Run Env Ev σ α) : Run Env Ev σ α := fun env c =>
  match body env c with
  | (r, c1) =>
    match cleanup env c1 with
    | (Res.panic p, c2) => (Res.panic p, c2)
    | (_, c2) => (r, c2)

/-- Dereference of a pointer taken from a map: a missing entry is the nil
pointer. -/
def deref (p : Option α) : Run Env Ev σ α :=
  match p with
  | some a => ret a
  | none => panic "invalid memory address or nil pointer dereference"

end Run

/-! ## Go standard library functions used by the sources -/

namespace strings

/-- Go `strings.Contains`. -/
def Contains (s substr : String) : Bool := decide (substr.toList <:+: s.toList)

/-- Go `strings.HasSuffix`. -/
def HasSuffix (s suffix : String) : Bool := decide (suffix.toList <:+ s.toList)

/-- Go `strings.Join`. -/
def Join (elems : List String) (sep : String) : String := sep.intercalate elems

end strings

namespace filepath

/-- Strip the trailing slashes of a path given as its characters. -/
def stripTrailingSlashes (cs : List Char) : List Char :=
  (cs.reverse.dropWhile (fun c => c == '/')).reverse

/-- Go `filepath.Base` on Unix: the last element of the path, trailing
slashes removed first; `.` for the empty path and `/` for a path of
slashes only. -/
def Base (path : String) : String :=
  if path = "" then "."
  else
    let p := stripTrailingSlashes path.toList
    let last := (p.reverse.takeWhile (fun c => c != '/')).reverse
    if last = [] then "/" else String.mk last

/-- Elements of a path between slashes, empty and `.` elements dropped. -/
def elements (cs : List Char) : List (List Char) :=
  (cs.splitOn '/').filter (fun e => e != [] && e != ['.'])

/-- One step of the lexical processing of `Clean`: `out` holds the elements
kept so far, last one first; a `..` element removes the last kept element
when that is a real one, is dropped at the root, and is kept otherwise. -/
def cleanStep (rooted : Bool) (out : List (List Char)) (e : List Char) : List (List Char) :=
  if e = ['.', '.'] then
    match out with
    | [] => if rooted then [] else [e]
    | top :: rest => if top = ['.', '.'] then e :: out else rest
  else e :: out

/-- Go `filepath.Clean` on Unix. -/
def Clean (path : String) : String :=
  if path = "" then "."
  else
    let cs := path.toList
    let rooted := cs.head? == some '/'
    let kept := ((elements cs).foldl (cleanStep rooted) []).reverse
    let body := String.mk (List.intercalate ['/'] kept)
    if rooted then "/" ++ body else if kept = [] then "." else body

/-- Go `filepath.Join`: the elements from the first non-empty one on, joined
with slashes and cleaned; the empty string when all are empty. -/
def Join (elem : List String) : String :=
  match elem.dropWhile (fun e => e == "") with
  | [] => ""
  | rest => Clean (strings.Join rest "/")

end filepath

namespace syscall

/-- Linux mount flag `MS_RDONLY`. -/
def MS_RDONLY : Nat := 1
/-- Linux mount flag `MS_NOSUID`. -/
def MS_NOSUID : Nat := 2
/-- Linux mount flag `MS_NODEV`. -/
def MS_NODEV : Nat := 4
/-- Linux mount flag `MS_NOEXEC`. -/
def MS_NOEXEC : Nat := 8
/-- Linux mount flag `MS_NOATIME`. -/
def MS_NOATIME : Nat := 1024
/-- Linux mount flag `MS_SILENT`. -/
def MS_SILENT : Nat := 32768
/-- Linux unmount flag `MNT_DETACH`. -/
def MNT_DETACH : Nat := 2
/-- Signal number of `SIGKILL`. -/
def SIGKILL : Nat := 9

end syscall

/-! ## Data model of the snapshot orchestrator (`orchestrator.go`) -/

/-- Handle of a `containerd.Image`. -/
structure Image where
  name : String
  deriving Repr, DecidableEq

/-- Handle of a `containerd.Container`. -/
structure Container where
  ID : String
  deriving Repr, DecidableEq

/-- Handle of a `containerd.Task`. -/
structure Task where
  ID : String
  deriving Repr, DecidableEq

/-- A containerd `leases.Lease`. -/
structure Lease where
  ID : String
  deriving Repr, DecidableEq

/-- A containerd `mount.Mount`. -/
structure Mount where
  Kind : String
  Source : String
  Options : List String
  deriving Repr, DecidableEq

/-- Go `VMInfo`; a nil `ctr` or `task` interface is `none`. -/
structure VMInfo where
  imgName : String
  ctrSnapKey : String
  snapBooted : Bool
  ctrSnapDevPath : String
  ctr : Option Container
  task : Option Task
  deriving Repr, DecidableEq

/-- Zero value of `VMInfo`, which a map read yields for a missing key. -/
def VMInfo.zero : VMInfo :=
  { imgName := "", ctrSnapKey := "", snapBooted := false, ctrSnapDevPath := "",
    ctr := none, task := none }

/-- Go `snapshot` of `snapinfo.go`: the content of an infofile. -/
structure snapshot where
  Img : String
  deriving Repr, DecidableEq

namespace snapshotting

/-- Go `snapshotting.Snapshot`. -/
structure Snapshot where
  id : String
  baseFolder : String
  img : String
  totalSizeMiB : Int
  deriving Repr, DecidableEq

/-- Go `NewSnapshot`. -/
def NewSnapshot (id baseFolder : String) : Snapshot :=
  { id := id, baseFolder := filepath.Join [baseFolder, id], img := "", totalSizeMiB := 0 }

/-- Go `Snapshot.GetBaseFolder`. -/
def Snapshot.GetBaseFolder (snp : Snapshot) : String := snp.baseFolder

/-- Go `Snapshot.GetSnapFilePath`. -/
def Snapshot.GetSnapFilePath (snp : Snapshot) : String := filepath.Join [snp.baseFolder, "snapfile"]

/-- Go `Snapshot.GetMemFilePath`. -/
def Snapshot.GetMemFilePath (snp : Snapshot) : String := filepath.Join [snp.baseFolder, "memfile"]

/-- Go `Snapshot.GetCtrSnapCommitName`. -/
def Snapshot.GetCtrSnapCommitName (snp : Snapshot) : String := snp.img ++ "-commit-" ++ snp.id

/-- Go `Snapshot.GetInfoFilePath`. -/
def Snapshot.GetInfoFilePath (snp : Snapshot) : String := filepath.Join [snp.baseFolder, "infofile"]

/-- Modelled from the spec: `Snapshot.GetPatchFilePath` of the orchestrator's
own `snapshotting` package, which is not among the sources; the spec puts the
patch at the fixed name `patchfile` in the snapshot's directory, next to the
three files whose accessors are above. -/
def Snapshot.GetPatchFilePath (snp : Snapshot) : String := filepath.Join [snp.baseFolder, "patchfile"]

end snapshotting

/-- Go `proto.FirecrackerMachineConfiguration`, the fields the sources set. -/
structure FirecrackerMachineConfiguration where
  VcpuCount : Nat
  MemSizeMib : Nat
  deriving Repr, DecidableEq

/-- Go `proto.IPConfiguration`. -/
structure IPConfiguration where
  PrimaryAddr : String
  GatewayAddr : String
  Nameservers : List String
  deriving Repr, DecidableEq

/-- Go `proto.StaticNetworkConfiguration`. -/
structure StaticNetworkConfiguration where
  MacAddress : String
  HostDevName : String
  IPConfig : IPConfiguration
  deriving Repr, DecidableEq

/-- Go `proto.FirecrackerNetworkInterface`. -/
structure FirecrackerNetworkInterface where
  StaticConfig : StaticNetworkConfiguration
  deriving Repr, DecidableEq

/-- Go `proto.CreateVMRequest`, the fields the sources set; a field a
literal leaves out has its zero value. -/
structure CreateVMRequest where
  VMID : String
  MachineCfg : FirecrackerMachineConfiguration
  NetworkInterfaces : List FirecrackerNetworkInterface
  NetNS : String
  LoadSnapshot : Bool
  MemFilePath : String
  SnapshotPath : String
  ContainerSnapshotPath : String
  deriving Repr, DecidableEq

/-- Go `proto.CreateSnapshotRequest`. -/
structure CreateSnapshotRequest where
  VMID : String
  MemFilePath : String
  SnapshotPath : String
  deriving Repr, DecidableEq

/-- What `networkManager.GetConfig(vmID)` gives access to. -/
structure NetworkConfig where
  ContainerCIDR : String
  GatewayIP : String
  NamespacePath : String
  CloneIP : String
  deriving Repr, DecidableEq

/-- Go `Orchestrator`: the in-memory tables; `BasePath` is
`snapshotManager.BasePath`.  The client handles are the environment. -/
structure Orchestrator where
  cachedImages : GoMap Image
  vms : GoMap VMInfo
  snapshotter : String
  leases : GoMap Lease
  BasePath : String

/-- The orchestrator together with the files on disk it reads and writes
itself (the infofiles), each file a list of bytes. -/
structure Host where
  orch : Orchestrator
  files : GoMap (List Nat)

/-- External calls of the orchestrator and of its helpers, with their
arguments. -/
inductive Event where
  /-- Hypervisor `fcClient.PauseVM`. -/
  | PauseVM (vmID : String)
  /-- Hypervisor `fcClient.ResumeVM`. -/
  | ResumeVM (vmID : String)
  /-- Hypervisor `fcClient.CreateSnapshot`. -/
  | CreateSnapshot (req : CreateSnapshotRequest)
  /-- Hypervisor `fcClient.CreateVM`. -/
  | CreateVM (req : CreateVMRequest)
  /-- Hypervisor `fcClient.StopVM`. -/
  | StopVM (vmID : String)
  /-- Snapshot registry `snapshotManager.RegisterSnap`. -/
  | RegisterSnap (revision : String)
  /-- Snapshot registry `Commit` of the specification. -/
  | Commit (revision : String)
  /-- Image pull `client.Pull` with unpacking for the given snapshotter. -/
  | Pull (ref snapshotter : String)
  /-- Image method `img.RootFS`. -/
  | RootFS (img : Image)
  /-- Lease creation `leaseManager.Create` with `leases.WithID`. -/
  | LeaseCreate (id : String)
  /-- Lease deletion `leaseManager.Delete`. -/
  | LeaseDelete (lease : Lease)
  /-- Snapshot preparation `snapshotService.Prepare` under the lease in the context. -/
  | Prepare (leaseID key parent : String)
  /-- Snapshot removal `snapshotService.Remove`. -/
  | SnapshotRemove (key : String)
  /-- Task method `task.Kill`. -/
  | TaskKill (task : Task) (signal : Nat)
  /-- Task method `task.Wait`. -/
  | TaskWait (task : Task)
  /-- Receipt of the exit status from the channel `task.Wait` returned. -/
  | ExitStatus (task : Task)
  /-- Task method `task.Delete`. -/
  | TaskDelete (task : Task)
  /-- Container method `ctr.Delete`, with or without `WithSnapshotCleanup`. -/
  | ContainerDelete (ctr : Container) (snapshotCleanup : Bool)
  /-- Network release `networkManager.RemoveNetwork`. -/
  | RemoveNetwork (vmID : String)
  /-- Go `os.MkdirTemp`. -/
  | MkdirTemp (dir pattern : String)
  /-- Go `syscall.Mount`. -/
  | Mount (source target fstype : String) (flags : Nat) (data : String)
  /-- Go `syscall.Unmount`. -/
  | Unmount (target : String) (flags : Nat)
  /-- Go `os.RemoveAll`. -/
  | RemoveAll (path : String)
  /-- Go `os.Remove`. -/
  | Remove (path : String)
  /-- Subprocess `exec.Command(name, args...).Run()`. -/
  | Exec (name : String) (args : List String)
  /-- Go `os.Create`. -/
  | Create (path : String)
  /-- Gob `Encode` of a value into the file created at the path. -/
  | Encode (path : String) (v : snapshot)
  /-- Go `os.Open`. -/
  | Open (path : String)
  /-- Gob `Decode` from the file opened at the path. -/
  | Decode (path : String)
  /-- File method `file.Close`. -/
  | Close (path : String)
  deriving Repr, DecidableEq

/-- The outside world of the orchestrator.  Each field answers the calls
with one kind of result; the trace it is given ends with the call being
answered.  `ChainID` is `identity.ChainID(...).String()`; `gobEncode` and
`gobDecode` are the byte stream a gob encoder writes for a `snapshot` and
what a gob decoder reads from a byte stream. -/
structure Env where
  status : List Event → Except Error Unit
  path : List Event → Except Error String
  image : List Event → Except Error Image
  digests : List Event → Except Error (List String)
  lease : List Event → Except Error Lease
  mounts : List Event → Except Error (List Mount)
  snap : List Event → Except Error snapshotting.Snapshot
  netConfig : List Event → String → Option NetworkConfig
  ChainID : List String → String
  gobEncode : snapshot → List Nat
  gobDecode : List Nat → Except Error snapshot

/-- Bodies of the orchestrator's functions. -/
abbrev M (α : Type) : Type := Run Env Event Host α

/-- Read the orchestrator's tables. -/
def getOrch : M Orchestrator := fun _ c => (Res.ok c.st.orch, c)

/-- Update the orchestrator's tables. -/
def modifyOrch (f : Orchestrator → Orchestrator) : M Unit :=
  Run.modify (fun h => { h with orch := f h.orch })

/-- Map read `orch.vms[vmID]`. -/
def Orchestrator.vm (orch : Orchestrator) (vmID : String) : VMInfo :=
  (orch.vms vmID).getD VMInfo.zero

/-! ## Constants of `taskworkflow.go`

The orchestrator uses constants of the same names; the file of its package
that declares them is not among the sources. -/

/-- Go constant `macAddress`. -/
def macAddress : String := "AA:FC:00:00:00:01"
/-- Go constant `hostDevName`. -/
def hostDevName : String := "tap0"
/-- Go constant `snapshotter`. -/
def snapshotter : String := "devmapper"

/-- Go `getSnapKey`. -/
def getSnapKey (vmID : String) : String := "demo-snap" ++ vmID

/-! ## Block-device helpers and the patch engine (`devmapper.go`) -/

/-- Go `addTrailingSlash`. -/
def addTrailingSlash (path : String) : String :=
  if strings.HasSuffix path "/" then path else path ++ "/"

/-- Go `removeTrailingSlash`. -/
def removeTrailingSlash (path : String) : String :=
  if strings.HasSuffix path "/" then String.mk path.toList.dropLast else path

/-- Flag word that `mountExt4` passes to `syscall.Mount`. -/
def mountExt4Flags (readOnly : Bool) : Nat :=
  let flags := syscall.MS_NOATIME ||| syscall.MS_NODEV ||| syscall.MS_NOEXEC |||
    syscall.MS_NOSUID ||| syscall.MS_SILENT
  if readOnly then flags ||| syscall.MS_RDONLY else flags

/-- Option list that `mountExt4` joins with commas. -/
def mountExt4Options (readOnly : Bool) : List String :=
  if readOnly then [] ++ ["noload"] else []

/-- Go `mountExt4`. -/
def mountExt4 (devicePath mountPath : String) (readOnly : Bool) : M Unit :=
  Run.call (Event.Mount devicePath mountPath "ext4" (mountExt4Flags readOnly)
    (strings.Join (mountExt4Options readOnly) ",")) Env.status

/-- Go `mountCtrSnap`. -/
def mountCtrSnap (ctrSnapDevPath : String) (readOnly : Bool) : M String := do
  let snapDevName := filepath.Base ctrSnapDevPath
  let mountDir ← Run.call (Event.MkdirTemp "" snapDevName) Env.path
  let mountDir := removeTrailingSlash mountDir
  Run.wrapErr ("mounting " ++ ctrSnapDevPath ++ " at " ++ mountDir ++ ": ")
    (mountExt4 ctrSnapDevPath mountDir readOnly)
  pure mountDir

/-- Go `unMountExt4`. -/
def unMountExt4 (mountPath : String) : M Unit :=
  Run.call (Event.Unmount mountPath syscall.MNT_DETACH) Env.status

/-- Go `unmountCtrSnap`. -/
def unmountCtrSnap (ctrSnapMountPath : String) : M Unit := do
  Run.wrapErr ("unmounting " ++ ctrSnapMountPath ++ ": ") (unMountExt4 ctrSnapMountPath)
  Run.wrapErr ("removing " ++ ctrSnapMountPath ++ ": ")
    (Run.call (Event.RemoveAll ctrSnapMountPath) Env.status)

/-- Go `createPatch`. -/
def createPatch (imgMountPath ctrSnapMountPath patchPath : String) : M Unit := do
  let patchArg := "--only-write-batch=" ++ patchPath
  Run.wrapErr ("creating patch between " ++ imgMountPath ++ " and " ++ ctrSnapMountPath ++
      " at " ++ patchPath ++ ": ")
    (Run.call (Event.Exec "sudo" ["rsync", "-ar", patchArg, addTrailingSlash imgMountPath,
      addTrailingSlash ctrSnapMountPath]) Env.status)
  Run.wrapErr ("removing " ++ (patchPath ++ ".sh") ++ ": ")
    (Run.call (Event.Remove (patchPath ++ ".sh")) Env.status)

/-- Go `applyPatch`. -/
def applyPatch (ctrSnapMountPath patchPath : String) : M Unit := do
  let patchArg := "--read-batch=" ++ patchPath
  Run.wrapErr ("applying " ++ patchPath ++ " at " ++ ctrSnapMountPath ++ ": ")
    (Run.call (Event.Exec "sudo" ["rsync", "-ar", patchArg, addTrailingSlash ctrSnapMountPath])
      Env.status)

/-- Go `digHoles`. -/
def digHoles (filePath : String) : M Unit :=
  Run.wrapErr ("digging holes in " ++ filePath ++ ": ")
    (Run.call (Event.Exec "sudo" ["fallocate", "--dig-holes", filePath]) Env.status)

/-! ## The infofile (`snapinfo.go`) -/

/-- Go `os.Create`: on success the file exists and is empty. -/
def osCreate (path : String) : M Unit := do
  Run.call (Event.Create path) Env.status
  Run.modify (fun h => { h with files := h.files.set path [] })

/-- Gob `encoder.Encode(snapInfo)` on the file just created at `path`: on
success the file holds the encoder's byte stream for the value. -/
def gobEncodeTo (path : String) (snapInfo : snapshot) : M Unit := do
  Run.call (Event.Encode path snapInfo) Env.status
  let bytes ← Run.ask (fun env _ => env.gobEncode snapInfo)
  Run.modify (fun h => { h with files := h.files.set path bytes })

/-- Go `os.Open`, yielding the content of the file: it fails when there is no
file at the path, and reading a file that exists does not fail. -/
def osOpen (path : String) : M (List Nat) := fun _ c =>
  let c1 : Cfg Host Event := { c with trace := c.trace ++ [Event.Open path] }
  match c.st.files path with
  | some bytes => (Res.ok bytes, c1)
  | none => (Res.err ("open " ++ path ++ ": no such file or directory"), c1)

/-- Gob `decoder.Decode(snapInfo)` on the file opened at `path` with the
given content. -/
def gobDecodeFrom (path : String) (bytes : List Nat) : M snapshot := fun env c =>
  let c1 : Cfg Host Event := { c with trace := c.trace ++ [Event.Decode path] }
  match env.gobDecode bytes with
  | Except.ok v => (Res.ok v, c1)
  | Except.error e => (Res.err e, c1)

/-- Go `file.Close`. -/
def fileClose (path : String) : M Unit := Run.call (Event.Close path) Env.status

/-- Go `serializeSnapInfo`. -/
def serializeSnapInfo (storePath : String) (snapInfo : snapshot) : M Unit := do
  Run.wrapErr "failed to create snapinfo file: " (osCreate storePath)
  Run.withDefer (Run.ignoreErr (fileClose storePath)) do
    Run.wrapErr "failed to encode snapinfo: " (gobEncodeTo storePath snapInfo)

/-- Go `deserializeSnapInfo`. -/
def deserializeSnapInfo (storePath : String) : M snapshot := do
  let bytes ← Run.wrapErr "failed to open snapinfo file: " (osOpen storePath)
  Run.withDefer (Run.ignoreErr (fileClose storePath)) do
    Run.wrapErr "failed to decode snapinfo: " (gobDecodeFrom storePath bytes)

/-! ## The orchestrator's workflows (`orchestrator.go`) -/

/-- Go `getImageURL`. -/
def getImageURL (image : String) : String :=
  if strings.Contains image "." then image else "docker.io/" ++ image

/-- Go `Orchestrator.getContainerImage`. -/
def getContainerImage (imageName : String) : M Image := do
  let orch ← getOrch
  match orch.cachedImages imageName with
  | some image => pure image
  | none =>
    let imageURL := getImageURL imageName
    let image ← Run.wrapErr "pulling container image: "
      (Run.call (Event.Pull imageURL snapshotter) Env.image)
    modifyOrch (fun o => { o with cachedImages := o.cachedImages.set imageName image })
    pure image

/-- Go `getImageKey`; calling `RootFS` on a nil image panics. -/
def getImageKey (img : Option Image) : M String := do
  let img ← Run.deref img
  let diffIDs ← Run.call (Event.RootFS img) Env.digests
  Run.ask (fun env _ => env.ChainID diffIDs)

/-- Go `Orchestrator.createCtrSnap`. -/
def createCtrSnap (snapKey : String) (img : Option Image) : M String := do
  let parent ← getImageKey img
  let lease ← Run.call (Event.LeaseCreate snapKey) Env.lease
  modifyOrch (fun o => { o with leases := o.leases.set snapKey lease })
  let mounts ← Run.call (Event.Prepare lease.ID snapKey parent) Env.mounts
  match mounts with
  | [m] => pure m.Source
  | _ => Run.panic "expected snapshot to only have one mount"

/-- The function deferred by `extractPatch` once the temporary image snapshot
exists. -/
def extractPatchCleanup (tempImageSnapshotKey : String) (vmInfo : VMInfo) : M Unit := do
  Run.ignoreErr (Run.call (Event.SnapshotRemove tempImageSnapshotKey) Env.status)
  let lease ← Run.deref ((← getOrch).leases tempImageSnapshotKey)
  Run.ignoreErr (Run.call (Event.LeaseDelete lease) Env.status)
  modifyOrch (fun o => { o with leases := o.leases.delete vmInfo.ctrSnapKey })

/-- Go `Orchestrator.extractPatch`. -/
def extractPatch (vmID patchPath : String) : M Unit := do
  let orch ← getOrch
  let vmInfo := orch.vm vmID
  let vmImage := orch.cachedImages vmInfo.imgName
  let tempImageSnapshotKey := "tempimagesnap" ++ vmID
  let imgDevPath ← Run.wrapErr "creating image snapshot: "
    (createCtrSnap tempImageSnapshotKey vmImage)
  Run.withDefer (extractPatchCleanup tempImageSnapshotKey vmInfo) do
    let imgMountPath ← Run.wrapErr "mounting image snapshot: " (mountCtrSnap imgDevPath true)
    Run.withDefer (Run.ignoreErr (unmountCtrSnap imgMountPath)) do
      let ctrSnapMountPath ← Run.wrapErr "mounting container snapshot: "
        (mountCtrSnap vmInfo.ctrSnapDevPath true)
      Run.withDefer (Run.ignoreErr (unmountCtrSnap ctrSnapMountPath)) do
        createPatch imgMountPath ctrSnapMountPath patchPath

/-- Go `Orchestrator.restoreCtrSnap`. -/
def restoreCtrSnap (ctrSnapDevPath patchPath : String) : M Unit := do
  let ctrSnapMountPath ← mountCtrSnap ctrSnapDevPath false
  applyPatch ctrSnapMountPath patchPath
  unmountCtrSnap ctrSnapMountPath

/-- Go `Orchestrator.createSnapshot`. -/
def createSnapshot (vmID revision : String) : M Unit := do
  Run.wrapErr "pausing VM: " (Run.call (Event.PauseVM vmID) Env.status)
  let snap ← Run.wrapErr "adding snapshot to snapshot manager: "
    (Run.call (Event.RegisterSnap revision) Env.snap)
  let createSnapshotRequest : CreateSnapshotRequest :=
    { VMID := vmID, MemFilePath := snap.GetMemFilePath, SnapshotPath := snap.GetSnapFilePath }
  Run.wrapErr "creating VM snapshot: "
    (Run.call (Event.CreateSnapshot createSnapshotRequest) Env.status)
  extractPatch vmID snap.GetPatchFilePath
  Run.wrapErr "resuming VM: " (Run.call (Event.ResumeVM vmID) Env.status)
  Run.wrapErr "digging holes in guest memory file: " (digHoles snap.GetMemFilePath)
  let snapInfo : snapshot := { Img := ((← getOrch).vm vmID).imgName }
  Run.wrapErr "serializing snapshot information: "
    (serializeSnapInfo snap.GetInfoFilePath snapInfo)

/-- Go `Orchestrator.restoreSnapInfo`. -/
def restoreSnapInfo (vmID snapshotKey infoFile : String) : M VMInfo := do
  let snapInfo ← Run.wrapErr "deserializing snapshot information: "
    (deserializeSnapInfo infoFile)
  let vmInfo : VMInfo :=
    { VMInfo.zero with imgName := snapInfo.Img, ctrSnapKey := snapshotKey, snapBooted := true }
  modifyOrch (fun o => { o with vms := o.vms.set vmID vmInfo })
  pure vmInfo

/-- A getter called on `networkManager.GetConfig(vmID)`; on a nil
configuration it panics. -/
def netConfigOf (vmID : String) : M NetworkConfig := do
  let cfg ← Run.ask (fun env tr => env.netConfig tr vmID)
  Run.deref cfg

/-- Go `Orchestrator.bootVMFromSnapshot`. -/
def bootVMFromSnapshot (vmID revision : String) : M Unit := do
  let snapKey := getSnapKey vmID
  let basePath := (← getOrch).BasePath
  let vmInfo ← Run.wrapErr "restoring snapshot information: "
    (restoreSnapInfo vmID snapKey (filepath.Join [basePath, revision, "infofile"]))
  let img ← Run.wrapErr "getting container image: " (getContainerImage vmInfo.imgName)
  let ctrSnapDevPath ← Run.wrapErr "creating container snapshot: "
    (createCtrSnap snapKey (some img))
  Run.wrapErr "restoring container snapshot: "
    (restoreCtrSnap ctrSnapDevPath (filepath.Join [basePath, revision, "patchfile"]))
  let primaryAddr := (← netConfigOf vmID).ContainerCIDR
  let gatewayAddr := (← netConfigOf vmID).GatewayIP
  let netNS := (← netConfigOf vmID).NamespacePath
  let createVMRequest : CreateVMRequest :=
    { VMID := vmID,
      MachineCfg := { VcpuCount := 2, MemSizeMib := 2048 },
      NetworkInterfaces := [{ StaticConfig :=
        { MacAddress := macAddress, HostDevName := hostDevName,
          IPConfig := { PrimaryAddr := primaryAddr, GatewayAddr := gatewayAddr,
                        Nameservers := ["8.8.8.8"] } } }],
      NetNS := netNS,
      LoadSnapshot := true,
      MemFilePath := filepath.Join [basePath, revision, "memfile"],
      SnapshotPath := filepath.Join [basePath, revision, "snapfile"],
      ContainerSnapshotPath := ctrSnapDevPath }
  Run.wrapErr "creating firecracker VM: "
    (Run.call (Event.CreateVM createVMRequest) Env.status)

/-- Go `Orchestrator.stopVm`. -/
def stopVm (vmID : String) : M Unit := do
  let vmInfo := (← getOrch).vm vmID
  if !vmInfo.snapBooted then
    let task ← Run.deref vmInfo.task
    Run.wrapErr "killing container: " (Run.call (Event.TaskKill task syscall.SIGKILL) Env.status)
    Run.wrapErr "retrieving container task exit code channel: "
      (Run.call (Event.TaskWait task) Env.status)
    Run.call (Event.ExitStatus task) (fun _ _ => Except.ok ())
    Run.wrapErr "deleting container task: " (Run.call (Event.TaskDelete task) Env.status)
    let ctr ← Run.deref vmInfo.ctr
    Run.wrapErr "deleting container: " (Run.call (Event.ContainerDelete ctr true) Env.status)
  Run.call (Event.StopVM vmID) Env.status
  if vmInfo.snapBooted then
    Run.call (Event.SnapshotRemove vmInfo.ctrSnapKey) Env.status
    let lease ← Run.deref ((← getOrch).leases vmInfo.ctrSnapKey)
    Run.call (Event.LeaseDelete lease) Env.status
    modifyOrch (fun o => { o with leases := o.leases.delete vmInfo.ctrSnapKey })
  Run.call (Event.RemoveNetwork vmID) Env.status

/-! ## Number parsing (`strconv`) -/

namespace strconv

/-- Result of Go `strconv.ParseUint`: the value and the error, `none` for nil. -/
abbrev ParseResult := Nat × Option Error

/-- Error `*NumError` with `ErrSyntax`.  The value stands between the quotes
as it is: the escapes that `strconv.Quote` writes for quotes, backslashes and
non-printable characters are not modelled, here and in `rangeError`. -/
def syntaxError (s : String) : Error := "strconv.ParseUint: parsing \"" ++ s ++ "\": invalid syntax"

/-- Error `*NumError` with `ErrRange`. -/
def rangeError (s : String) : Error :=
  "strconv.ParseUint: parsing \"" ++ s ++ "\": value out of range"

/-- Value of a byte as a digit, as the `switch` in the loop of `ParseUint`
computes it: decimal digits, then letters of either case from ten on; `none`
is the `default` branch.  A character outside ASCII stands for bytes of 128
and above, which take the `default` branch as well. -/
def digitVal (c : Char) : Option Nat :=
  if '0'.toNat ≤ c.toNat ∧ c.toNat ≤ '9'.toNat then some (c.toNat - '0'.toNat)
  else if 'a'.toNat ≤ (c.toNat ||| 32) ∧ (c.toNat ||| 32) ≤ 'z'.toNat then
    some ((c.toNat ||| 32) - 'a'.toNat + 10)
  else none

/-- The loop of `ParseUint` over the bytes left to read, `n` being the
`uint64` accumulated so far. -/
def parseLoop (s0 : String) (base cutoff maxVal : Nat) : List Char → Nat → ParseResult
  | [], n => (n, none)
  | c :: cs, n =>
    match digitVal c with
    | none => (0, some (syntaxError s0))
    | some d =>
      if d ≥ base then (0, some (syntaxError s0))
      else if n ≥ cutoff then (maxVal, some (rangeError s0))
      else
        let n := (n * base) % 2 ^ 64
        let n1 := (n + d) % 2 ^ 64
        if n1 < n ∨ n1 > maxVal then (maxVal, some (rangeError s0))
        else parseLoop s0 base cutoff maxVal cs n1

/-- Go `strconv.ParseUint(s, base, bitSize)` for an explicit base from 2 to
36 and a bit size from 1 to 64, which is how the sources call it: no sign, no
base prefix and no underscore is accepted. -/
def ParseUint (s : String) (base bitSize : Nat) : ParseResult :=
  if s = "" then (0, some (syntaxError s))
  else
    let cutoff := (2 ^ 64 - 1) / base + 1
    let maxVal := 2 ^ bitSize - 1
    parseLoop s base cutoff maxVal s.toList 0

end strconv

/-! ## The CRI service (`cri/firecracker/service.go`) -/

namespace firecracker

/-- Go constant `userContainerName`. -/
def userContainerName : String := "user-container"
/-- Go constant `queueProxyName`. -/
def queueProxyName : String := "queue-proxy"
/-- Go constant `revisionEnv`. -/
def revisionEnv : String := "K_REVISION"
/-- Go constant `guestIPEnv`. -/
def guestIPEnv : String := "GUEST_ADDR"
/-- Go constant `guestPortEnv`. -/
def guestPortEnv : String := "GUEST_PORT"
/-- Go constant `guestImageEnv`. -/
def guestImageEnv : String := "GUEST_IMAGE"
/-- Go constant `guestMemorySizeMibEnv`. -/
def guestMemorySizeMibEnv : String := "MEM_SIZE_MB"
/-- Go constant `guestvCPUCountEnv`. -/
def guestvCPUCountEnv : String := "VCPU_COUNT"
/-- Go constant `defaultMemSize`. -/
def defaultMemSize : Nat := 256
/-- Go constant `defaultvCPUCount`. -/
def defaultvCPUCount : Nat := 1

/-- CRI `KeyValue`.  A nil entry of an environment list reads as the empty
key with the empty value. -/
structure KeyValue where
  Key : String
  Value : String
  deriving Repr, DecidableEq

/-- CRI `ContainerMetadata`. -/
structure ContainerMetadata where
  Name : String
  Attempt : Nat
  deriving Repr, DecidableEq

/-- CRI `ContainerConfig`, the fields the service reads or writes. -/
structure ContainerConfig where
  Metadata : Option ContainerMetadata
  Envs : List KeyValue
  deriving Repr, DecidableEq

/-- CRI `CreateContainerRequest`; a nil `Config` is `none`. -/
structure CreateContainerRequest where
  PodSandboxId : String
  Config : Option ContainerConfig
  deriving Repr, DecidableEq

/-- CRI `CreateContainerResponse`. -/
structure CreateContainerResponse where
  ContainerId : String
  deriving Repr, DecidableEq

/-- Getter `config.GetEnvs()`, which yields no entries on a nil receiver. -/
def GetEnvs (config : Option ContainerConfig) : List KeyValue :=
  match config with
  | some cfg => cfg.Envs
  | none => []

/-- Go `VMConfig`. -/
structure VMConfig where
  guestIP : String
  guestPort : String
  deriving Repr, DecidableEq

/-- Go `FirecrackerService`: the pod map; the clients are the environment. -/
structure FirecrackerService where
  vmConfigs : GoMap VMConfig

/-- The response inside what the coordinator's `startVM` returns, as far as
the service reads it. -/
structure StartVMResponse where
  GuestIP : String
  deriving Repr, DecidableEq

/-- What the coordinator's `startVM` returns, as far as the service reads it. -/
structure FuncInstance where
  StartVMResponse : StartVMResponse
  deriving Repr, DecidableEq

/-- Go `getEnvVal`. -/
def getEnvVal (key : String) (config : Option ContainerConfig) : String × Option Error :=
  let rec loop : List KeyValue → String × Option Error
    | [] => ("", some "failed to retrieve environment variable from user container config")
    | kv :: envs => if kv.Key = key then (kv.Value, none) else loop envs
  loop (GetEnvs config)

/-- The loop of `getMemorySize` and of `getvCPUCount`, which differ in the key
and in the default only. -/
def getUint32 (key : String) (dflt : Nat) : List KeyValue → Nat × Option Error
  | [] => (dflt, none)
  | kv :: envs =>
    if kv.Key = key then
      match strconv.ParseUint kv.Value 10 32 with
      | (v, none) => (v % 2 ^ 32, none)
      | (_, some err) => (0, some err)
    else getUint32 key dflt envs

/-- Go `getMemorySize`. -/
def getMemorySize (config : Option ContainerConfig) : Nat × Option Error :=
  getUint32 guestMemorySizeMibEnv defaultMemSize (GetEnvs config)

/-- Go `getvCPUCount`. -/
def getvCPUCount (config : Option ContainerConfig) : Nat × Option Error :=
  getUint32 guestvCPUCountEnv defaultvCPUCount (GetEnvs config)

/-- External calls of the CRI service. -/
inductive Event where
  /-- Stock runtime `stockRuntimeClient.CreateContainer`. -/
  | StockCreateContainer (r : CreateContainerRequest)
  /-- Stock runtime `stockRuntimeClient.RemoveContainer`. -/
  | StockRemoveContainer (containerID : String)
  /-- Coordinator `startVM`. -/
  | startVM (image revision : String) (memSizeMib vCPUCount : Nat)
  /-- Coordinator `insertActive`. -/
  | insertActive (containerID : String) (funcInst : FuncInstance)
  /-- Coordinator `stopVM`. -/
  | stopVM (containerID : String)
  deriving Repr, DecidableEq

/-- The stock runtime and the coordinator; the trace a field is given ends
with the call being answered. -/
structure Env where
  stock : List Event → Except Error CreateContainerResponse
  vm : List Event → Except Error FuncInstance
  status : List Event → Except Error Unit

/-- Bodies of the service's functions. -/
abbrev M (α : Type) : Type := Run Env Event FirecrackerService α

/-- Go `return nil, err` when the second component of a pair is a non-nil
error, and the first component otherwise. -/
def orReturn {α : Type} (r : α × Option Error) : M α :=
  match r with
  | (a, none) => Run.ret a
  | (_, some err) => Run.fail err

/-- Go `FirecrackerService.insertVMConfig`. -/
def insertVMConfig (podID : String) (vmConfig : VMConfig) : M Unit :=
  Run.modify (fun fs => { fs with vmConfigs := fs.vmConfigs.set podID vmConfig })

/-- Go `FirecrackerService.removeVMConfig`. -/
def removeVMConfig (podID : String) : M Unit :=
  Run.modify (fun fs => { fs with vmConfigs := fs.vmConfigs.delete podID })

/-- Go `FirecrackerService.getVMConfig`. -/
def getVMConfig (podID : String) : M VMConfig := do
  match (← Run.get).vmConfigs podID with
  | some vmConfig => pure vmConfig
  | none => Run.fail "VM config for pod does not exist"

/-- The goroutine of `createUserContainer` that asks the stock runtime for the
placeholder container.  It is taken to issue its call when it is started; the
outcome of the call is kept for the caller, who reads it only after waiting on
`stockDone`.  The call runs concurrently with the caller, so its place in the
trace among the caller's own calls is this model's choice. -/
def goStockCreate (r : CreateContainerRequest) : M (Except Error CreateContainerResponse) :=
  fun env c =>
    let tr := c.trace ++ [Event.StockCreateContainer r]
    (Res.ok (env.stock tr), { c with trace := tr })

/-- Go `FirecrackerService.createUserContainer`. -/
def createUserContainer (r : CreateContainerRequest) : M CreateContainerResponse := do
  let stock ← goStockCreate r
  let config := r.Config
  let guestImage ← orReturn (getEnvVal guestImageEnv config)
  let revision ← orReturn (getEnvVal revisionEnv config)
  let memSizeMib ← orReturn (getMemorySize config)
  let vCPUCount ← orReturn (getvCPUCount config)
  let funcInst ← Run.call (Event.startVM guestImage revision memSizeMib vCPUCount) Env.vm
  let guestPort ← orReturn (getEnvVal guestPortEnv config)
  let vmConfig : VMConfig :=
    { guestIP := funcInst.StartVMResponse.GuestIP, guestPort := guestPort }
  insertVMConfig r.PodSandboxId vmConfig
  match stock with
  | Except.error stockErr => Run.fail stockErr
  | Except.ok stockResp =>
    let containerdID := stockResp.ContainerId
    Run.call (Event.insertActive containerdID funcInst) Env.status
    pure stockResp

end firecracker

/-! ## Example environments and states

Concrete inputs on which the embedded functions are evaluated. -/

/-- Last call of a trace, the one an environment is answering. -/
def lastCall (tr : List Event) : Option Event := tr.getLast?

/-- An environment in which every external call succeeds: a lease carries
the identifier it was asked for, a pulled image the reference it was pulled
by, a registered snapshot lives under `/var/snaps`, every prepared snapshot
is the device `/dev/mapper/fc-thinpool-snap-1`, and a temporary directory is
named after its pattern.  The codec writes one byte per character. -/
def happyEnv : Env :=
  { status := fun _ => Except.ok (),
    path := fun tr =>
      match lastCall tr with
      | some (Event.MkdirTemp _ pattern) => Except.ok ("/tmp/" ++ pattern)
      | _ => Except.ok "/tmp/dir",
    image := fun tr =>
      match lastCall tr with
      | some (Event.Pull ref _) => Except.ok { name := ref }
      | _ => Except.ok { name := "" },
    digests := fun _ => Except.ok ["sha256:layer0"],
    lease := fun tr =>
      match lastCall tr with
      | some (Event.LeaseCreate id) => Except.ok { ID := id }
      | _ => Except.ok { ID := "" },
    mounts := fun _ =>
      Except.ok [{ Kind := "ext4", Source := "/dev/mapper/fc-thinpool-snap-1", Options := [] }],
    snap := fun tr =>
      match lastCall tr with
      | some (Event.RegisterSnap revision) =>
        Except.ok (snapshotting.NewSnapshot revision "/var/snaps")
      | _ => Except.error "no revision",
    netConfig := fun _ _ =>
      some { ContainerCIDR := "172.16.0.2/24", GatewayIP := "172.16.0.1",
             NamespacePath := "/var/run/netns/uvmns1", CloneIP := "172.18.0.2" },
    ChainID := fun diffIDs => strings.Join diffIDs "+",
    gobEncode := fun v => v.Img.toList.map Char.toNat,
    gobDecode := fun bytes => Except.ok { Img := String.mk (bytes.map Char.ofNat) } }

/-- A cold-booted VM as `startContainer` records it. -/
def coldVM : VMInfo :=
  { imgName := "hello", ctrSnapKey := "demo-snapvm1", snapBooted := false,
    ctrSnapDevPath := "/dev/mapper/fc-thinpool-snap-0",
    ctr := some { ID := "demo-snapvm1" }, task := some { ID := "demo-snapvm1" } }

/-- A snapshot-booted VM as `restoreSnapInfo` records it. -/
def warmVM : VMInfo :=
  { VMInfo.zero with imgName := "hello", ctrSnapKey := "demo-snapvm2", snapBooted := true }

/-- An orchestrator that runs the cold-booted `vm1` and the snapshot-booted
`vm2`, whose container snapshot it holds a lease for; the image of both is
cached and the infofile of revision `rev0` is on disk. -/
def demoHost : Host :=
  { orch :=
      { cachedImages := GoMap.empty.set "hello" { name := "docker.io/hello" },
        vms := (GoMap.empty.set "vm1" coldVM).set "vm2" warmVM,
        snapshotter := "devmapper",
        leases := GoMap.empty.set "demo-snapvm2" { ID := "demo-snapvm2" },
        BasePath := "/var/snaps" },
    files := GoMap.empty.set "/var/snaps/rev0/infofile" ("hello".toList.map Char.toNat) }

/-- The state `demoHost` before any external call. -/
def demoCfg : Cfg Host Event := { st := demoHost, trace := [] }

/-- The run `m` leaves the part `π` of the program state as it found it,
whatever the environment answers and however `m` ends. -/
def Run.Keeps {Env Ev σ α β : Type} (π : σ → β) (m : Run Env Ev σ α) : Prop :=
  ∀ env c, π (m env c).2.st = π c.st

/-! ## Decimal numerals, as the specification words them -/

/-- A decimal digit. -/
def isDigit (c : Char) : Bool := decide ('0'.toNat ≤ c.toNat ∧ c.toNat ≤ '9'.toNat)

/-- A non-empty string of decimal digits. -/
def isDecimal (v : String) : Bool := v != "" && v.toList.all isDigit

/-- The number that the digits `cs` denote when read after the number `n`. -/
def decimalFrom (n : Nat) (cs : List Char) : Nat :=
  cs.foldl (fun acc c => 10 * acc + (c.toNat - '0'.toNat)) n

/-- The number that a string of decimal digits denotes. -/
def decimalValue (v : String) : Nat := decimalFrom 0 v.toList

namespace firecracker

/-- A stock runtime and a coordinator whose calls all succeed. -/
def happyEnv : Env :=
  { stock := fun _ => Except.ok { ContainerId := "ctr-1" },
    vm := fun _ => Except.ok { StartVMResponse := { GuestIP := "172.16.0.2" } },
    status := fun _ => Except.ok () }

/-- A service with an empty pod map, before any call. -/
def demoCfg : Cfg FirecrackerService Event :=
  { st := { vmConfigs := GoMap.empty }, trace := [] }

/-- A user-container request that names the image, the revision and the
port, and neither the memory size nor the vCPU count. -/
def plainRequest : CreateContainerRequest :=
  { PodSandboxId := "pod-1",
    Config := some
      { Metadata := some { Name := "user-container", Attempt := 0 },
        Envs := [{ Key := "GUEST_IMAGE", Value := "docker.io/x/hello:1" },
                 { Key := "K_REVISION", Value := "hello-1" },
                 { Key := "GUEST_PORT", Value := "8080" }] } }

end firecracker

namespace firecracker

/-- An environment list with the three required variables and a memory
size. -/
def sizedEnvs : List KeyValue :=
  [{ Key := "GUEST_IMAGE", Value := "docker.io/x/hello:1" },
   { Key := "K_REVISION", Value := "hello-1" },
   { Key := "MEM_SIZE_MB", Value := "512" },
   { Key := "GUEST_PORT", Value := "8080" }]

/-- The list `sizedEnvs` with entries of unknown keys inserted at the front,
in the middle and at the end. -/
def paddedEnvs : List KeyValue :=
  [{ Key := "PATH", Value := "/usr/bin" },
   { Key := "GUEST_IMAGE", Value := "docker.io/x/hello:1" },
   { Key := "K_REVISION", Value := "hello-1" },
   { Key := "HOME", Value := "/root" },
   { Key := "MEM_SIZE_MB", Value := "512" },
   { Key := "GUEST_PORT", Value := "8080" },
   { Key := "K_SERVICE", Value := "hello" }]

end firecracker

namespace firecracker

/-- The service together with the request object that `r` points to, which
`createQueueProxy` changes in place. -/
structure Handling where
  fs : FirecrackerService
  r : CreateContainerRequest

/-- Bodies of the service's functions that work on the request object. -/
abbrev MR (α : Type) : Type := Run Env Event Handling α

/-- A function of the service run while a request is being handled: it sees
and changes the service only. -/
def onService {α : Type} (m : M α) : MR α := fun env c =>
  match m env { st := c.st.fs, trace := c.trace } with
  | (res, c1) => (res, { st := { c.st with fs := c1.st }, trace := c1.trace })

/-- Getters `r.GetConfig().GetMetadata().GetName()`, which yield the empty
name on a nil config or nil metadata. -/
def containerName (r : CreateContainerRequest) : String :=
  match r.Config with
  | some config =>
    match config.Metadata with
    | some metadata => metadata.Name
    | none => ""
  | none => ""

/-- Go `FirecrackerService.createQueueProxy`; the assignment to
`r.Config.Envs` panics on a nil `Config`. -/
def createQueueProxy : MR CreateContainerResponse := do
  let vmConfig ← onService (getVMConfig (← Run.get).r.PodSandboxId)
  onService (removeVMConfig (← Run.get).r.PodSandboxId)
  let guestIPKeyVal : KeyValue := { Key := guestIPEnv, Value := vmConfig.guestIP }
  let guestPortKeyVal : KeyValue := { Key := guestPortEnv, Value := vmConfig.guestPort }
  let config ← Run.deref (← Run.get).r.Config
  let envs := config.Envs ++ [guestIPKeyVal, guestPortKeyVal]
  Run.modify (fun h => { h with r := { h.r with Config := some { config with Envs := envs } } })
  Run.call (Event.StockCreateContainer (← Run.get).r) Env.stock

/-- Go `FirecrackerService.CreateContainer`. -/
def CreateContainer : MR CreateContainerResponse := do
  let r := (← Run.get).r
  if containerName r = userContainerName then
    onService (createUserContainer r)
  else if containerName r = queueProxyName then
    createQueueProxy
  else
    Run.call (Event.StockCreateContainer r) Env.stock

/-- A user-container request that names the image and the revision but not
the port. -/
def noPortRequest : CreateContainerRequest :=
  { PodSandboxId := "pod-1",
    Config := some
      { Metadata := some { Name := "user-container", Attempt := 0 },
        Envs := [{ Key := "GUEST_IMAGE", Value := "docker.io/x/hello:1" },
                 { Key := "K_REVISION", Value := "hello-1" }] } }

/-- A queue-proxy request of the pod `pod-1`. -/
def proxyRequest : CreateContainerRequest :=
  { PodSandboxId := "pod-1",
    Config := some
      { Metadata := some { Name := "queue-proxy", Attempt := 0 },
        Envs := [{ Key := "SERVING_NAMESPACE", Value := "default" },
                 { Key := "USER_PORT", Value := "8080" }] } }

/-- The service while it handles `proxyRequest`, with the configuration of the
VMs of `pod-1` and `pod-2` stashed. -/
def stashedCfg : Cfg Handling Event :=
  { st := { fs := { vmConfigs := (GoMap.empty.set "pod-1"
                      { guestIP := "172.16.0.2", guestPort := "8080" }).set "pod-2"
                      { guestIP := "172.16.0.3", guestPort := "9090" } },
            r := proxyRequest },
    trace := [] }

/-- The service while it handles `proxyRequest`, with only the configuration
of the VM of `pod-2` stashed. -/
def unstashedCfg : Cfg Handling Event :=
  { st := { fs := { vmConfigs := GoMap.empty.set "pod-2"
                      { guestIP := "172.16.0.3", guestPort := "9090" } },
            r := proxyRequest },
    trace := [] }

end firecracker

/-! ## The standalone driver (`vanilla_firecracker_snapshots`)

The program of `taskworkflow.go` and the helpers of its `devmapper.go`.  It
keeps no tables of its own; the network manager, containerd, the hypervisor
and the firecracker SDK are the environment.  The constants `macAddress`,
`hostDevName` and `snapshotter` and the function `getSnapKey` are the ones
declared above. -/

namespace vanilla

/-- Go constant `containerdAddress`. -/
def containerdAddress : String := "/run/firecracker-containerd/containerd.sock"
/-- Go constant `containerdTTRPCAddress`. -/
def containerdTTRPCAddress : String := containerdAddress ++ ".ttrpc"
/-- Go constant `containerdNamespace`. -/
def containerdNamespace : String := "vanilla-firecracker-snapshots"

/-- Go `net.IPNet`, an address and a mask in their textual form. -/
structure IPNet where
  IP : String
  Mask : String
  deriving Repr, DecidableEq

/-- Go `sdk.IPConfiguration`; a nil `Gateway` is `none`. -/
structure SdkIPConfiguration where
  IPAddr : IPNet
  Gateway : Option String
  Nameservers : List String
  deriving Repr, DecidableEq

/-- Go `sdk.StaticNetworkConfiguration`. -/
structure SdkStaticNetworkConfiguration where
  MacAddress : String
  HostDevName : String
  IPConfiguration : SdkIPConfiguration
  deriving Repr, DecidableEq

/-- Go `sdk.NetworkInterface`. -/
structure SdkNetworkInterface where
  StaticConfiguration : SdkStaticNetworkConfiguration
  deriving Repr, DecidableEq

/-- Go `sdk.Config`, the fields `bootVMfromSnapshot` sets. -/
structure SdkConfig where
  SocketPath : String
  NetworkInterfaces : List SdkNetworkInterface
  VMID : String
  NetNS : String
  deriving Repr, DecidableEq

/-- External calls of the standalone driver and of its helpers, with their
arguments. -/
inductive Event where
  /-- Network allocation `networkManager.CreateNetwork`. -/
  | CreateNetwork (vmID : String)
  /-- Network release `networkManager.RemoveNetwork`. -/
  | RemoveNetwork (vmID : String)
  /-- Client creation `containerd.New`. -/
  | ContainerdNew (address : String)
  /-- Client creation `fcclient.New`. -/
  | FcClientNew (address : String)
  /-- Image pull `client.Pull` with unpacking for the given snapshotter. -/
  | Pull (ref snapshotter : String)
  /-- Hypervisor `fcClient.CreateVM`. -/
  | CreateVM (req : CreateVMRequest)
  /-- Container creation `client.NewContainer` with a new snapshot of the
  image, the VM of the specification and the runtime. -/
  | NewContainer (id snapshotter snapKey : String) (image : Image) (vmID runtime : String)
  /-- Container method `ctr.NewTask`. -/
  | NewTask (ctr : Container)
  /-- Task method `task.Start`. -/
  | TaskStart (task : Task)
  /-- Snapshot service `Mounts`. -/
  | Mounts (snapshotter key : String)
  /-- Machine creation `sdk.NewMachine` with the process runner of the given
  binary and `sdk.WithSnapshot`. -/
  | NewMachine (cfg : SdkConfig) (bin memFilePath snapshotPath containerSnapshotPath : String)
      (resumeVM : Bool)
  /-- Machine method `m.Start`. -/
  | MachineStart
  /-- Go `fmt.Scanln`, the wait for the Enter key. -/
  | Scanln
  /-- Machine method `m.Shutdown`. -/
  | Shutdown
  /-- Machine method `m.StopVMM`. -/
  | StopVMM
  /-- Go `syscall.Mount`. -/
  | Mount (source target fstype : String) (flags : Nat) (data : String)
  /-- Go `syscall.Unmount`. -/
  | Unmount (target : String) (flags : Nat)
  /-- Go `os.Remove`. -/
  | Remove (path : String)
  /-- Subprocess `exec.Command(name, args...).Run()`. -/
  | Exec (name : String) (args : List String)
  deriving Repr, DecidableEq

/-- What the driver calls; the trace a field is given ends with the call being
answered.  `netConfig` is `networkManager.GetConfig`, nil being `none`;
`ParseCIDR` and `ParseIP` are the functions of package `net`. -/
structure Env where
  status : List Event → Except Error Unit
  image : List Event → Except Error Image
  container : List Event → Except Error Container
  task : List Event → Except Error Task
  mounts : List Event → Except Error (List VHive.Mount)
  netConfig : List Event → String → Option NetworkConfig
  ParseCIDR : String → Except Error (String × IPNet)
  ParseIP : String → Option String

/-- Bodies of the driver's functions. -/
abbrev M (α : Type) : Type := Run Env Event Unit α

/-- How a function that can call `log.Fatal` ends: it returns, or the process
is ended with exit status 1 after the message is logged. -/
inductive Ending where
  | returned
  | fatal (msg : String)
  deriving Repr, DecidableEq

/-- A getter called on `networkManager.GetConfig(vmID)`; on a nil
configuration it panics. -/
def netConfigOf (vmID : String) : M NetworkConfig := do
  let cfg ← Run.ask (fun env tr => env.netConfig tr vmID)
  Run.deref cfg

/-! ### `devmapper.go` -/

/-- Flag word that `mountExt4` passes to `syscall.Mount`. -/
def mountExt4Flags (readOnly : Bool) : Nat :=
  let flags := syscall.MS_NOATIME ||| syscall.MS_NODEV ||| syscall.MS_NOEXEC |||
    syscall.MS_NOSUID ||| syscall.MS_SILENT
  if readOnly then flags ||| syscall.MS_RDONLY else flags

/-- Option list that `mountExt4` joins with commas. -/
def mountExt4Options (readOnly : Bool) : List String :=
  if readOnly then [] ++ ["noload"] else []

/-- Go `mountExt4`. -/
def mountExt4 (devicePath mountPath : String) (readOnly : Bool) : M Unit :=
  Run.call (Event.Mount devicePath mountPath "ext4" (mountExt4Flags readOnly)
    (strings.Join (mountExt4Options readOnly) ",")) Env.status

/-- Go `unMountExt4`. -/
def unMountExt4 (mountPath : String) : M Unit :=
  Run.call (Event.Unmount mountPath syscall.MNT_DETACH) Env.status

/-- Go `createPatch`. -/
def createPatch (imageMountPath containerMountPath patchPath : String) : M Unit := do
  let patchArg := "--only-write-batch=" ++ patchPath
  Run.wrapErr ("creating patch between " ++ imageMountPath ++ " and " ++ containerMountPath ++
      " at " ++ patchPath ++ ": ")
    (Run.call (Event.Exec "sudo" ["rsync", "-aHAX", patchArg, addTrailingSlash imageMountPath,
      addTrailingSlash containerMountPath]) Env.status)
  Run.wrapErr ("removing " ++ (patchPath ++ ".sh") ++ ": ")
    (Run.call (Event.Remove (patchPath ++ ".sh")) Env.status)

/-- Go `applyPatch`. -/
def applyPatch (containerMountPath patchPath : String) : M Unit := do
  let patchArg := "--read-batch=" ++ patchPath
  Run.wrapErr ("applying " ++ patchPath ++ " at " ++ containerMountPath ++ ": ")
    (Run.call (Event.Exec "sudo" ["rsync", "-aHAX", patchArg,
      addTrailingSlash containerMountPath]) Env.status)

/-! ### `taskworkflow.go` -/

/-- Go `bootstrapVM`. -/
def bootstrapVM (vmID imageName : String) : M Unit := do
  Run.wrapErr "creating containerd client: "
    (Run.call (Event.ContainerdNew containerdAddress) Env.status)
  Run.wrapErr "creating firecracker client: "
    (Run.call (Event.FcClientNew containerdTTRPCAddress) Env.status)
  let image ← Run.wrapErr "pulling image: " (Run.call (Event.Pull imageName snapshotter) Env.image)
  let primaryAddr := (← netConfigOf vmID).ContainerCIDR
  let gatewayAddr := (← netConfigOf vmID).GatewayIP
  let netNS := (← netConfigOf vmID).NamespacePath
  let createVMRequest : CreateVMRequest :=
    { VMID := vmID,
      MachineCfg := { VcpuCount := 2, MemSizeMib := 2048 },
      NetworkInterfaces := [{ StaticConfig :=
        { MacAddress := macAddress, HostDevName := hostDevName,
          IPConfig := { PrimaryAddr := primaryAddr, GatewayAddr := gatewayAddr,
                        Nameservers := ["8.8.8.8"] } } }],
      NetNS := netNS,
      LoadSnapshot := false,
      MemFilePath := "",
      SnapshotPath := "",
      ContainerSnapshotPath := "" }
  Run.wrapErr "creating firecracker VM: " (Run.call (Event.CreateVM createVMRequest) Env.status)
  let ctr ← Run.wrapErr "creating new container: "
    (Run.call (Event.NewContainer (getSnapKey vmID) snapshotter (getSnapKey vmID) image vmID
      "aws.firecracker") Env.container)
  let task ← Run.wrapErr "creating new container task: " (Run.call (Event.NewTask ctr) Env.task)
  Run.wrapErr "starting container task: " (Run.call (Event.TaskStart task) Env.status)
  let mounts ← Run.wrapErr "getting container mounts: "
    (Run.call (Event.Mounts snapshotter (getSnapKey vmID)) Env.mounts)
  if mounts.length ≠ 1 then
    Run.panic "expected snapshot to only have one mount"
  else
    pure ()

/-- Go `if err := m(); err != nil { log.Fatal(err) }`. -/
def fatalOnErr (m : M Unit) : M Ending := fun env c =>
  match m env c with
  | (Res.ok _, c1) => (Res.ok Ending.returned, c1)
  | (Res.err e, c1) => (Res.ok (Ending.fatal e), c1)
  | (Res.panic p, c1) => (Res.panic p, c1)

/-- Go `net.ParseCIDR`, a function of the library that is not recorded as a
call. -/
def netParseCIDR (s : String) : M (String × IPNet) := fun env c =>
  match env.ParseCIDR s with
  | Except.ok r => (Res.ok r, c)
  | Except.error e => (Res.err e, c)

/-- Go `bootVMfromSnapshot`. -/
def bootVMfromSnapshot (vmID containerSnapPath : String) : M Ending := do
  let socketFile := "/tmp/firecracker.socket"
  let cidr := (← netConfigOf vmID).ContainerCIDR
  let (ip, ipNet) ← Run.wrapErr "failed to parse CIDR: " (netParseCIDR cidr)
  let gatewayIP := (← netConfigOf vmID).GatewayIP
  let gateway ← Run.ask (fun env _ => env.ParseIP gatewayIP)
  let networkInterface : SdkNetworkInterface :=
    { StaticConfiguration :=
      { MacAddress := macAddress, HostDevName := hostDevName,
        IPConfiguration := { IPAddr := { IP := ip, Mask := ipNet.Mask },
                             Gateway := gateway,
                             Nameservers := ["8.8.8.8"] } } }
  let netNS := (← netConfigOf vmID).NamespacePath
  let cfg : SdkConfig :=
    { SocketPath := socketFile,
      NetworkInterfaces := [networkInterface],
      VMID := vmID,
      NetNS := netNS }
  Run.wrapErr "creating new firecracker machine: "
    (Run.call (Event.NewMachine cfg "/usr/local/bin/firecracker" "/tmp/mem_file"
      "/tmp/snapshot_file" containerSnapPath true) Env.status)
  Run.wrapErr "starting new firecracker machine: " (Run.call Event.MachineStart Env.status)
  let _ ← netConfigOf vmID
  Run.ignoreErr (Run.call Event.Scanln Env.status)
  match ← fatalOnErr (Run.call Event.Shutdown Env.status) with
  | Ending.fatal msg => pure (Ending.fatal msg)
  | Ending.returned => fatalOnErr (Run.call Event.StopVMM Env.status)

/-- Go `taskWorkflow`. -/
def taskWorkflow (vmID image : String) (bootFromSnap : Bool) (containerSnapPath : String) :
    M Ending := do
  Run.wrapErr "creating network: " (Run.call (Event.CreateNetwork vmID) Env.status)
  let ending ←
    if !bootFromSnap then do
      Run.wrapErr "bootstrapping VM: " (bootstrapVM vmID image)
      pure Ending.returned
    else
      Run.wrapErr "boot VM from snapshot: " (bootVMfromSnapshot vmID containerSnapPath)
  match ending with
  | Ending.fatal msg => pure (Ending.fatal msg)
  | Ending.returned =>
    let _ ← netConfigOf vmID
    Run.ignoreErr (Run.call (Event.RemoveNetwork vmID) Env.status)
    pure Ending.returned

/-- Go `main`, from the values of the four flags after `flag.Parse`. -/
def main (vmID image : String) (bootFromSnap : Bool) (containerSnapPath : String) : M Ending :=
  if vmID = "" then
    Run.ret (Ending.fatal "Incorrect usage. 'id' needs to be specified")
  else if image = "" && !bootFromSnap then
    Run.ret (Ending.fatal
      "Incorrect usage. 'image' needs to be specified when 'boot-snap' is false")
  else if containerSnapPath = "" && bootFromSnap then
    Run.ret (Ending.fatal
      "Incorrect usage. 'image' needs to be specified when 'boot-snap' is false")
  else fun env c =>
    match taskWorkflow vmID image bootFromSnap containerSnapPath env c with
    | (Res.ok Ending.returned, c1) =>
      Run.andThen (Run.ignoreErr (Run.call Event.Scanln Env.status))
        (fun _ => Run.ret Ending.returned) env c1
    | (Res.ok (Ending.fatal msg), c1) => (Res.ok (Ending.fatal msg), c1)
    | (Res.err err, c1) => (Res.ok (Ending.fatal err), c1)
    | (Res.panic p, c1) => (Res.panic p, c1)

/-- An environment in which every call succeeds. -/
def happyEnv : Env :=
  { status := fun _ => Except.ok (),
    image := fun _ => Except.ok { name := "docker.io/library/hello:1" },
    container := fun _ => Except.ok { ID := "demo-snapvm1" },
    task := fun _ => Except.ok { ID := "demo-snapvm1" },
    mounts := fun _ => Except.ok [{ Kind := "ext4", Source := "/dev/mapper/pool-snap-1",
                                    Options := [] }],
    netConfig := fun _ _ => some { ContainerCIDR := "172.16.0.2/24", GatewayIP := "172.16.0.1",
                                   NamespacePath := "/var/run/netns/vm1",
                                   CloneIP := "172.18.0.2" },
    ParseCIDR := fun _ => Except.ok ("172.16.0.2", { IP := "172.16.0.0", Mask := "ffffff00" }),
    ParseIP := fun s => some s }

/-- The driver before its first call. -/
def start : Cfg Unit Event := { st := (), trace := [] }

end vanilla

/-- A computation only appends to the trace of calls. -/
def Run.Grows {Env Ev σ α : Type} (m : Run Env Ev σ α) : Prop :=
  ∀ env c, ∃ more, (m env c).2.trace = c.trace ++ more

namespace filepath

/-- Characters of `Clean path` for a non-empty `path`, from whether the path
is rooted and its kept elements in their order. -/
def render (rooted : Bool) (kept : List (List Char)) : List Char :=
  if rooted then '/' :: List.intercalate ['/'] kept
  else if kept = [] then ['.'] else List.intercalate ['/'] kept

/-- A path element as `elements` yields them: not empty, not `.`, without a
slash. -/
def IsElement (e : List Char) : Prop := e ≠ [] ∧ e ≠ ['.'] ∧ '/' ∉ e

/-- The shape of the kept elements during `Clean`, last one first: a `..` is
kept only in a path that is not rooted, and only on top of other `..`. -/
def normalStack (rooted : Bool) : List (List Char) → Bool
  | [] => true
  | e :: out =>
    if e = ['.', '.'] then !rooted && out.all (fun x => x == ['.', '.'])
    else normalStack rooted out

end filepath

/-- Every call a computation makes satisfies `P`: the trace only grows, and
by events that satisfy `P`. -/
def Run.Only {Env Ev σ α : Type} (P : Ev → Prop) (m : Run Env Ev σ α) : Prop :=
  ∀ env c, ∃ more, (m env c).2.trace = c.trace ++ more ∧ ∀ ev ∈ more, P ev

/-- The calls that `extractPatch` can make for the VM `vmID`: those of the
image's root file system, of the lease and the snapshot under the temporary
key, and of the mounts and the patch. -/
def isExtractPatchCall (vmID : String) : Event → Prop
  | Event.RootFS _ => True
  | Event.LeaseCreate id => id = "tempimagesnap" ++ vmID
  | Event.Prepare _ key _ => key = "tempimagesnap" ++ vmID
  | Event.SnapshotRemove key => key = "tempimagesnap" ++ vmID
  | Event.LeaseDelete _ => True
  | Event.MkdirTemp _ _ => True
  | Event.Mount _ _ _ _ _ => True
  | Event.Unmount _ _ => True
  | Event.RemoveAll _ => True
  | Event.Exec _ _ => True
  | Event.Remove _ => True
  | _ => False

namespace vanilla

end vanilla

namespace firecracker

/-- The environment `happyEnv` except that the stock runtime fails to create
the container. -/
def stockFailingEnv : Env :=
  { happyEnv with stock := fun _ => Except.error "stock runtime failed" }

/-- The environment `happyEnv` except that the coordinator's `insertActive`
fails. -/
def insertFailingEnv : Env :=
  { happyEnv with status := fun _ => Except.error "insertActive failed" }

end firecracker

end VHive

/-! # Proofs -/

namespace VHive

/-! ## Reasoning about runs -/

namespace Run

variable {Env Ev σ α β : Type}

theorem bind_eq (m : Run Env Ev σ α) (f : α → Run Env Ev σ β) : (m >>= f) = andThen m f := rfl

theorem pure_eq (a : α) : (pure a : Run Env Ev σ α) = ret a := rfl

theorem ret_ok (a b : α) (env : Env) (c c1 : Cfg σ Ev) :
    ret a env c = (Res.ok b, c1) ↔ a = b ∧ c = c1 := by
  simp [ret]

theorem andThen_ok (m : Run Env Ev σ α) (f : α → Run Env Ev σ β) (env : Env)
    (c c2 : Cfg σ Ev) (b : β) :
    andThen m f env c = (Res.ok b, c2) ↔
      ∃ a c1, m env c = (Res.ok a, c1) ∧ f a env c1 = (Res.ok b, c2) := by
  unfold andThen
  rcases h : m env c with ⟨r, c1⟩
  cases r with
  | ok a =>
    constructor
    · intro h1; exact ⟨a, c1, rfl, h1⟩
    · rintro ⟨a1, c3, h1, h2⟩
      cases h1; exact h2
  | err e => simp
  | panic p => simp

theorem wrapErr_ok (pre : String) (m : Run Env Ev σ α) (env : Env) (c c1 : Cfg σ Ev) (a : α) :
    wrapErr pre m env c = (Res.ok a, c1) ↔ m env c = (Res.ok a, c1) := by
  unfold wrapErr
  rcases h : m env c with ⟨r, c2⟩
  cases r <;> simp

theorem call_ok (ev : Ev) (answer : Env → List Ev → Except Error α) (env : Env)
    (c c1 : Cfg σ Ev) (a : α) :
    call ev answer env c = (Res.ok a, c1) ↔
      answer env (c.trace ++ [ev]) = Except.ok a ∧ c1 = { c with trace := c.trace ++ [ev] } := by
  simp only [call]
  split <;> rename_i h <;> simp [h, eq_comm]

theorem ask_ok (answer : Env → List Ev → α) (env : Env) (c c1 : Cfg σ Ev) (a : α) :
    ask answer env c = (Res.ok a, c1) ↔ answer env c.trace = a ∧ c = c1 := by
  simp [ask]

theorem get_ok (env : Env) (c c1 : Cfg σ Ev) (s : σ) :
    (get : Run Env Ev σ σ) env c = (Res.ok s, c1) ↔ c.st = s ∧ c = c1 := by
  simp [get]

theorem modify_ok (f : σ → σ) (env : Env) (c c1 : Cfg σ Ev) (u : Unit) :
    (modify f : Run Env Ev σ Unit) env c = (Res.ok u, c1) ↔ c1 = { c with st := f c.st } := by
  simp [modify, eq_comm]

theorem fail_ok (e : Error) (env : Env) (c c1 : Cfg σ Ev) (a : α) :
    (fail e : Run Env Ev σ α) env c = (Res.ok a, c1) ↔ False := by
  simp [fail]

theorem panic_ok (msg : String) (env : Env) (c c1 : Cfg σ Ev) (a : α) :
    (panic msg : Run Env Ev σ α) env c = (Res.ok a, c1) ↔ False := by
  simp [panic]

theorem deref_ok (p : Option α) (env : Env) (c c1 : Cfg σ Ev) (a : α) :
    (deref p : Run Env Ev σ α) env c = (Res.ok a, c1) ↔ p = some a ∧ c = c1 := by
  cases p <;> simp [deref, panic, ret]

theorem ignoreErr_ok (m : Run Env Ev σ α) (env : Env) (c c1 : Cfg σ Ev) (u : Unit) :
    ignoreErr m env c = (Res.ok u, c1) ↔
      (m env c).2 = c1 ∧ ∀ p, (m env c).1 ≠ Res.panic p := by
  unfold ignoreErr
  rcases h : m env c with ⟨r, c2⟩
  cases r <;> simp

theorem withDefer_ok (cleanup : Run Env Ev σ Unit) (body : Run Env Ev σ α) (env : Env)
    (c c2 : Cfg σ Ev) (a : α) :
    withDefer cleanup body env c = (Res.ok a, c2) ↔
      ∃ c1, body env c = (Res.ok a, c1) ∧ (cleanup env c1).2 = c2 ∧
        ∀ p, (cleanup env c1).1 ≠ Res.panic p := by
  unfold withDefer
  rcases h : body env c with ⟨r, c1⟩
  simp only []
  rcases h2 : cleanup env c1 with ⟨r2, c3⟩
  constructor
  · intro h3
    cases r2 <;> cases r <;> simp at h3 <;>
      (obtain ⟨rfl, rfl⟩ := h3; exact ⟨c1, rfl, by simp [h2], by simp [h2]⟩)
  · rintro ⟨c4, h3, h4, h5⟩
    cases h3
    rw [h2] at h4 h5
    cases r2 <;> simp_all

theorem call_snd (ev : Ev) (answer : Env → List Ev → Except Error α) (env : Env)
    (c : Cfg σ Ev) :
    (call ev answer env c).2 = { c with trace := c.trace ++ [ev] } := by
  simp only [call]
  split <;> rfl

theorem wrapErr_snd (pre : String) (m : Run Env Ev σ α) (env : Env) (c : Cfg σ Ev) :
    (wrapErr pre m env c).2 = (m env c).2 := by
  unfold wrapErr
  rcases h : m env c with ⟨r, c2⟩
  cases r <;> rfl

theorem ignoreErr_snd (m : Run Env Ev σ α) (env : Env) (c : Cfg σ Ev) :
    (ignoreErr m env c).2 = (m env c).2 := by
  unfold ignoreErr
  rcases h : m env c with ⟨r, c2⟩
  cases r <;> rfl

end Run


/-! ## What a successful run of each helper did -/

theorem getOrch_ok (env : Env) (c c1 : Cfg Host Event) (o : Orchestrator) :
    getOrch env c = (Res.ok o, c1) ↔ c.st.orch = o ∧ c = c1 := by
  simp [getOrch]

theorem modifyOrch_ok (f : Orchestrator → Orchestrator) (env : Env) (c c1 : Cfg Host Event)
    (u : Unit) :
    modifyOrch f env c = (Res.ok u, c1) ↔
      c1 = { c with st := { c.st with orch := f c.st.orch } } := by
  simp [modifyOrch, Run.modify_ok]

/-- A successful `createCtrSnap`: the image is not nil, the three calls were
answered without error, exactly one mount came back, and the lease is in the
lease map under the snapshot key. -/
theorem createCtrSnap_ok {env : Env} {c c1 : Cfg Host Event} {snapKey dev : String}
    {img : Option Image} (h : createCtrSnap snapKey img env c = (Res.ok dev, c1)) :
    ∃ image diffIDs lease m,
      img = some image ∧
      env.digests (c.trace ++ [Event.RootFS image]) = Except.ok diffIDs ∧
      env.lease (c.trace ++ [Event.RootFS image, Event.LeaseCreate snapKey]) = Except.ok lease ∧
      env.mounts (c.trace ++ [Event.RootFS image, Event.LeaseCreate snapKey,
        Event.Prepare lease.ID snapKey (env.ChainID diffIDs)]) = Except.ok [m] ∧
      m.Source = dev ∧
      c1 = { st := { c.st with orch :=
                      { c.st.orch with leases := c.st.orch.leases.set snapKey lease } },
             trace := c.trace ++ [Event.RootFS image, Event.LeaseCreate snapKey,
               Event.Prepare lease.ID snapKey (env.ChainID diffIDs)] } := by
  simp only [createCtrSnap, getImageKey, Run.bind_eq, Run.pure_eq, Run.andThen_ok, Run.call_ok,
    Run.deref_ok, Run.ask_ok, modifyOrch_ok] at h
  obtain ⟨parent, c2, ⟨image, c3, ⟨rfl, rfl⟩, diffIDs, c4, ⟨hd, rfl⟩, rfl, rfl⟩,
    lease, c5, ⟨hl, rfl⟩, _, c6, rfl, mounts, c7, ⟨hm, rfl⟩, h⟩ := h
  simp only [List.append_assoc, List.singleton_append] at hl hm h
  split at h
  · rename_i m
    simp only [Run.ret_ok] at h
    obtain ⟨rfl, rfl⟩ := h
    exact ⟨image, diffIDs, lease, m, rfl, hd, hl, hm, rfl, by simp⟩
  · simp [Run.panic] at h

/-- A successful `mountCtrSnap`: a temporary directory named after the device
was made and the device was mounted on it. -/
theorem mountCtrSnap_ok {env : Env} {c c1 : Cfg Host Event} {dev dir : String} {ro : Bool}
    (h : mountCtrSnap dev ro env c = (Res.ok dir, c1)) :
    ∃ tmp,
      env.path (c.trace ++ [Event.MkdirTemp "" (filepath.Base dev)]) = Except.ok tmp ∧
      dir = removeTrailingSlash tmp ∧
      c1 = { c with trace := c.trace ++ [Event.MkdirTemp "" (filepath.Base dev),
        Event.Mount dev dir "ext4" (mountExt4Flags ro)
          (strings.Join (mountExt4Options ro) ",")] } := by
  simp only [mountCtrSnap, mountExt4, Run.bind_eq, Run.pure_eq, Run.andThen_ok, Run.call_ok,
    Run.wrapErr_ok, Run.ret_ok] at h
  obtain ⟨tmp, c2, ⟨hp, rfl⟩, _, c3, ⟨_, rfl⟩, rfl, rfl⟩ := h
  exact ⟨tmp, hp, rfl, by simp⟩

/-- A successful `unmountCtrSnap`: the mount point was unmounted and removed. -/
theorem unmountCtrSnap_ok {env : Env} {c c1 : Cfg Host Event} {dir : String}
    (h : unmountCtrSnap dir env c = (Res.ok (), c1)) :
    c1 = { c with trace := c.trace ++
      [Event.Unmount dir syscall.MNT_DETACH, Event.RemoveAll dir] } := by
  simp only [unmountCtrSnap, unMountExt4, Run.bind_eq, Run.andThen_ok, Run.call_ok,
    Run.wrapErr_ok] at h
  obtain ⟨_, c2, ⟨_, rfl⟩, _, rfl⟩ := h
  simp

/-- Whatever its calls answer, `unmountCtrSnap` leaves the program state
alone and calls `Unmount` first; when that call succeeds, the removal of the
mount point follows and nothing else. -/
theorem unmountCtrSnap_snd (env : Env) (c : Cfg Host Event) (dir : String) :
    ∃ rest,
      (unmountCtrSnap dir env c).2 =
        { c with trace := c.trace ++ Event.Unmount dir syscall.MNT_DETACH :: rest } ∧
      (env.status (c.trace ++ [Event.Unmount dir syscall.MNT_DETACH]) = Except.ok () →
        rest = [Event.RemoveAll dir]) := by
  cases hu : env.status (c.trace ++ [Event.Unmount dir syscall.MNT_DETACH]) with
  | error e =>
    refine ⟨[], ?_, fun h => by cases h⟩
    simp [unmountCtrSnap, unMountExt4, Run.bind_eq, Run.andThen, Run.call, Run.wrapErr, hu]
  | ok u =>
    refine ⟨[Event.RemoveAll dir], ?_, fun _ => rfl⟩
    simp only [unmountCtrSnap, unMountExt4, Run.bind_eq, Run.andThen, Run.call, Run.wrapErr, hu]
    cases env.status (c.trace ++ [Event.Unmount dir syscall.MNT_DETACH] ++
      [Event.RemoveAll dir]) <;> simp

/-- A successful `createPatch`: `rsync` wrote the batch and the script next to
it was removed. -/
theorem createPatch_ok {env : Env} {c c1 : Cfg Host Event} {img ctr patch : String}
    (h : createPatch img ctr patch env c = (Res.ok (), c1)) :
    c1 = { c with trace := c.trace ++
      [Event.Exec "sudo" ["rsync", "-ar", "--only-write-batch=" ++ patch,
         addTrailingSlash img, addTrailingSlash ctr],
       Event.Remove (patch ++ ".sh")] } := by
  simp only [createPatch, Run.bind_eq, Run.andThen_ok, Run.call_ok, Run.wrapErr_ok] at h
  obtain ⟨_, c2, ⟨_, rfl⟩, _, rfl⟩ := h
  simp

/-- A successful `applyPatch`: `rsync` read the batch into the mount. -/
theorem applyPatch_ok {env : Env} {c c1 : Cfg Host Event} {ctr patch : String}
    (h : applyPatch ctr patch env c = (Res.ok (), c1)) :
    c1 = { c with trace := c.trace ++
      [Event.Exec "sudo" ["rsync", "-ar", "--read-batch=" ++ patch, addTrailingSlash ctr]] } := by
  simp only [applyPatch, Run.call_ok, Run.wrapErr_ok] at h
  exact h.2

/-- The function deferred by `extractPatch`, when the temporary lease is in
the lease map: whatever its two calls answer, it returns normally, having
called `Remove` on the snapshot and `Delete` on the lease, and it deletes the
lease-map entry of the VM's container-snapshot key. -/
theorem extractPatchCleanup_eval (env : Env) (c : Cfg Host Event) (key : String)
    (vmInfo : VMInfo) (lease : Lease) (hl : c.st.orch.leases key = some lease) :
    extractPatchCleanup key vmInfo env c =
      (Res.ok (), { st := { c.st with orch :=
                      { c.st.orch with leases := c.st.orch.leases.delete vmInfo.ctrSnapKey } },
                    trace := c.trace ++ [Event.SnapshotRemove key, Event.LeaseDelete lease] }) := by
  simp only [extractPatchCleanup, Run.bind_eq, Run.andThen, Run.call, Run.ignoreErr, getOrch]
  cases env.status (c.trace ++ [Event.SnapshotRemove key]) <;>
    simp only [hl, Run.deref, Run.ret] <;>
    cases env.status (c.trace ++ [Event.SnapshotRemove key] ++ [Event.LeaseDelete lease]) <;>
    simp [modifyOrch, Run.modify]

/-- A successful `extractPatch`: the calls it made, in order, and the lease
map it leaves.  The outcome of a deferred unmount is dropped, so the removal
of a mount point is known to follow only when the unmount succeeded. -/
theorem extractPatch_ok {env : Env} {c c1 : Cfg Host Event} {vmID patchPath : String}
    (h : extractPatch vmID patchPath env c = (Res.ok (), c1)) :
    ∃ image diffIDs lease dev imgDir ctrDir rest1 rest2,
      c.st.orch.cachedImages (c.st.orch.vm vmID).imgName = some image ∧
      c1.trace = c.trace ++
        [Event.RootFS image,
         Event.LeaseCreate ("tempimagesnap" ++ vmID),
         Event.Prepare lease.ID ("tempimagesnap" ++ vmID) (env.ChainID diffIDs),
         Event.MkdirTemp "" (filepath.Base dev),
         Event.Mount dev imgDir "ext4" (mountExt4Flags true) "noload",
         Event.MkdirTemp "" (filepath.Base (c.st.orch.vm vmID).ctrSnapDevPath),
         Event.Mount (c.st.orch.vm vmID).ctrSnapDevPath ctrDir "ext4" (mountExt4Flags true)
           "noload",
         Event.Exec "sudo" ["rsync", "-ar", "--only-write-batch=" ++ patchPath,
           addTrailingSlash imgDir, addTrailingSlash ctrDir],
         Event.Remove (patchPath ++ ".sh")] ++
        Event.Unmount ctrDir syscall.MNT_DETACH :: rest1 ++
        Event.Unmount imgDir syscall.MNT_DETACH :: rest2 ++
        [Event.SnapshotRemove ("tempimagesnap" ++ vmID), Event.LeaseDelete lease] ∧
      (env.status (c.trace ++
        [Event.RootFS image,
         Event.LeaseCreate ("tempimagesnap" ++ vmID),
         Event.Prepare lease.ID ("tempimagesnap" ++ vmID) (env.ChainID diffIDs),
         Event.MkdirTemp "" (filepath.Base dev),
         Event.Mount dev imgDir "ext4" (mountExt4Flags true) "noload",
         Event.MkdirTemp "" (filepath.Base (c.st.orch.vm vmID).ctrSnapDevPath),
         Event.Mount (c.st.orch.vm vmID).ctrSnapDevPath ctrDir "ext4" (mountExt4Flags true)
           "noload",
         Event.Exec "sudo" ["rsync", "-ar", "--only-write-batch=" ++ patchPath,
           addTrailingSlash imgDir, addTrailingSlash ctrDir],
         Event.Remove (patchPath ++ ".sh")] ++
        [Event.Unmount ctrDir syscall.MNT_DETACH]) = Except.ok () →
        rest1 = [Event.RemoveAll ctrDir]) ∧
      (env.status (c.trace ++
        [Event.RootFS image,
         Event.LeaseCreate ("tempimagesnap" ++ vmID),
         Event.Prepare lease.ID ("tempimagesnap" ++ vmID) (env.ChainID diffIDs),
         Event.MkdirTemp "" (filepath.Base dev),
         Event.Mount dev imgDir "ext4" (mountExt4Flags true) "noload",
         Event.MkdirTemp "" (filepath.Base (c.st.orch.vm vmID).ctrSnapDevPath),
         Event.Mount (c.st.orch.vm vmID).ctrSnapDevPath ctrDir "ext4" (mountExt4Flags true)
           "noload",
         Event.Exec "sudo" ["rsync", "-ar", "--only-write-batch=" ++ patchPath,
           addTrailingSlash imgDir, addTrailingSlash ctrDir],
         Event.Remove (patchPath ++ ".sh")] ++
        Event.Unmount ctrDir syscall.MNT_DETACH :: rest1 ++
        [Event.Unmount imgDir syscall.MNT_DETACH]) = Except.ok () →
        rest2 = [Event.RemoveAll imgDir]) ∧
      c1.st.orch.leases =
        ((c.st.orch.leases.set ("tempimagesnap" ++ vmID) lease).delete
          (c.st.orch.vm vmID).ctrSnapKey) ∧
      c1.st.orch.vms = c.st.orch.vms ∧
      c1.st.orch.cachedImages = c.st.orch.cachedImages ∧
      c1.st.orch.BasePath = c.st.orch.BasePath ∧
      c1.st.files = c.st.files := by
  simp only [extractPatch, Run.bind_eq, Run.andThen_ok, getOrch_ok, Run.wrapErr_ok,
    Run.withDefer_ok] at h
  obtain ⟨o, c2, ⟨rfl, rfl⟩, dev, c3, hsnap, c4, ⟨imgDir, c5, hmi, c6,
    ⟨ctrDir, c7, hmc, c8, hcp, hu1, -⟩, hu2, -⟩, hcl, -⟩ := h
  obtain ⟨image, diffIDs, lease, m, himg, -, -, -, rfl, rfl⟩ := createCtrSnap_ok hsnap
  obtain ⟨tmp1, -, rfl, rfl⟩ := mountCtrSnap_ok hmi
  obtain ⟨tmp2, -, rfl, rfl⟩ := mountCtrSnap_ok hmc
  have hcp := createPatch_ok hcp
  subst hcp
  rw [Run.ignoreErr_snd] at hu1 hu2
  obtain ⟨rest1, hr1, himp1⟩ := unmountCtrSnap_snd env _ (removeTrailingSlash tmp2)
  rw [hr1] at hu1
  subst hu1
  obtain ⟨rest2, hr2, himp2⟩ := unmountCtrSnap_snd env _ (removeTrailingSlash tmp1)
  rw [hr2] at hu2
  subst hu2
  rw [extractPatchCleanup_eval env _ _ _ lease (by simp [GoMap.set])] at hcl
  subst hcl
  have hopt : strings.Join (mountExt4Options true) "," = "noload" := by decide
  refine ⟨image, diffIDs, lease, m.Source, removeTrailingSlash tmp1, removeTrailingSlash tmp2,
    rest1, rest2, himg, ?_, ?_, ?_, rfl, rfl, rfl, rfl, rfl⟩
  · simp [hopt]
  · intro hok
    apply himp1
    simpa [hopt] using hok
  · intro hok
    apply himp2
    simpa [hopt] using hok

/-- A successful `serializeSnapInfo`: the file was created, written and
closed, and it holds the encoder's bytes for the value. -/
theorem serializeSnapInfo_ok {env : Env} {c c1 : Cfg Host Event} {path : String} {v : snapshot}
    (h : serializeSnapInfo path v env c = (Res.ok (), c1)) :
    c1.trace = c.trace ++ [Event.Create path, Event.Encode path v, Event.Close path] ∧
    c1.st.files = c.st.files.set path (env.gobEncode v) ∧
    c1.st.orch = c.st.orch := by
  simp only [serializeSnapInfo, osCreate, gobEncodeTo, Run.bind_eq, Run.andThen_ok, Run.call_ok,
    Run.wrapErr_ok, Run.withDefer_ok, Run.modify_ok, Run.ask_ok] at h
  obtain ⟨_, c2, ⟨_, c3, ⟨_, rfl⟩, rfl⟩, c4, ⟨_, c5, ⟨_, rfl⟩, bytes, c6, ⟨rfl, rfl⟩, rfl⟩,
    hcl, -⟩ := h
  simp only [fileClose, Run.ignoreErr_snd, Run.call_snd] at hcl
  subst hcl
  refine ⟨by simp, ?_, rfl⟩
  funext x
  simp only [GoMap.set]
  split <;> rfl


/-! ## C1: the order of the snapshot capture -/

/-- C1 (counterexample): on the run of `createSnapshot` for the cold-booted
`vm1` in which every step succeeds, no `Commit` is issued; the last operation
is the closing of the infofile after its serialization. -/
theorem createSnapshot_never_commits :
    (createSnapshot "vm1" "rev1" happyEnv demoCfg).1 = Res.ok () ∧
    Event.Commit "rev1" ∉ (createSnapshot "vm1" "rev1" happyEnv demoCfg).2.trace ∧
    (createSnapshot "vm1" "rev1" happyEnv demoCfg).2.trace.getLast? =
      some (Event.Close "/var/snaps/rev1/infofile") := by
  decide

/-- C1 (amended): on every run of `createSnapshot vmID revision` in which each
step succeeds (it returns without error and every error-only call it made was
answered without error, the deferred unmounts included), the external
operations are exactly, in this order: `PauseVM`; `RegisterSnap revision`;
`CreateSnapshot` with the registered record's memfile and snapfile paths; the
extraction of the container patch into the record's patchfile (temporary
image snapshot under a lease, both read-only mounts, `rsync
--only-write-batch`, both unmounts, removal of the temporary snapshot and of
its lease); `ResumeVM`; hole digging in the memfile; creation, encoding and
closing of the infofile with the VM's image reference.  No `Commit` is
issued. -/
theorem createSnapshot_order (env : Env) (c : Cfg Host Event) (vmID revision : String)
    (h : (createSnapshot vmID revision env c).1 = Res.ok ())
    (hs : ∀ tr, tr <+: (createSnapshot vmID revision env c).2.trace →
      c.trace.length < tr.length → env.status tr = Except.ok ()) :
    ∃ snap image diffIDs lease dev imgDir ctrDir,
      env.snap (c.trace ++ [Event.PauseVM vmID, Event.RegisterSnap revision]) = Except.ok snap ∧
      (createSnapshot vmID revision env c).2.trace = c.trace ++
        [Event.PauseVM vmID,
         Event.RegisterSnap revision,
         Event.CreateSnapshot
           { VMID := vmID, MemFilePath := snap.GetMemFilePath,
             SnapshotPath := snap.GetSnapFilePath },
         Event.RootFS image,
         Event.LeaseCreate ("tempimagesnap" ++ vmID),
         Event.Prepare lease.ID ("tempimagesnap" ++ vmID) (env.ChainID diffIDs),
         Event.MkdirTemp "" (filepath.Base dev),
         Event.Mount dev imgDir "ext4" (mountExt4Flags true) "noload",
         Event.MkdirTemp "" (filepath.Base (c.st.orch.vm vmID).ctrSnapDevPath),
         Event.Mount (c.st.orch.vm vmID).ctrSnapDevPath ctrDir "ext4" (mountExt4Flags true)
           "noload",
         Event.Exec "sudo" ["rsync", "-ar", "--only-write-batch=" ++ snap.GetPatchFilePath,
           addTrailingSlash imgDir, addTrailingSlash ctrDir],
         Event.Remove (snap.GetPatchFilePath ++ ".sh"),
         Event.Unmount ctrDir syscall.MNT_DETACH, Event.RemoveAll ctrDir,
         Event.Unmount imgDir syscall.MNT_DETACH, Event.RemoveAll imgDir,
         Event.SnapshotRemove ("tempimagesnap" ++ vmID),
         Event.LeaseDelete lease,
         Event.ResumeVM vmID,
         Event.Exec "sudo" ["fallocate", "--dig-holes", snap.GetMemFilePath],
         Event.Create snap.GetInfoFilePath,
         Event.Encode snap.GetInfoFilePath { Img := (c.st.orch.vm vmID).imgName },
         Event.Close snap.GetInfoFilePath] ∧
      Event.Commit revision ∉ (createSnapshot vmID revision env c).2.trace.drop c.trace.length := by
  rcases hr : createSnapshot vmID revision env c with ⟨r, c1⟩
  rw [hr] at h hs
  simp only at h hs
  subst h
  simp only [createSnapshot, digHoles, Run.bind_eq, Run.andThen_ok, getOrch_ok, Run.wrapErr_ok,
    Run.call_ok] at hr
  obtain ⟨_, c2, ⟨-, rfl⟩, snap, c3, ⟨hsnap, rfl⟩, _, c4, ⟨-, rfl⟩, _, c5, hex, _, c6,
    ⟨-, rfl⟩, _, c7, ⟨-, rfl⟩, o, c8, ⟨rfl, rfl⟩, hser⟩ := hr
  obtain ⟨image, diffIDs, lease, dev, imgDir, ctrDir, rest1, rest2, -, htr, h1, h2, -, hvms,
    -, -, -⟩ := extractPatch_ok hex
  obtain ⟨htr2, -, -⟩ := serializeSnapInfo_ok hser
  have hvm : c5.st.orch.vm vmID = c.st.orch.vm vmID := by
    simp only [Orchestrator.vm, hvms]
  simp only [List.append_assoc, List.singleton_append, List.cons_append, List.nil_append]
    at hsnap htr htr2 h1 h2
  rw [htr] at htr2
  simp only [List.append_assoc, List.singleton_append, List.cons_append, List.nil_append]
    at htr2
  have hr1 : rest1 = [Event.RemoveAll ctrDir] := by
    apply h1
    apply hs
    · rw [htr2]
      refine ⟨rest1 ++ Event.Unmount imgDir syscall.MNT_DETACH :: (rest2 ++
        [Event.SnapshotRemove ("tempimagesnap" ++ vmID), Event.LeaseDelete lease,
         Event.ResumeVM vmID,
         Event.Exec "sudo" ["fallocate", "--dig-holes", snap.GetMemFilePath],
         Event.Create snap.GetInfoFilePath,
         Event.Encode snap.GetInfoFilePath { Img := (c5.st.orch.vm vmID).imgName },
         Event.Close snap.GetInfoFilePath]), ?_⟩
      simp
    · simp
  subst hr1
  have hr2 : rest2 = [Event.RemoveAll imgDir] := by
    apply h2
    apply hs
    · rw [htr2]
      refine ⟨rest2 ++
        [Event.SnapshotRemove ("tempimagesnap" ++ vmID), Event.LeaseDelete lease,
         Event.ResumeVM vmID,
         Event.Exec "sudo" ["fallocate", "--dig-holes", snap.GetMemFilePath],
         Event.Create snap.GetInfoFilePath,
         Event.Encode snap.GetInfoFilePath { Img := (c5.st.orch.vm vmID).imgName },
         Event.Close snap.GetInfoFilePath], ?_⟩
      simp
    · simp
  subst hr2
  refine ⟨snap, image, diffIDs, lease, dev, imgDir, ctrDir, hsnap, ?_, ?_⟩
  · simp only [htr2, hvm]
    simp
  · simp only [htr2, hvm]
    simp

/-- C1 (witness): `createSnapshot_order` at the cold-booted `vm1`. -/
theorem createSnapshot_order_witness :
    (createSnapshot "vm1" "rev1" happyEnv demoCfg).1 = Res.ok () ∧
    (∀ tr, tr <+: (createSnapshot "vm1" "rev1" happyEnv demoCfg).2.trace →
      demoCfg.trace.length < tr.length → happyEnv.status tr = Except.ok ()) ∧
    ∃ snap image diffIDs lease dev imgDir ctrDir,
      happyEnv.snap (demoCfg.trace ++ [Event.PauseVM "vm1", Event.RegisterSnap "rev1"]) =
        Except.ok snap ∧
      (createSnapshot "vm1" "rev1" happyEnv demoCfg).2.trace = demoCfg.trace ++
        [Event.PauseVM "vm1",
         Event.RegisterSnap "rev1",
         Event.CreateSnapshot
           { VMID := "vm1", MemFilePath := snap.GetMemFilePath,
             SnapshotPath := snap.GetSnapFilePath },
         Event.RootFS image,
         Event.LeaseCreate ("tempimagesnap" ++ "vm1"),
         Event.Prepare lease.ID ("tempimagesnap" ++ "vm1") (happyEnv.ChainID diffIDs),
         Event.MkdirTemp "" (filepath.Base dev),
         Event.Mount dev imgDir "ext4" (mountExt4Flags true) "noload",
         Event.MkdirTemp "" (filepath.Base (demoCfg.st.orch.vm "vm1").ctrSnapDevPath),
         Event.Mount (demoCfg.st.orch.vm "vm1").ctrSnapDevPath ctrDir "ext4"
           (mountExt4Flags true) "noload",
         Event.Exec "sudo" ["rsync", "-ar", "--only-write-batch=" ++ snap.GetPatchFilePath,
           addTrailingSlash imgDir, addTrailingSlash ctrDir],
         Event.Remove (snap.GetPatchFilePath ++ ".sh"),
         Event.Unmount ctrDir syscall.MNT_DETACH, Event.RemoveAll ctrDir,
         Event.Unmount imgDir syscall.MNT_DETACH, Event.RemoveAll imgDir,
         Event.SnapshotRemove ("tempimagesnap" ++ "vm1"),
         Event.LeaseDelete lease,
         Event.ResumeVM "vm1",
         Event.Exec "sudo" ["fallocate", "--dig-holes", snap.GetMemFilePath],
         Event.Create snap.GetInfoFilePath,
         Event.Encode snap.GetInfoFilePath { Img := (demoCfg.st.orch.vm "vm1").imgName },
         Event.Close snap.GetInfoFilePath] ∧
      Event.Commit "rev1" ∉
        (createSnapshot "vm1" "rev1" happyEnv demoCfg).2.trace.drop demoCfg.trace.length :=
  ⟨by decide, fun _ _ _ => rfl,
    createSnapshot_order happyEnv demoCfg "vm1" "rev1" (by decide) (fun _ _ _ => rfl)⟩

/-! ## Runs that return an error -/

namespace Run
variable {Env Ev σ α β : Type}

end Run

namespace Run
variable {Env Ev σ α β γ : Type}

theorem keeps_ret (π : σ → γ) (a : α) : Keeps π (ret a : Run Env Ev σ α) := fun _ _ => rfl

theorem keeps_fail (π : σ → γ) (e : Error) : Keeps π (fail e : Run Env Ev σ α) := fun _ _ => rfl

theorem keeps_get (π : σ → γ) : Keeps π (get : Run Env Ev σ σ) := fun _ _ => rfl

theorem keeps_deref (π : σ → γ) (p : Option α) : Keeps π (deref p : Run Env Ev σ α) := by
  cases p <;> exact fun _ _ => rfl

theorem keeps_call (π : σ → γ) (ev : Ev) (answer : Env → List Ev → Except Error α) :
    Keeps π (call ev answer : Run Env Ev σ α) := by
  intro env c
  rw [call_snd]

theorem keeps_modify (π : σ → γ) (f : σ → σ) (hf : ∀ s, π (f s) = π s) :
    Keeps π (modify f : Run Env Ev σ Unit) := fun _ c => hf c.st

theorem keeps_andThen (π : σ → γ) (m : Run Env Ev σ α) (f : α → Run Env Ev σ β)
    (hm : Keeps π m) (hf : ∀ a, Keeps π (f a)) : Keeps π (andThen m f) := by
  intro env c
  have h1 := hm env c
  unfold andThen
  rcases h : m env c with ⟨r, c1⟩
  rw [h] at h1
  cases r with
  | ok a => exact (hf a env c1).trans h1
  | err e => exact h1
  | panic p => exact h1

theorem keeps_wrapErr (π : σ → γ) (pre : String) (m : Run Env Ev σ α) (hm : Keeps π m) :
    Keeps π (wrapErr pre m) := by
  intro env c
  rw [wrapErr_snd]
  exact hm env c

end Run

theorem keeps_getOrch {γ : Type} (π : Host → γ) : Run.Keeps π getOrch := fun _ _ => rfl

theorem keeps_modifyOrch {γ : Type} (π : Host → γ) (f : Orchestrator → Orchestrator)
    (hf : ∀ h : Host, π { h with orch := f h.orch } = π h) : Run.Keeps π (modifyOrch f) :=
  fun _ c => hf c.st

theorem stopVm_keeps_vms (vmID : String) :
    Run.Keeps (fun h : Host => h.orch.vms) (stopVm vmID) := by
  unfold stopVm
  simp only [Run.bind_eq, Run.pure_eq]
  repeat' first
    | apply Run.keeps_andThen
    | apply Run.keeps_wrapErr
    | apply Run.keeps_call
    | apply Run.keeps_deref
    | apply Run.keeps_ret
    | apply keeps_getOrch
    | exact keeps_modifyOrch _ _ (fun _ => rfl)
    | split
    | intro _

/-! ## C3 and C4: the stop sequence and the VM table -/

/-- An error-free `stopVm`: the calls it made, in order, and the lease map it
leaves, for a cold-booted and for a snapshot-booted VM. -/
theorem stopVm_ok {env : Env} {c c1 : Cfg Host Event} {vmID : String}
    (h : stopVm vmID env c = (Res.ok (), c1)) :
    ((c.st.orch.vm vmID).snapBooted = false →
      ∃ task ctr, (c.st.orch.vm vmID).task = some task ∧ (c.st.orch.vm vmID).ctr = some ctr ∧
        c1.trace = c.trace ++
          [Event.TaskKill task syscall.SIGKILL, Event.TaskWait task, Event.ExitStatus task,
           Event.TaskDelete task, Event.ContainerDelete ctr true,
           Event.StopVM vmID, Event.RemoveNetwork vmID] ∧
        c1.st.orch.leases = c.st.orch.leases) ∧
    ((c.st.orch.vm vmID).snapBooted = true →
      ∃ lease, c.st.orch.leases (c.st.orch.vm vmID).ctrSnapKey = some lease ∧
        c1.trace = c.trace ++
          [Event.StopVM vmID, Event.SnapshotRemove (c.st.orch.vm vmID).ctrSnapKey,
           Event.LeaseDelete lease, Event.RemoveNetwork vmID] ∧
        c1.st.orch.leases = c.st.orch.leases.delete (c.st.orch.vm vmID).ctrSnapKey) := by
  simp only [stopVm, Run.bind_eq, Run.pure_eq, Run.andThen_ok, getOrch_ok] at h
  obtain ⟨a, c2, ⟨rfl, rfl⟩, h⟩ := h
  cases hb : (c.st.orch.vm vmID).snapBooted
  · simp [hb, Run.bind_eq, Run.pure_eq, Run.andThen_ok, getOrch_ok, Run.wrapErr_ok,
      Run.call_ok, Run.deref_ok, modifyOrch_ok, Run.ret_ok] at h
    obtain ⟨task, _, ⟨ht, rfl⟩, _, _, ⟨-, rfl⟩, _, _, ⟨-, rfl⟩, _, _, ⟨-, rfl⟩, ctr, _,
      ⟨hc, rfl⟩, _, _, ⟨-, rfl⟩, _, _, ⟨-, rfl⟩, -, rfl⟩ := h
    simp [ht, hc]
  · simp [hb, Run.bind_eq, Run.pure_eq, Run.andThen_ok, getOrch_ok, Run.wrapErr_ok,
      Run.call_ok, Run.deref_ok, modifyOrch_ok, Run.ret_ok] at h
    obtain ⟨_, _, ⟨-, rfl⟩, _, _, ⟨-, rfl⟩, _, _, ⟨rfl, rfl⟩, lease, _, ⟨hl, rfl⟩, _, _,
      ⟨-, rfl⟩, -, rfl⟩ := h
    simp at hl
    simp [hl]

/-- C3 (counterexample): after the error-free `stopVm` of the cold-booted
`vm1` the VM table still holds the record of `vm1`; the last step was
`RemoveNetwork`. -/
theorem stopVm_record_remains :
    (stopVm "vm1" happyEnv demoCfg).1 = Res.ok () ∧
    (stopVm "vm1" happyEnv demoCfg).2.st.orch.vms "vm1" = some coldVM ∧
    (stopVm "vm1" happyEnv demoCfg).2.trace.getLast? = some (Event.RemoveNetwork "vm1") := by
  decide

/-- C3 (amended): `stopVm` never changes the VM table: when it returns, with
or without error, the table is the one it found, so a record for `vmID`
stays in it; on an error-free run the last step of the stop sequence is
`RemoveNetwork vmID`. -/
theorem stopVm_vm_table_unchanged (env : Env) (c : Cfg Host Event) (vmID : String) :
    (stopVm vmID env c).2.st.orch.vms = c.st.orch.vms ∧
    ((stopVm vmID env c).1 = Res.ok () →
      (stopVm vmID env c).2.trace.getLast? = some (Event.RemoveNetwork vmID)) := by
  refine ⟨stopVm_keeps_vms vmID env c, fun h => ?_⟩
  rcases hr : stopVm vmID env c with ⟨r, c1⟩
  rw [hr] at h
  simp only at h
  subst h
  obtain ⟨hcold, hwarm⟩ := stopVm_ok hr
  cases hb : (c.st.orch.vm vmID).snapBooted
  · obtain ⟨task, ctr, -, -, htr, -⟩ := hcold hb
    simp [htr]
  · obtain ⟨lease, -, htr, -⟩ := hwarm hb
    simp [htr]

/-- C3 (witness): `stopVm_vm_table_unchanged` at the error-free stop of
`vm1`. -/
theorem stopVm_vm_table_unchanged_witness :
    (stopVm "vm1" happyEnv demoCfg).1 = Res.ok () ∧
    (stopVm "vm1" happyEnv demoCfg).2.st.orch.vms = demoCfg.st.orch.vms ∧
    (stopVm "vm1" happyEnv demoCfg).2.trace.getLast? = some (Event.RemoveNetwork "vm1") :=
  ⟨by decide, (stopVm_vm_table_unchanged happyEnv demoCfg "vm1").1,
    (stopVm_vm_table_unchanged happyEnv demoCfg "vm1").2 (by decide)⟩

/-- C4: on an error-free run of `stopVm`, for a cold-booted VM the calls are
task `Kill` with `SIGKILL`, task `Wait`, receipt of the exit status, task
`Delete`, container `Delete` with snapshot cleanup, `StopVM`, `RemoveNetwork`,
and nothing else, so no snapshot or lease removal, and the lease map is
unchanged; for a snapshot-booted VM the calls are `StopVM`, removal of the
container snapshot, deletion of its lease, `RemoveNetwork`, and nothing else,
so no task or container call, and the lease-map entry of the container
snapshot is deleted. -/
theorem stopVm_error_free_calls (env : Env) (c : Cfg Host Event) (vmID : String)
    (h : (stopVm vmID env c).1 = Res.ok ()) :
    ((c.st.orch.vm vmID).snapBooted = false →
      ∃ task ctr, (c.st.orch.vm vmID).task = some task ∧ (c.st.orch.vm vmID).ctr = some ctr ∧
        (stopVm vmID env c).2.trace = c.trace ++
          [Event.TaskKill task syscall.SIGKILL, Event.TaskWait task, Event.ExitStatus task,
           Event.TaskDelete task, Event.ContainerDelete ctr true,
           Event.StopVM vmID, Event.RemoveNetwork vmID] ∧
        (stopVm vmID env c).2.st.orch.leases = c.st.orch.leases) ∧
    ((c.st.orch.vm vmID).snapBooted = true →
      ∃ lease, c.st.orch.leases (c.st.orch.vm vmID).ctrSnapKey = some lease ∧
        (stopVm vmID env c).2.trace = c.trace ++
          [Event.StopVM vmID, Event.SnapshotRemove (c.st.orch.vm vmID).ctrSnapKey,
           Event.LeaseDelete lease, Event.RemoveNetwork vmID] ∧
        (stopVm vmID env c).2.st.orch.leases =
          c.st.orch.leases.delete (c.st.orch.vm vmID).ctrSnapKey) := by
  rcases hr : stopVm vmID env c with ⟨r, c1⟩
  rw [hr] at h
  simp only at h
  subst h
  exact stopVm_ok hr

/-- C4 (witness): `stopVm_error_free_calls` at the snapshot-booted `vm2`,
whose calls are listed, and at the cold-booted `vm1`. -/
theorem stopVm_error_free_calls_witness :
    (stopVm "vm2" happyEnv demoCfg).1 = Res.ok () ∧
    (demoCfg.st.orch.vm "vm2").snapBooted = true ∧
    (∃ lease, demoCfg.st.orch.leases (demoCfg.st.orch.vm "vm2").ctrSnapKey = some lease ∧
      (stopVm "vm2" happyEnv demoCfg).2.trace = demoCfg.trace ++
        [Event.StopVM "vm2", Event.SnapshotRemove (demoCfg.st.orch.vm "vm2").ctrSnapKey,
         Event.LeaseDelete lease, Event.RemoveNetwork "vm2"] ∧
      (stopVm "vm2" happyEnv demoCfg).2.st.orch.leases =
        demoCfg.st.orch.leases.delete (demoCfg.st.orch.vm "vm2").ctrSnapKey) ∧
    (stopVm "vm1" happyEnv demoCfg).1 = Res.ok () ∧
    (demoCfg.st.orch.vm "vm1").snapBooted = false ∧
    (∃ task ctr, (demoCfg.st.orch.vm "vm1").task = some task ∧
      (demoCfg.st.orch.vm "vm1").ctr = some ctr ∧
      (stopVm "vm1" happyEnv demoCfg).2.trace = demoCfg.trace ++
        [Event.TaskKill task syscall.SIGKILL, Event.TaskWait task, Event.ExitStatus task,
         Event.TaskDelete task, Event.ContainerDelete ctr true,
         Event.StopVM "vm1", Event.RemoveNetwork "vm1"] ∧
      (stopVm "vm1" happyEnv demoCfg).2.st.orch.leases = demoCfg.st.orch.leases) :=
  ⟨by decide, by decide,
    (stopVm_error_free_calls happyEnv demoCfg "vm2" (by decide)).2 (by decide),
    by decide, by decide,
    (stopVm_error_free_calls happyEnv demoCfg "vm1" (by decide)).1 (by decide)⟩


/-! ## C5 and C6: the warm start -/

/-- A successful `deserializeSnapInfo`: the file exists, its bytes decode to
the value returned, and nothing but the trace changes. -/
theorem deserializeSnapInfo_ok {env : Env} {c c1 : Cfg Host Event} {path : String}
    {v : snapshot} (h : deserializeSnapInfo path env c = (Res.ok v, c1)) :
    ∃ bytes, c.st.files path = some bytes ∧ env.gobDecode bytes = Except.ok v ∧
      c1 = { c with trace := c.trace ++
        [Event.Open path, Event.Decode path, Event.Close path] } := by
  simp only [deserializeSnapInfo, Run.bind_eq, Run.andThen_ok, Run.wrapErr_ok,
    Run.withDefer_ok] at h
  obtain ⟨bytes, c2, hopen, c3, hdec, hcl, -⟩ := h
  simp only [fileClose, Run.ignoreErr_snd, Run.call_snd] at hcl
  subst hcl
  cases hf : c.st.files path with
  | none => simp [osOpen, hf] at hopen
  | some b =>
    simp only [osOpen, hf, Prod.mk.injEq, Res.ok.injEq] at hopen
    obtain ⟨rfl, rfl⟩ := hopen
    cases hv : env.gobDecode b with
    | error e => simp [gobDecodeFrom, hv] at hdec
    | ok v1 =>
      simp only [gobDecodeFrom, hv, Prod.mk.injEq, Res.ok.injEq] at hdec
      obtain ⟨rfl, rfl⟩ := hdec
      exact ⟨b, rfl, hv, by simp⟩

/-- A successful `restoreSnapInfo`: the record stored under `vmID` and
returned carries the decoded image reference and the given key, is marked
snapshot-booted, and has every other field at its zero value. -/
theorem restoreSnapInfo_ok {env : Env} {c c1 : Cfg Host Event} {vmID key path : String}
    {vmInfo : VMInfo} (h : restoreSnapInfo vmID key path env c = (Res.ok vmInfo, c1)) :
    ∃ bytes v, c.st.files path = some bytes ∧ env.gobDecode bytes = Except.ok v ∧
      vmInfo = { VMInfo.zero with imgName := v.Img, ctrSnapKey := key, snapBooted := true } ∧
      c1 = { st := { c.st with orch := { c.st.orch with vms := c.st.orch.vms.set vmID vmInfo } },
             trace := c.trace ++ [Event.Open path, Event.Decode path, Event.Close path] } := by
  simp only [restoreSnapInfo, Run.bind_eq, Run.pure_eq, Run.andThen_ok, Run.wrapErr_ok,
    modifyOrch_ok, Run.ret_ok] at h
  obtain ⟨v, c2, hd, _, c3, rfl, rfl, rfl⟩ := h
  obtain ⟨bytes, hb, hv, rfl⟩ := deserializeSnapInfo_ok hd
  exact ⟨bytes, v, hb, hv, rfl, rfl⟩

/-- A successful `getContainerImage`: the image comes from the cache without
any call, or from a pull whose result is then cached. -/
theorem getContainerImage_ok {env : Env} {c c1 : Cfg Host Event} {imageName : String}
    {image : Image} (h : getContainerImage imageName env c = (Res.ok image, c1)) :
    (c.st.orch.cachedImages imageName = some image ∧ c1 = c) ∨
    (c.st.orch.cachedImages imageName = none ∧
      env.image (c.trace ++ [Event.Pull (getImageURL imageName) snapshotter]) = Except.ok image ∧
      c1 = { st := { c.st with orch := { c.st.orch with
                      cachedImages := c.st.orch.cachedImages.set imageName image } },
             trace := c.trace ++ [Event.Pull (getImageURL imageName) snapshotter] }) := by
  simp only [getContainerImage, Run.bind_eq, Run.pure_eq, Run.andThen_ok, getOrch_ok] at h
  obtain ⟨o, c2, ⟨rfl, rfl⟩, h⟩ := h
  cases himg : c.st.orch.cachedImages imageName with
  | some img =>
    simp only [himg, Run.ret_ok] at h
    obtain ⟨rfl, rfl⟩ := h
    exact Or.inl ⟨rfl, rfl⟩
  | none =>
    simp only [himg, Run.andThen_ok, Run.wrapErr_ok, Run.call_ok, modifyOrch_ok,
      Run.ret_ok] at h
    obtain ⟨img, c3, ⟨hp, rfl⟩, _, c4, rfl, rfl, rfl⟩ := h
    exact Or.inr ⟨rfl, hp, rfl⟩

/-- A successful `restoreCtrSnap`: the device was mounted writable on a fresh
directory, the batch was read into the mount, and the mount was released. -/
theorem restoreCtrSnap_ok {env : Env} {c c1 : Cfg Host Event} {dev patch : String}
    (h : restoreCtrSnap dev patch env c = (Res.ok (), c1)) :
    ∃ tmp,
      c1 = { c with trace := c.trace ++
        [Event.MkdirTemp "" (filepath.Base dev),
         Event.Mount dev (removeTrailingSlash tmp) "ext4" (mountExt4Flags false) "",
         Event.Exec "sudo" ["rsync", "-ar", "--read-batch=" ++ patch,
           addTrailingSlash (removeTrailingSlash tmp)],
         Event.Unmount (removeTrailingSlash tmp) syscall.MNT_DETACH,
         Event.RemoveAll (removeTrailingSlash tmp)] } := by
  simp only [restoreCtrSnap, Run.bind_eq, Run.andThen_ok] at h
  obtain ⟨dir, c2, hm, _, c3, ha, hu⟩ := h
  obtain ⟨tmp, -, rfl, rfl⟩ := mountCtrSnap_ok hm
  have ha := applyPatch_ok ha
  subst ha
  have hu := unmountCtrSnap_ok hu
  subst hu
  have hopt : strings.Join (mountExt4Options false) "," = "" := by decide
  exact ⟨tmp, by simp [hopt]⟩

/-- A successful getter on the network configuration changes nothing. -/
theorem netConfigOf_ok {env : Env} {c c1 : Cfg Host Event} {vmID : String}
    {cfg : NetworkConfig} (h : netConfigOf vmID env c = (Res.ok cfg, c1)) :
    env.netConfig c.trace vmID = some cfg ∧ c1 = c := by
  simp only [netConfigOf, Run.bind_eq, Run.andThen_ok, Run.ask_ok, Run.deref_ok] at h
  obtain ⟨_, c2, ⟨rfl, rfl⟩, h1, rfl⟩ := h
  exact ⟨h1, rfl⟩

/-- A successful `bootVMFromSnapshot`: the calls it made from the preparation
of the container snapshot on, the request it sent, and the VM record and
lease it leaves. -/
theorem bootVMFromSnapshot_ok {env : Env} {c c1 : Cfg Host Event} {vmID revision : String}
    (h : bootVMFromSnapshot vmID revision env c = (Res.ok (), c1)) :
    ∃ (bytes : List Nat) (v : snapshot) (pre : List Event) (lease : Lease) (parent : String)
      (m : Mount) (tmp : String) (net : NetworkConfig),
      c.st.files (filepath.Join [c.st.orch.BasePath, revision, "infofile"]) = some bytes ∧
      env.gobDecode bytes = Except.ok v ∧
      env.mounts (c.trace ++ pre ++ [Event.Prepare lease.ID (getSnapKey vmID) parent]) =
        Except.ok [m] ∧
      c1.trace = c.trace ++ pre ++
        [Event.Prepare lease.ID (getSnapKey vmID) parent,
         Event.MkdirTemp "" (filepath.Base m.Source),
         Event.Mount m.Source (removeTrailingSlash tmp) "ext4" (mountExt4Flags false) "",
         Event.Exec "sudo" ["rsync", "-ar",
           "--read-batch=" ++ filepath.Join [c.st.orch.BasePath, revision, "patchfile"],
           addTrailingSlash (removeTrailingSlash tmp)],
         Event.Unmount (removeTrailingSlash tmp) syscall.MNT_DETACH,
         Event.RemoveAll (removeTrailingSlash tmp),
         Event.CreateVM
           { VMID := vmID,
             MachineCfg := { VcpuCount := 2, MemSizeMib := 2048 },
             NetworkInterfaces := [{ StaticConfig :=
               { MacAddress := macAddress, HostDevName := hostDevName,
                 IPConfig := { PrimaryAddr := net.ContainerCIDR, GatewayAddr := net.GatewayIP,
                               Nameservers := ["8.8.8.8"] } } }],
             NetNS := net.NamespacePath,
             LoadSnapshot := true,
             MemFilePath := filepath.Join [c.st.orch.BasePath, revision, "memfile"],
             SnapshotPath := filepath.Join [c.st.orch.BasePath, revision, "snapfile"],
             ContainerSnapshotPath := m.Source }] ∧
      c1.st.orch.vms = c.st.orch.vms.set vmID
        { VMInfo.zero with imgName := v.Img, ctrSnapKey := getSnapKey vmID, snapBooted := true } ∧
      c1.st.orch.leases = c.st.orch.leases.set (getSnapKey vmID) lease := by
  simp only [bootVMFromSnapshot, Run.bind_eq, Run.andThen_ok, Run.wrapErr_ok, getOrch_ok,
    Run.call_ok] at h
  obtain ⟨o, c2, ⟨rfl, rfl⟩, vmInfo, c3, hri, img, c4, hgi, dev, c5, hcs, _, c6, hrs,
    n1, c7, hn1, n2, c8, hn2, n3, c9, hn3, -, rfl⟩ := h
  obtain ⟨bytes, v, hb, hv, rfl, rfl⟩ := restoreSnapInfo_ok hri
  obtain ⟨image, diffIDs, lease, m, himg, -, -, hm, rfl, rfl⟩ := createCtrSnap_ok hcs
  obtain ⟨tmp, rfl⟩ := restoreCtrSnap_ok hrs
  obtain ⟨h1, rfl⟩ := netConfigOf_ok hn1
  obtain ⟨h2, rfl⟩ := netConfigOf_ok hn2
  obtain ⟨h3, rfl⟩ := netConfigOf_ok hn3
  rw [h1] at h2 h3
  cases h2
  cases h3
  cases himg
  rcases getContainerImage_ok hgi with ⟨-, rfl⟩ | ⟨-, -, rfl⟩
  · refine ⟨bytes, v, [Event.Open (filepath.Join [c.st.orch.BasePath, revision, "infofile"]),
      Event.Decode (filepath.Join [c.st.orch.BasePath, revision, "infofile"]),
      Event.Close (filepath.Join [c.st.orch.BasePath, revision, "infofile"]), Event.RootFS img,
      Event.LeaseCreate (getSnapKey vmID)], lease, env.ChainID diffIDs, m, tmp, n1, hb, hv,
      ?_, ?_, rfl, rfl⟩
    · simpa using hm
    · simp
  · refine ⟨bytes, v, [Event.Open (filepath.Join [c.st.orch.BasePath, revision, "infofile"]),
      Event.Decode (filepath.Join [c.st.orch.BasePath, revision, "infofile"]),
      Event.Close (filepath.Join [c.st.orch.BasePath, revision, "infofile"]),
      Event.Pull (getImageURL v.Img) snapshotter,
      Event.RootFS img, Event.LeaseCreate (getSnapKey vmID)], lease, env.ChainID diffIDs, m,
      tmp, n1, hb, hv, ?_, ?_, rfl, rfl⟩
    · simpa using hm
    · simp

/-- C5: on every successful `bootVMFromSnapshot vmID revision` the last call
is the `CreateVM` request, which has `LoadSnapshot = true`, `MemFilePath` and
`SnapshotPath` the join of `BasePath`, the revision and `memfile`, resp.
`snapfile`, and `ContainerSnapshotPath` the source of the one mount that the
preparation of the fresh container snapshot returned; before the request that
same device was mounted writable, the batch at the join of `BasePath`, the
revision and `patchfile` was read into the mount, and the mount was
released. -/
theorem bootVMFromSnapshot_request (env : Env) (c : Cfg Host Event) (vmID revision : String)
    (h : (bootVMFromSnapshot vmID revision env c).1 = Res.ok ()) :
    ∃ (pre : List Event) (lease : Lease) (parent : String) (m : Mount) (dir : String)
      (req : CreateVMRequest),
      env.mounts (c.trace ++ pre ++ [Event.Prepare lease.ID (getSnapKey vmID) parent]) =
        Except.ok [m] ∧
      (bootVMFromSnapshot vmID revision env c).2.trace = c.trace ++ pre ++
        [Event.Prepare lease.ID (getSnapKey vmID) parent,
         Event.MkdirTemp "" (filepath.Base m.Source),
         Event.Mount m.Source dir "ext4" (mountExt4Flags false) "",
         Event.Exec "sudo" ["rsync", "-ar",
           "--read-batch=" ++ filepath.Join [c.st.orch.BasePath, revision, "patchfile"],
           addTrailingSlash dir],
         Event.Unmount dir syscall.MNT_DETACH,
         Event.RemoveAll dir,
         Event.CreateVM req] ∧
      req.VMID = vmID ∧
      req.LoadSnapshot = true ∧
      req.MemFilePath = filepath.Join [c.st.orch.BasePath, revision, "memfile"] ∧
      req.SnapshotPath = filepath.Join [c.st.orch.BasePath, revision, "snapfile"] ∧
      req.ContainerSnapshotPath = m.Source := by
  rcases hr : bootVMFromSnapshot vmID revision env c with ⟨r, c1⟩
  rw [hr] at h
  simp only at h
  subst h
  obtain ⟨bytes, v, pre, lease, parent, m, tmp, net, -, -, hm, htr, -, -⟩ :=
    bootVMFromSnapshot_ok hr
  exact ⟨pre, lease, parent, m, removeTrailingSlash tmp, _, hm, htr, rfl, rfl, rfl, rfl, rfl⟩

/-- C5 (witness): `bootVMFromSnapshot_request` at the start of `vm3` from the
revision `rev0`. -/
theorem bootVMFromSnapshot_request_witness :
    (bootVMFromSnapshot "vm3" "rev0" happyEnv demoCfg).1 = Res.ok () ∧
    ∃ (pre : List Event) (lease : Lease) (parent : String) (m : Mount) (dir : String)
      (req : CreateVMRequest),
      happyEnv.mounts (demoCfg.trace ++ pre ++
        [Event.Prepare lease.ID (getSnapKey "vm3") parent]) = Except.ok [m] ∧
      (bootVMFromSnapshot "vm3" "rev0" happyEnv demoCfg).2.trace = demoCfg.trace ++ pre ++
        [Event.Prepare lease.ID (getSnapKey "vm3") parent,
         Event.MkdirTemp "" (filepath.Base m.Source),
         Event.Mount m.Source dir "ext4" (mountExt4Flags false) "",
         Event.Exec "sudo" ["rsync", "-ar",
           "--read-batch=" ++ filepath.Join [demoCfg.st.orch.BasePath, "rev0", "patchfile"],
           addTrailingSlash dir],
         Event.Unmount dir syscall.MNT_DETACH,
         Event.RemoveAll dir,
         Event.CreateVM req] ∧
      req.VMID = "vm3" ∧
      req.LoadSnapshot = true ∧
      req.MemFilePath = filepath.Join [demoCfg.st.orch.BasePath, "rev0", "memfile"] ∧
      req.SnapshotPath = filepath.Join [demoCfg.st.orch.BasePath, "rev0", "snapfile"] ∧
      req.ContainerSnapshotPath = m.Source :=
  ⟨by decide, bootVMFromSnapshot_request happyEnv demoCfg "vm3" "rev0" (by decide)⟩

/-- C6 (failing input): `vm3` is booted from the revision `rev0`; the fresh
container snapshot is the device `/dev/mapper/fc-thinpool-snap-1`, which is
what the `CreateVM` request carries, but the record stored under `vm3` has the
empty string as its block-device path.  The record is marked snapshot-booted
and has the decoded image reference and the key derived from `vm3`. -/
theorem bootVMFromSnapshot_record_lacks_device :
    (bootVMFromSnapshot "vm3" "rev0" happyEnv demoCfg).1 = Res.ok () ∧
    (bootVMFromSnapshot "vm3" "rev0" happyEnv demoCfg).2.trace.getLast? =
      some (Event.CreateVM
        { VMID := "vm3",
          MachineCfg := { VcpuCount := 2, MemSizeMib := 2048 },
          NetworkInterfaces := [{ StaticConfig :=
            { MacAddress := "AA:FC:00:00:00:01", HostDevName := "tap0",
              IPConfig := { PrimaryAddr := "172.16.0.2/24", GatewayAddr := "172.16.0.1",
                            Nameservers := ["8.8.8.8"] } } }],
          NetNS := "/var/run/netns/uvmns1",
          LoadSnapshot := true,
          MemFilePath := "/var/snaps/rev0/memfile",
          SnapshotPath := "/var/snaps/rev0/snapfile",
          ContainerSnapshotPath := "/dev/mapper/fc-thinpool-snap-1" }) ∧
    (bootVMFromSnapshot "vm3" "rev0" happyEnv demoCfg).2.st.orch.vms "vm3" =
      some { imgName := "hello", ctrSnapKey := "demo-snapvm3", snapBooted := true,
             ctrSnapDevPath := "", ctr := none, task := none } := by
  decide


/-! ## C7: the lease map after patch extraction -/

/-- C7 (failing input): `extractPatch` runs for the cold-booted `vm1` and for
the snapshot-booted `vm2`, every call succeeding.  The temporary snapshot and
its lease are removed at containerd, but the lease map still holds the entry
of the temporary key, and for `vm2` the entry of the VM's own container
snapshot, present before the call, is gone. -/
theorem extractPatch_lease_map_after :
    (extractPatch "vm1" "/var/snaps/rev1/patchfile" happyEnv demoCfg).1 = Res.ok () ∧
    Event.SnapshotRemove "tempimagesnapvm1" ∈
      (extractPatch "vm1" "/var/snaps/rev1/patchfile" happyEnv demoCfg).2.trace ∧
    Event.LeaseDelete { ID := "tempimagesnapvm1" } ∈
      (extractPatch "vm1" "/var/snaps/rev1/patchfile" happyEnv demoCfg).2.trace ∧
    (extractPatch "vm1" "/var/snaps/rev1/patchfile" happyEnv demoCfg).2.st.orch.leases
      "tempimagesnapvm1" = some { ID := "tempimagesnapvm1" } ∧
    (extractPatch "vm2" "/var/snaps/rev1/patchfile" happyEnv demoCfg).1 = Res.ok () ∧
    (extractPatch "vm2" "/var/snaps/rev1/patchfile" happyEnv demoCfg).2.st.orch.leases
      "tempimagesnapvm2" = some { ID := "tempimagesnapvm2" } ∧
    demoCfg.st.orch.leases "demo-snapvm2" = some { ID := "demo-snapvm2" } ∧
    (extractPatch "vm2" "/var/snaps/rev1/patchfile" happyEnv demoCfg).2.st.orch.leases
      "demo-snapvm2" = none := by
  decide

/-! ## C8: the infofile round trip -/

/-- A deferred call whose error is dropped does not change the outcome of the
body. -/
theorem withDefer_ignoreErr_call_fst {α β : Type} (ev : Event)
    (answer : Env → List Event → Except Error β) (body : M α) (env : Env)
    (c : Cfg Host Event) :
    (Run.withDefer (Run.ignoreErr (Run.call ev answer)) body env c).1 = (body env c).1 := by
  unfold Run.withDefer
  rcases body env c with ⟨r, c1⟩
  simp only [Run.ignoreErr, Run.call]
  cases answer env (c1.trace ++ [ev]) <;> rfl

/-- When the codec reads back what it wrote, `deserializeSnapInfo` on a file
that holds the encoder's bytes for `v` returns `v`. -/
theorem deserializeSnapInfo_eval {env env2 : Env} {c2 : Cfg Host Event} {path : String}
    {v : snapshot} (hgob : env2.gobDecode (env.gobEncode v) = Except.ok v)
    (hfile : c2.st.files path = some (env.gobEncode v)) :
    (deserializeSnapInfo path env2 c2).1 = Res.ok v := by
  simp only [deserializeSnapInfo, Run.bind_eq, Run.andThen, Run.wrapErr, osOpen, hfile,
    fileClose, withDefer_ignoreErr_call_fst, gobDecodeFrom, hgob]

/-- C8: infofile round trip.  Whenever `serializeSnapInfo p s` succeeds, a
`deserializeSnapInfo p` that finds the file as it was left succeeds and
returns `s`, for every `s`, the empty image reference included.  The gob codec
is the library's: that its decoder reads back the value its encoder wrote is
its contract and is assumed here. -/
theorem snapInfo_round_trip (env env2 : Env) (c c2 : Cfg Host Event) (p : String) (s : snapshot)
    (hgob : ∀ v, env2.gobDecode (env.gobEncode v) = Except.ok v)
    (h : (serializeSnapInfo p s env c).1 = Res.ok ())
    (hfile : c2.st.files p = (serializeSnapInfo p s env c).2.st.files p) :
    (deserializeSnapInfo p env2 c2).1 = Res.ok s := by
  rcases hr : serializeSnapInfo p s env c with ⟨r, c1⟩
  rw [hr] at h hfile
  simp only at h hfile
  subst h
  obtain ⟨-, hf, -⟩ := serializeSnapInfo_ok hr
  rw [hf] at hfile
  exact deserializeSnapInfo_eval (hgob s) (by simpa [GoMap.set] using hfile)

/-- The codec of `happyEnv` reads back what it wrote. -/
theorem happyEnv_gob (v : snapshot) : happyEnv.gobDecode (happyEnv.gobEncode v) = Except.ok v := by
  cases v with
  | mk img =>
    simp only [happyEnv, List.map_map]
    have : (Char.ofNat ∘ Char.toNat) = id := by
      funext ch
      simp
    rw [this]
    simp

/-- C8 (witness): `snapInfo_round_trip` for the empty image reference, read
back right after it was written. -/
theorem snapInfo_round_trip_witness :
    (∀ v, happyEnv.gobDecode (happyEnv.gobEncode v) = Except.ok v) ∧
    (serializeSnapInfo "/var/snaps/rev1/infofile" { Img := "" } happyEnv demoCfg).1 = Res.ok () ∧
    (deserializeSnapInfo "/var/snaps/rev1/infofile" happyEnv
      (serializeSnapInfo "/var/snaps/rev1/infofile" { Img := "" } happyEnv demoCfg).2).1 =
      Res.ok { Img := "" } :=
  ⟨happyEnv_gob, by decide,
    snapInfo_round_trip happyEnv happyEnv demoCfg _ "/var/snaps/rev1/infofile" { Img := "" }
      happyEnv_gob (by decide) rfl⟩


/-! ## Number parsing -/

theorem decimalFrom_ge (cs : List Char) (n : Nat) : n ≤ decimalFrom n cs := by
  induction cs generalizing n with
  | nil => simp [decimalFrom]
  | cons c cs ih =>
    have h := ih (10 * n + (c.toNat - '0'.toNat))
    simp only [decimalFrom, List.foldl_cons] at h ⊢
    omega

theorem digitVal_of_isDigit {c : Char} (h : isDigit c = true) :
    strconv.digitVal c = some (c.toNat - '0'.toNat) ∧ c.toNat - '0'.toNat < 10 := by
  simp only [isDigit, decide_eq_true_eq] at h
  have h0 : '0'.toNat = 48 := rfl
  have h9 : '9'.toNat = 57 := rfl
  refine ⟨?_, by omega⟩
  unfold strconv.digitVal
  rw [if_pos h]

theorem digitVal_of_not_isDigit {c : Char} (h : isDigit c = false) :
    strconv.digitVal c = none ∨ ∃ d, strconv.digitVal c = some d ∧ 10 ≤ d := by
  simp only [isDigit, decide_eq_false_iff_not] at h
  unfold strconv.digitVal
  rw [if_neg h]
  split
  · exact Or.inr ⟨_, rfl, by omega⟩
  · exact Or.inl rfl

/-- The loop of `ParseUint` in base ten with 32 bits, started at a value that
fits: it returns the number the digits denote when all are digits and the
number fits, and an error otherwise. -/
theorem parseLoop_decimal (s0 : String) (cs : List Char) (n : Nat) (hn : n ≤ 2 ^ 32 - 1) :
    (cs.all isDigit = true ∧ decimalFrom n cs ≤ 2 ^ 32 - 1 →
      strconv.parseLoop s0 10 ((2 ^ 64 - 1) / 10 + 1) (2 ^ 32 - 1) cs n =
        (decimalFrom n cs, none)) ∧
    (¬ (cs.all isDigit = true ∧ decimalFrom n cs ≤ 2 ^ 32 - 1) →
      ∃ v e, strconv.parseLoop s0 10 ((2 ^ 64 - 1) / 10 + 1) (2 ^ 32 - 1) cs n =
        (v, some e)) := by
  induction cs generalizing n with
  | nil =>
    constructor
    · intro _
      simp [strconv.parseLoop, decimalFrom]
    · intro h
      exact absurd ⟨by simp, by simpa [decimalFrom] using hn⟩ h
  | cons c cs ih =>
    cases hc : isDigit c with
    | false =>
      constructor
      · intro h
        simp [hc] at h
      · intro _
        rcases digitVal_of_not_isDigit hc with hd | ⟨d, hd, hge⟩
        · exact ⟨0, strconv.syntaxError s0, by simp [strconv.parseLoop, hd]⟩
        · refine ⟨0, strconv.syntaxError s0, ?_⟩
          simp only [strconv.parseLoop, hd]
          rw [if_pos hge]
    | true =>
      obtain ⟨hd, hlt⟩ := digitVal_of_isDigit hc
      have hstep : decimalFrom n (c :: cs) = decimalFrom (10 * n + (c.toNat - '0'.toNat)) cs := by
        simp [decimalFrom]
      have hcut : ¬ n ≥ (2 ^ 64 - 1) / 10 + 1 := by
        norm_num at hn ⊢
        omega
      have hmul : n * 10 % 2 ^ 64 = n * 10 := by
        apply Nat.mod_eq_of_lt
        norm_num at hn ⊢
        omega
      have hadd : (n * 10 + (c.toNat - '0'.toNat)) % 2 ^ 64 = n * 10 + (c.toNat - '0'.toNat) := by
        apply Nat.mod_eq_of_lt
        norm_num at hn ⊢
        omega
      have hunfold : strconv.parseLoop s0 10 ((2 ^ 64 - 1) / 10 + 1) (2 ^ 32 - 1) (c :: cs) n =
          if n * 10 + (c.toNat - '0'.toNat) < n * 10 ∨
              n * 10 + (c.toNat - '0'.toNat) > 2 ^ 32 - 1 then
            (2 ^ 32 - 1, some (strconv.rangeError s0))
          else strconv.parseLoop s0 10 ((2 ^ 64 - 1) / 10 + 1) (2 ^ 32 - 1) cs
            (n * 10 + (c.toNat - '0'.toNat)) := by
        rw [strconv.parseLoop, hd]
        simp only []
        rw [if_neg (by omega), if_neg hcut]
        simp only [hmul, hadd]
      rw [hunfold, hstep]
      by_cases hbig : n * 10 + (c.toNat - '0'.toNat) > 2 ^ 32 - 1
      · rw [if_pos (Or.inr hbig)]
        constructor
        · intro h
          have := decimalFrom_ge cs (10 * n + (c.toNat - '0'.toNat))
          omega
        · intro _
          exact ⟨_, _, rfl⟩
      · rw [if_neg (by omega)]
        have hfit : n * 10 + (c.toNat - '0'.toNat) ≤ 2 ^ 32 - 1 := by omega
        have hcomm : 10 * n + (c.toNat - '0'.toNat) = n * 10 + (c.toNat - '0'.toNat) := by omega
        rw [hcomm]
        have := ih (n * 10 + (c.toNat - '0'.toNat)) hfit
        simpa [hc] using this

/-- Go `strconv.ParseUint(s, 10, 32)` returns a value without error exactly
on a non-empty string of decimal digits that denotes a number below `2 ^ 32`,
the value being that number; on every other string it returns an error. -/
theorem ParseUint_decimal (s : String) :
    (isDecimal s = true ∧ decimalValue s ≤ 4294967295 →
      strconv.ParseUint s 10 32 = (decimalValue s, none)) ∧
    (¬ (isDecimal s = true ∧ decimalValue s ≤ 4294967295) →
      ∃ v e, strconv.ParseUint s 10 32 = (v, some e)) := by
  have hmax : (2 : Nat) ^ 32 - 1 = 4294967295 := by norm_num
  by_cases hs : s = ""
  · subst hs
    constructor
    · intro h
      simp [isDecimal] at h
    · intro _
      exact ⟨0, strconv.syntaxError "", by simp [strconv.ParseUint]⟩
  · have hp : strconv.ParseUint s 10 32 =
        strconv.parseLoop s 10 ((2 ^ 64 - 1) / 10 + 1) (2 ^ 32 - 1) s.toList 0 := by
      simp [strconv.ParseUint, hs]
    have hdec : isDecimal s = s.toList.all isDigit := by
      simp [isDecimal, hs]
    have := parseLoop_decimal s s.toList 0 (by norm_num)
    rw [hp, hdec, decimalValue, ← hmax]
    exact this

namespace firecracker

/-! ## C9 and C10: memory size and vCPU count -/

theorem getUint32_absent (key : String) (dflt : Nat) (envs : List KeyValue)
    (h : ∀ kv ∈ envs, kv.Key ≠ key) : getUint32 key dflt envs = (dflt, none) := by
  induction envs with
  | nil => rfl
  | cons kv envs ih =>
    have hk : kv.Key ≠ key := h kv (List.mem_cons_self _ _)
    rw [getUint32, if_neg hk]
    exact ih (fun x hx => h x (List.mem_cons_of_mem _ hx))

theorem getUint32_skip (key : String) (dflt : Nat) (pre rest : List KeyValue)
    (h : ∀ kv ∈ pre, kv.Key ≠ key) :
    getUint32 key dflt (pre ++ rest) = getUint32 key dflt rest := by
  induction pre with
  | nil => rfl
  | cons kv pre ih =>
    have hk : kv.Key ≠ key := h kv (List.mem_cons_self _ _)
    rw [List.cons_append, getUint32, if_neg hk]
    exact ih (fun x hx => h x (List.mem_cons_of_mem _ hx))

/-- With the image and the revision named in the environment list,
`createUserContainer` starts the placeholder creation and then calls `startVM`
with the image, the revision and the two numbers read from the list. -/
theorem createUserContainer_startVM (config : Option ContainerConfig) (env : Env)
    (c : Cfg FirecrackerService Event) (podID image revision : String) (mem cpu : Nat)
    (himg : getEnvVal guestImageEnv config = (image, none))
    (hrev : getEnvVal revisionEnv config = (revision, none))
    (hmem : getMemorySize config = (mem, none))
    (hcpu : getvCPUCount config = (cpu, none)) :
    ∃ rest, (createUserContainer { PodSandboxId := podID, Config := config } env c).2.trace =
      c.trace ++ [Event.StockCreateContainer { PodSandboxId := podID, Config := config },
        Event.startVM image revision mem cpu] ++ rest := by
  simp only [createUserContainer, Run.bind_eq, Run.pure_eq, Run.andThen, goStockCreate, himg,
    hrev, hmem, hcpu, orReturn, Run.ret, Run.call]
  cases hv : env.vm (c.trace ++
      [Event.StockCreateContainer { PodSandboxId := podID, Config := config }] ++
      [Event.startVM image revision mem cpu]) with
  | error e => exact ⟨[], by simp⟩
  | ok fi =>
    simp only []
    rcases hp : getEnvVal guestPortEnv config with ⟨port, _ | err⟩
    · simp only [Run.ret, insertVMConfig, Run.modify]
      cases hs : env.stock (c.trace ++
          [Event.StockCreateContainer { PodSandboxId := podID, Config := config }]) with
      | error e => exact ⟨[], by simp [Run.fail]⟩
      | ok resp =>
        simp only [Run.andThen, Run.call]
        refine ⟨[Event.insertActive resp.ContainerId fi], ?_⟩
        split <;> rename_i hx <;> split at hx <;> simp_all [Run.ret] <;>
          (obtain ⟨-, rfl⟩ := hx; simp)
    · exact ⟨[], by simp [Run.fail]⟩

/-- C9: a container config whose environment list has no `MEM_SIZE_MB` entry
makes `getMemorySize` return 256 without error, one without `VCPU_COUNT`
entry makes `getvCPUCount` return 1 without error, and these are the numbers
in the `startVM` call of `createUserContainer` for a request that names the
image and the revision. -/
theorem defaults_when_absent (config : Option ContainerConfig) :
    ((∀ kv ∈ GetEnvs config, kv.Key ≠ "MEM_SIZE_MB") → getMemorySize config = (256, none)) ∧
    ((∀ kv ∈ GetEnvs config, kv.Key ≠ "VCPU_COUNT") → getvCPUCount config = (1, none)) ∧
    (∀ (env : Env) (c : Cfg FirecrackerService Event) (podID image revision : String),
      (∀ kv ∈ GetEnvs config, kv.Key ≠ "MEM_SIZE_MB") →
      (∀ kv ∈ GetEnvs config, kv.Key ≠ "VCPU_COUNT") →
      getEnvVal "GUEST_IMAGE" config = (image, none) →
      getEnvVal "K_REVISION" config = (revision, none) →
      ∃ rest, (createUserContainer { PodSandboxId := podID, Config := config } env c).2.trace =
        c.trace ++ [Event.StockCreateContainer { PodSandboxId := podID, Config := config },
          Event.startVM image revision 256 1] ++ rest) := by
  have hm : (∀ kv ∈ GetEnvs config, kv.Key ≠ "MEM_SIZE_MB") →
      getMemorySize config = (256, none) :=
    fun h => getUint32_absent guestMemorySizeMibEnv defaultMemSize _ h
  have hc : (∀ kv ∈ GetEnvs config, kv.Key ≠ "VCPU_COUNT") →
      getvCPUCount config = (1, none) :=
    fun h => getUint32_absent guestvCPUCountEnv defaultvCPUCount _ h
  exact ⟨hm, hc, fun env c podID image revision h1 h2 h3 h4 =>
    createUserContainer_startVM config env c podID image revision 256 1 h3 h4 (hm h1) (hc h2)⟩

/-- C9 (witness): `defaults_when_absent` at a request that names the image,
the revision and the port only. -/
theorem defaults_when_absent_witness :
    (∀ kv ∈ GetEnvs plainRequest.Config, kv.Key ≠ "MEM_SIZE_MB") ∧
    (∀ kv ∈ GetEnvs plainRequest.Config, kv.Key ≠ "VCPU_COUNT") ∧
    getEnvVal "GUEST_IMAGE" plainRequest.Config = ("docker.io/x/hello:1", none) ∧
    getEnvVal "K_REVISION" plainRequest.Config = ("hello-1", none) ∧
    getMemorySize plainRequest.Config = (256, none) ∧
    getvCPUCount plainRequest.Config = (1, none) ∧
    ∃ rest, (createUserContainer
        { PodSandboxId := "pod-1", Config := plainRequest.Config } happyEnv demoCfg).2.trace =
      demoCfg.trace ++
        [Event.StockCreateContainer { PodSandboxId := "pod-1", Config := plainRequest.Config },
          Event.startVM "docker.io/x/hello:1" "hello-1" 256 1] ++ rest :=
  ⟨by decide, by decide, by decide, by decide,
    (defaults_when_absent plainRequest.Config).1 (by decide),
    (defaults_when_absent plainRequest.Config).2.1 (by decide),
    (defaults_when_absent plainRequest.Config).2.2 happyEnv demoCfg "pod-1"
      "docker.io/x/hello:1" "hello-1" (by decide) (by decide) (by decide) (by decide)⟩

/-- C10: when the first `MEM_SIZE_MB` entry of the environment list has the
value `v`, `getMemorySize` returns `n` without error exactly when `v` is a
non-empty string of decimal digits that denotes `n` and `n ≤ 4294967295`; for
every other `v` it returns an error; the entries after the first do not
matter.  `getvCPUCount` does the same with `VCPU_COUNT`. -/
theorem first_entry_decides (key : String)
    (f : Option ContainerConfig → Nat × Option Error)
    (hf : (key = "MEM_SIZE_MB" ∧ f = getMemorySize) ∨ (key = "VCPU_COUNT" ∧ f = getvCPUCount))
    (md : Option ContainerMetadata) (pre post : List KeyValue) (v : String)
    (hpre : ∀ kv ∈ pre, kv.Key ≠ key) :
    (∀ n, f (some { Metadata := md, Envs := pre ++ { Key := key, Value := v } :: post }) =
        (n, none) ↔
      isDecimal v = true ∧ decimalValue v = n ∧ n ≤ 4294967295) ∧
    (¬ (isDecimal v = true ∧ decimalValue v ≤ 4294967295) →
      ∃ e, f (some { Metadata := md, Envs := pre ++ { Key := key, Value := v } :: post }) =
        (0, some e)) := by
  have hkey : ∀ dflt, getUint32 key dflt (pre ++ { Key := key, Value := v } :: post) =
      match strconv.ParseUint v 10 32 with
      | (x, none) => (x % 2 ^ 32, none)
      | (_, some err) => (0, some err) := by
    intro dflt
    rw [getUint32_skip key dflt pre _ hpre, getUint32, if_pos rfl]
  have hfun : f (some { Metadata := md, Envs := pre ++ { Key := key, Value := v } :: post }) =
      match strconv.ParseUint v 10 32 with
      | (x, none) => (x % 2 ^ 32, none)
      | (_, some err) => (0, some err) := by
    rcases hf with ⟨rfl, rfl⟩ | ⟨rfl, rfl⟩
    · exact hkey defaultMemSize
    · exact hkey defaultvCPUCount
  rw [hfun]
  obtain ⟨hgood, hbad⟩ := ParseUint_decimal v
  by_cases hv : isDecimal v = true ∧ decimalValue v ≤ 4294967295
  · rw [hgood hv]
    have hmod : decimalValue v % 2 ^ 32 = decimalValue v :=
      Nat.mod_eq_of_lt (by have := hv.2; norm_num; omega)
    simp only [hmod]
    refine ⟨fun n => ?_, fun h => absurd hv h⟩
    constructor
    · intro h
      simp only [Prod.mk.injEq, and_true] at h
      exact ⟨hv.1, h, h ▸ hv.2⟩
    · rintro ⟨-, rfl, -⟩
      rfl
  · obtain ⟨x, e, he⟩ := hbad hv
    rw [he]
    refine ⟨fun n => ?_, fun _ => ⟨e, rfl⟩⟩
    constructor
    · intro h
      simp at h
    · rintro ⟨h1, rfl, h3⟩
      exact absurd ⟨h1, h3⟩ hv

/-- C10 (witness): `first_entry_decides` for `getMemorySize` on a list whose
first `MEM_SIZE_MB` entry is `512` and whose second one is malformed, and on
a list whose first `MEM_SIZE_MB` entry is the signed `+5`. -/
theorem first_entry_decides_witness :
    (∀ kv ∈ [({ Key := "GUEST_PORT", Value := "80" } : KeyValue)], kv.Key ≠ "MEM_SIZE_MB") ∧
    (∀ n,
      getMemorySize
          (some { Metadata := none,
                  Envs := [{ Key := "GUEST_PORT", Value := "80" }] ++
                    { Key := "MEM_SIZE_MB", Value := "512" } ::
                      [{ Key := "MEM_SIZE_MB", Value := "x" }] }) = (n, none) ↔
        isDecimal "512" = true ∧ decimalValue "512" = n ∧ n ≤ 4294967295) ∧
    ¬ (isDecimal "+5" = true ∧ decimalValue "+5" ≤ 4294967295) ∧
    (∃ e,
      getMemorySize
          (some { Metadata := none,
                  Envs := [{ Key := "GUEST_PORT", Value := "80" }] ++
                    { Key := "MEM_SIZE_MB", Value := "+5" } ::
                      [{ Key := "MEM_SIZE_MB", Value := "5" }] }) = (0, some e)) :=
  ⟨by decide,
    (first_entry_decides "MEM_SIZE_MB" getMemorySize (Or.inl ⟨rfl, rfl⟩) none
      [{ Key := "GUEST_PORT", Value := "80" }] [{ Key := "MEM_SIZE_MB", Value := "x" }] "512"
      (by decide)).1,
    by decide,
    (first_entry_decides "MEM_SIZE_MB" getMemorySize (Or.inl ⟨rfl, rfl⟩) none
      [{ Key := "GUEST_PORT", Value := "80" }] [{ Key := "MEM_SIZE_MB", Value := "5" }] "+5"
      (by decide)).2 (by decide)⟩

end firecracker
end VHive

namespace VHive

/-! ## C11: entries with other keys -/

namespace firecracker

theorem getEnvVal_loop_filter (key : String) (envs : List KeyValue) :
    getEnvVal.loop key envs = getEnvVal.loop key (envs.filter (fun kv => kv.Key = key)) := by
  induction envs with
  | nil => rfl
  | cons kv envs ih =>
    by_cases hk : kv.Key = key
    · simp [List.filter, hk, getEnvVal.loop]
    · simp [List.filter, hk, getEnvVal.loop, ih]

theorem getUint32_filter (key : String) (dflt : Nat) (envs : List KeyValue) :
    getUint32 key dflt envs = getUint32 key dflt (envs.filter (fun kv => kv.Key = key)) := by
  induction envs with
  | nil => rfl
  | cons kv envs ih =>
    by_cases hk : kv.Key = key
    · simp [List.filter, hk, getUint32]
    · simp [List.filter, hk, getUint32, ih]

/-- C11: unknown keys are ignored.  The result of `getEnvVal k` depends only
on the entries of the environment list whose key is `k`, in their order: two
lists with the same such entries give the same result, so inserting or
deleting entries with other keys anywhere changes nothing; this holds for
every key `k`, the recognized options included.  Likewise `getMemorySize`
depends only on the `MEM_SIZE_MB` entries and `getvCPUCount` only on the
`VCPU_COUNT` entries. -/
theorem unknown_keys_ignored (md md2 : Option ContainerMetadata) (envs envs2 : List KeyValue) :
    (∀ k, envs.filter (fun kv => kv.Key = k) = envs2.filter (fun kv => kv.Key = k) →
      getEnvVal k (some { Metadata := md, Envs := envs }) =
        getEnvVal k (some { Metadata := md2, Envs := envs2 })) ∧
    (envs.filter (fun kv => kv.Key = "MEM_SIZE_MB") =
        envs2.filter (fun kv => kv.Key = "MEM_SIZE_MB") →
      getMemorySize (some { Metadata := md, Envs := envs }) =
        getMemorySize (some { Metadata := md2, Envs := envs2 })) ∧
    (envs.filter (fun kv => kv.Key = "VCPU_COUNT") =
        envs2.filter (fun kv => kv.Key = "VCPU_COUNT") →
      getvCPUCount (some { Metadata := md, Envs := envs }) =
        getvCPUCount (some { Metadata := md2, Envs := envs2 })) := by
  refine ⟨fun k h => ?_, fun h => ?_, fun h => ?_⟩
  · simp only [getEnvVal, GetEnvs]
    rw [getEnvVal_loop_filter k envs, getEnvVal_loop_filter k envs2, h]
  · simp only [getMemorySize, GetEnvs]
    rw [getUint32_filter _ _ envs, getUint32_filter _ _ envs2]
    exact congrArg _ h
  · simp only [getvCPUCount, GetEnvs]
    rw [getUint32_filter _ _ envs, getUint32_filter _ _ envs2]
    exact congrArg _ h

/-- C11 (witness): `unknown_keys_ignored` at the list of `plainRequest` with
a `MEM_SIZE_MB` entry, and the same list with entries of unknown keys
inserted at the front, in the middle and at the end. -/
theorem unknown_keys_ignored_witness :
    (∀ k, k = "GUEST_IMAGE" ∨ k = "K_REVISION" ∨ k = "GUEST_PORT" ∨ k = "MEM_SIZE_MB" ∨
        k = "VCPU_COUNT" →
      getEnvVal k (some { Metadata := none, Envs := sizedEnvs }) =
        getEnvVal k (some { Metadata := none, Envs := paddedEnvs })) ∧
    getMemorySize (some { Metadata := none, Envs := sizedEnvs }) =
      getMemorySize (some { Metadata := none, Envs := paddedEnvs }) ∧
    getvCPUCount (some { Metadata := none, Envs := sizedEnvs }) =
      getvCPUCount (some { Metadata := none, Envs := paddedEnvs }) :=
  ⟨fun k hk =>
      (unknown_keys_ignored none none sizedEnvs paddedEnvs).1 k (by
        rcases hk with rfl | rfl | rfl | rfl | rfl <;> decide),
    (unknown_keys_ignored none none sizedEnvs paddedEnvs).2.1 (by decide),
    (unknown_keys_ignored none none sizedEnvs paddedEnvs).2.2 (by decide)⟩

end firecracker

end VHive

namespace VHive

/-! ## C15: the image reference -/

theorem contains_dot_iff (s : String) : strings.Contains s "." = true ↔ '.' ∈ s.toList := by
  have h : ".".toList = ['.'] := rfl
  simp only [strings.Contains, decide_eq_true_eq, h]
  constructor
  · rintro ⟨a, b, hab⟩
    rw [← hab]
    simp
  · intro hmem
    obtain ⟨a, b, hab⟩ := List.append_of_mem hmem
    exact ⟨a, b, by rw [hab]; simp⟩

/-- C15: for every image string `s`, `getImageURL s` is `s` when `s` contains
the character `.` and is `docker.io/` followed by `s` when it contains
none. -/
theorem getImageURL_dot (s : String) :
    ('.' ∈ s.toList → getImageURL s = s) ∧
    ('.' ∉ s.toList → getImageURL s = "docker.io/" ++ s) := by
  constructor
  · intro h
    simp [getImageURL, (contains_dot_iff s).mpr h]
  · intro h
    have : strings.Contains s "." = false := by
      rw [← Bool.not_eq_true, contains_dot_iff]
      exact h
    simp [getImageURL, this]

/-- C15 (witness): `getImageURL_dot` at a reference with a registry and at a
bare name. -/
theorem getImageURL_dot_witness :
    '.' ∈ "ghcr.io/x/hello:1".toList ∧ getImageURL "ghcr.io/x/hello:1" = "ghcr.io/x/hello:1" ∧
    '.' ∉ "hello".toList ∧ getImageURL "hello" = "docker.io/" ++ "hello" :=
  ⟨by decide, (getImageURL_dot "ghcr.io/x/hello:1").1 (by decide), by decide,
    (getImageURL_dot "hello").2 (by decide)⟩

end VHive
namespace VHive
namespace firecracker

/-! ## C12 to C14: validation of the user container, the queue proxy -/

/-- C12: on the user-container request `noPortRequest`, which names the image
and the revision but carries no `GUEST_PORT`, `createUserContainer` returns the
error of the missing variable only after `startVM` has been called: the check
of the port comes after the start of the VM. -/
theorem createUserContainer_port_checked_after_startVM :
    (createUserContainer noPortRequest happyEnv demoCfg).1 =
      Res.err "failed to retrieve environment variable from user container config" ∧
    (createUserContainer noPortRequest happyEnv demoCfg).2.trace =
      [Event.StockCreateContainer noPortRequest,
       Event.startVM "docker.io/x/hello:1" "hello-1" 256 1] := by
  decide

theorem createQueueProxy_eval (env : Env) (tr : List Event) (fs : FirecrackerService)
    (podID : String) (config : ContainerConfig) (vmConfig : VMConfig)
    (hstash : fs.vmConfigs podID = some vmConfig) :
    (createQueueProxy env
      { st := { fs := fs, r := { PodSandboxId := podID, Config := some config } },
        trace := tr }).2 =
      { st := { fs := { fs with vmConfigs := fs.vmConfigs.delete podID },
                r := { PodSandboxId := podID,
                       Config := some { config with Envs := config.Envs ++
                         [{ Key := "GUEST_ADDR", Value := vmConfig.guestIP },
                          { Key := "GUEST_PORT", Value := vmConfig.guestPort }] } } },
        trace := tr ++ [Event.StockCreateContainer
          { PodSandboxId := podID,
            Config := some { config with Envs := config.Envs ++
              [{ Key := "GUEST_ADDR", Value := vmConfig.guestIP },
               { Key := "GUEST_PORT", Value := vmConfig.guestPort }] } }] } := by
  simp only [createQueueProxy, onService, getVMConfig, removeVMConfig, Run.bind_eq, Run.pure_eq,
    Run.andThen, Run.get, Run.modify, Run.deref, Run.ret, Run.call, hstash, guestIPEnv,
    guestPortEnv]
  split <;> rfl

/-- C13: for every queue-proxy request whose pod has a stashed VM
configuration, `createQueueProxy` makes exactly one call, the stock
`CreateContainer`, with the request whose environment is the incoming one
followed by `GUEST_ADDR` and `GUEST_PORT` carrying the stashed address and
port; afterwards `vmConfigs` has no entry for that pod and its other entries
are unchanged. -/
theorem createQueueProxy_forwards (env : Env) (c : Cfg Handling Event) (vmConfig : VMConfig)
    (hname : containerName c.st.r = queueProxyName)
    (hstash : c.st.fs.vmConfigs c.st.r.PodSandboxId = some vmConfig) :
    ∃ config, c.st.r.Config = some config ∧
      (createQueueProxy env c).2.trace = c.trace ++ [Event.StockCreateContainer
        { PodSandboxId := c.st.r.PodSandboxId,
          Config := some
            { Metadata := config.Metadata,
              Envs := config.Envs ++ [{ Key := "GUEST_ADDR", Value := vmConfig.guestIP },
                                      { Key := "GUEST_PORT", Value := vmConfig.guestPort }] } }] ∧
      (createQueueProxy env c).2.st.fs.vmConfigs c.st.r.PodSandboxId = none ∧
      ∀ podID, podID ≠ c.st.r.PodSandboxId →
        (createQueueProxy env c).2.st.fs.vmConfigs podID = c.st.fs.vmConfigs podID := by
  obtain ⟨⟨fs, ⟨podID, cfg⟩⟩, tr⟩ := c
  cases cfg with
  | none => simp [containerName, queueProxyName] at hname
  | some config =>
    refine ⟨config, rfl, ?_⟩
    simp only at hstash
    rw [createQueueProxy_eval env tr fs podID config vmConfig hstash]
    refine ⟨rfl, ?_, ?_⟩
    · simp [GoMap.delete]
    · intro k hk
      simp [GoMap.delete, hk]

/-- C13 (witness): `createQueueProxy_forwards` at `proxyRequest` with the
configuration of its pod stashed. -/
theorem createQueueProxy_forwards_witness :
    containerName stashedCfg.st.r = queueProxyName ∧
    stashedCfg.st.fs.vmConfigs stashedCfg.st.r.PodSandboxId =
      some { guestIP := "172.16.0.2", guestPort := "8080" } ∧
    ∃ config, stashedCfg.st.r.Config = some config ∧
      (createQueueProxy happyEnv stashedCfg).2.trace = stashedCfg.trace ++
        [Event.StockCreateContainer
          { PodSandboxId := stashedCfg.st.r.PodSandboxId,
            Config := some
              { Metadata := config.Metadata,
                Envs := config.Envs ++ [{ Key := "GUEST_ADDR", Value := "172.16.0.2" },
                                        { Key := "GUEST_PORT", Value := "8080" }] } }] ∧
      (createQueueProxy happyEnv stashedCfg).2.st.fs.vmConfigs stashedCfg.st.r.PodSandboxId
        = none ∧
      ∀ podID, podID ≠ stashedCfg.st.r.PodSandboxId →
        (createQueueProxy happyEnv stashedCfg).2.st.fs.vmConfigs podID =
          stashedCfg.st.fs.vmConfigs podID :=
  ⟨by decide, by decide,
    createQueueProxy_forwards happyEnv stashedCfg { guestIP := "172.16.0.2", guestPort := "8080" }
      (by decide) (by decide)⟩

/-- C14: for every request whose pod has no stashed VM configuration,
`createQueueProxy` returns the error of the missing configuration and leaves
everything as it was: no call is made, the stock runtime is not contacted, and
the request and `vmConfigs` are unchanged. -/
theorem createQueueProxy_without_stash (env : Env) (c : Cfg Handling Event)
    (hstash : c.st.fs.vmConfigs c.st.r.PodSandboxId = none) :
    createQueueProxy env c = (Res.err "VM config for pod does not exist", c) := by
  simp [createQueueProxy, onService, getVMConfig, Run.bind_eq, Run.andThen, Run.get, Run.fail,
    hstash]

/-- C14 (witness): `createQueueProxy_without_stash` at `proxyRequest` with no
configuration stashed for its pod. -/
theorem createQueueProxy_without_stash_witness :
    unstashedCfg.st.fs.vmConfigs unstashedCfg.st.r.PodSandboxId = none ∧
    createQueueProxy happyEnv unstashedCfg =
      (Res.err "VM config for pod does not exist", unstashedCfg) :=
  ⟨by decide, createQueueProxy_without_stash happyEnv unstashedCfg (by decide)⟩

end firecracker
end VHive
namespace VHive

/-! ## C20: the flags of the standalone driver -/

namespace Run

variable {Env Ev σ α β : Type}

theorem grows_ret (a : α) : Grows (ret a : Run Env Ev σ α) := fun _ _ => ⟨[], by simp [ret]⟩

theorem grows_fail (e : Error) : Grows (fail e : Run Env Ev σ α) := fun _ _ => ⟨[], by simp [fail]⟩

theorem grows_panic (msg : String) : Grows (panic msg : Run Env Ev σ α) :=
  fun _ _ => ⟨[], by simp [panic]⟩

theorem grows_ask (answer : Env → List Ev → α) : Grows (ask answer : Run Env Ev σ α) :=
  fun _ _ => ⟨[], by simp [ask]⟩

theorem grows_deref (p : Option α) : Grows (deref p : Run Env Ev σ α) := by
  cases p
  · exact grows_panic _
  · exact grows_ret _

theorem grows_call (ev : Ev) (answer : Env → List Ev → Except Error α) :
    Grows (call ev answer : Run Env Ev σ α) := by
  intro env c
  refine ⟨[ev], ?_⟩
  simp only [call]
  split <;> rfl

theorem grows_andThen (m : Run Env Ev σ α) (f : α → Run Env Ev σ β)
    (hm : Grows m) (hf : ∀ a, Grows (f a)) : Grows (andThen m f) := by
  intro env c
  obtain ⟨more, h1⟩ := hm env c
  unfold andThen
  rcases h : m env c with ⟨r, c1⟩
  rw [h] at h1
  cases r with
  | ok a =>
    obtain ⟨more2, h2⟩ := hf a env c1
    exact ⟨more ++ more2, by simp only [h2]; rw [h1, List.append_assoc]⟩
  | err e => exact ⟨more, h1⟩
  | panic p => exact ⟨more, h1⟩

theorem grows_wrapErr (pre : String) (m : Run Env Ev σ α) (hm : Grows m) :
    Grows (wrapErr pre m) := by
  intro env c
  rw [wrapErr_snd]
  exact hm env c

theorem grows_ignoreErr (m : Run Env Ev σ α) (hm : Grows m) : Grows (ignoreErr m) := by
  intro env c
  rw [ignoreErr_snd]
  exact hm env c

end Run

namespace vanilla

theorem grows_netConfigOf (vmID : String) : Run.Grows (netConfigOf vmID) := by
  unfold netConfigOf
  simp only [Run.bind_eq]
  exact Run.grows_andThen _ _ (Run.grows_ask _) (fun _ => Run.grows_deref _)

theorem grows_netParseCIDR (s : String) : Run.Grows (netParseCIDR s) := by
  intro env c
  refine ⟨[], ?_⟩
  simp only [netParseCIDR]
  split <;> simp

theorem grows_fatalOnErr (m : M Unit) (hm : Run.Grows m) : Run.Grows (fatalOnErr m) := by
  intro env c
  obtain ⟨more, h1⟩ := hm env c
  refine ⟨more, ?_⟩
  unfold fatalOnErr
  rcases h : m env c with ⟨r, c1⟩
  rw [h] at h1
  cases r <;> exact h1

theorem grows_bootstrapVM (vmID imageName : String) : Run.Grows (bootstrapVM vmID imageName) := by
  unfold bootstrapVM
  simp only [Run.bind_eq, Run.pure_eq]
  repeat' first
    | exact grows_netConfigOf _
    | exact Run.grows_call _ _
    | exact Run.grows_ret _
    | exact Run.grows_panic _
    | apply Run.grows_wrapErr
    | apply Run.grows_andThen
    | split
    | intro _

theorem grows_bootVMfromSnapshot (vmID containerSnapPath : String) :
    Run.Grows (bootVMfromSnapshot vmID containerSnapPath) := by
  unfold bootVMfromSnapshot
  simp only [Run.bind_eq, Run.pure_eq]
  repeat' first
    | exact grows_netConfigOf _
    | exact grows_netParseCIDR _
    | exact Run.grows_call _ _
    | exact Run.grows_ask _
    | exact Run.grows_ret _
    | apply grows_fatalOnErr
    | apply Run.grows_wrapErr
    | apply Run.grows_ignoreErr
    | apply Run.grows_andThen
    | split
    | intro _

theorem taskWorkflow_starts (vmID image : String) (bootFromSnap : Bool)
    (containerSnapPath : String) (env : Env) (c : Cfg Unit Event) :
    ∃ more, (taskWorkflow vmID image bootFromSnap containerSnapPath env c).2.trace =
      c.trace ++ Event.CreateNetwork vmID :: more := by
  unfold taskWorkflow
  simp only [Run.bind_eq, Run.pure_eq]
  generalize hrest : (fun (_ : Unit) => _) = rest
  have hg : ∀ u, Run.Grows (rest u) := by
    intro u
    rw [← hrest]
    repeat' first
      | exact grows_netConfigOf _
      | exact grows_bootstrapVM _ _
      | exact grows_bootVMfromSnapshot _ _
      | exact Run.grows_call _ _
      | exact Run.grows_ret _
      | apply Run.grows_wrapErr
      | apply Run.grows_ignoreErr
      | apply Run.grows_andThen
      | split
      | intro _
  unfold Run.andThen Run.wrapErr Run.call
  cases h : env.status (c.trace ++ [Event.CreateNetwork vmID]) with
  | error e => exact ⟨[], by simp [h]⟩
  | ok u =>
    obtain ⟨more, hm⟩ := hg u env { c with trace := c.trace ++ [Event.CreateNetwork vmID] }
    refine ⟨more, ?_⟩
    simp only [h]
    rw [hm]
    simp

theorem main_runs (vmID image : String) (bootFromSnap : Bool) (containerSnapPath : String)
    (h1 : vmID ≠ "") (h2 : ¬ (image = "" ∧ bootFromSnap = false))
    (h3 : ¬ (containerSnapPath = "" ∧ bootFromSnap = true)) (env : Env) (c : Cfg Unit Event) :
    main vmID image bootFromSnap containerSnapPath env c =
      match taskWorkflow vmID image bootFromSnap containerSnapPath env c with
      | (Res.ok Ending.returned, c1) =>
        Run.andThen (Run.ignoreErr (Run.call Event.Scanln Env.status))
          (fun _ => Run.ret Ending.returned) env c1
      | (Res.ok (Ending.fatal msg), c1) => (Res.ok (Ending.fatal msg), c1)
      | (Res.err err, c1) => (Res.ok (Ending.fatal err), c1)
      | (Res.panic p, c1) => (Res.panic p, c1) := by
  have h2' : (decide (image = "") && !bootFromSnap) = false := by
    cases bootFromSnap <;> simp_all
  have h3' : (decide (containerSnapPath = "") && bootFromSnap) = false := by
    cases bootFromSnap <;> simp_all
  simp only [main, h1, h2', h3', if_false, Bool.false_eq_true]

/-- C20: for all values of the four flags, `main` ends fatally without making a
single call when `-id` is empty, or `-image` is empty and `-boot-from-snap` is
unset, or `-container-snap-path` is empty and `-boot-from-snap` is set; for all
other values it runs `taskWorkflow` with the four values, whose first call is
`CreateNetwork` for the given id, and it returns normally exactly when the
workflow does. -/
theorem main_refuses_or_runs (vmID image : String) (bootFromSnap : Bool)
    (containerSnapPath : String) (env : Env) (c : Cfg Unit Event) :
    ((vmID = "" ∨ (image = "" ∧ bootFromSnap = false) ∨
        (containerSnapPath = "" ∧ bootFromSnap = true)) →
      ∃ msg, main vmID image bootFromSnap containerSnapPath env c =
        (Res.ok (Ending.fatal msg), c)) ∧
    (¬ (vmID = "" ∨ (image = "" ∧ bootFromSnap = false) ∨
        (containerSnapPath = "" ∧ bootFromSnap = true)) →
      (∃ more, (taskWorkflow vmID image bootFromSnap containerSnapPath env c).2.trace =
        c.trace ++ Event.CreateNetwork vmID :: more) ∧
      (∃ rest, (main vmID image bootFromSnap containerSnapPath env c).2.trace =
        (taskWorkflow vmID image bootFromSnap containerSnapPath env c).2.trace ++ rest) ∧
      ((main vmID image bootFromSnap containerSnapPath env c).1 = Res.ok Ending.returned ↔
        (taskWorkflow vmID image bootFromSnap containerSnapPath env c).1 =
          Res.ok Ending.returned)) := by
  constructor
  · intro h
    by_cases h1 : vmID = ""
    · exact ⟨"Incorrect usage. 'id' needs to be specified", by simp [main, h1, Run.ret]⟩
    · by_cases h2 : image = "" ∧ bootFromSnap = false
      · exact ⟨"Incorrect usage. 'image' needs to be specified when 'boot-snap' is false",
          by simp [main, h1, h2.1, h2.2, Run.ret]⟩
      · have h3 : containerSnapPath = "" ∧ bootFromSnap = true := by tauto
        exact ⟨"Incorrect usage. 'image' needs to be specified when 'boot-snap' is false",
          by simp [main, h1, h3.1, h3.2, Run.ret]⟩
  · intro h
    have h1 : vmID ≠ "" := fun h0 => h (Or.inl h0)
    have h2 : ¬ (image = "" ∧ bootFromSnap = false) := fun h0 => h (Or.inr (Or.inl h0))
    have h3 : ¬ (containerSnapPath = "" ∧ bootFromSnap = true) :=
      fun h0 => h (Or.inr (Or.inr h0))
    refine ⟨taskWorkflow_starts vmID image bootFromSnap containerSnapPath env c, ?_⟩
    rw [main_runs vmID image bootFromSnap containerSnapPath h1 h2 h3 env c]
    rcases hw : taskWorkflow vmID image bootFromSnap containerSnapPath env c with ⟨r, c1⟩
    cases r with
    | ok ending =>
      cases ending with
      | returned =>
        refine ⟨⟨[Event.Scanln], ?_⟩, ?_⟩
        · simp only [Run.andThen, Run.ignoreErr, Run.call, Run.ret]
          cases env.status (c1.trace ++ [Event.Scanln]) <;> rfl
        · simp only [Run.andThen, Run.ignoreErr, Run.call, Run.ret]
          cases env.status (c1.trace ++ [Event.Scanln]) <;> simp
      | fatal msg => exact ⟨⟨[], by simp⟩, by simp⟩
    | err e => exact ⟨⟨[], by simp⟩, by simp⟩
    | panic p => exact ⟨⟨[], by simp⟩, by simp⟩

/-- C20 (witness): `main_refuses_or_runs` at an empty id and at a cold start
of `vm1` from the image `hello`. -/
theorem main_refuses_or_runs_witness :
    (∃ msg, main "" "hello" false "" happyEnv start = (Res.ok (Ending.fatal msg), start)) ∧
    ¬ ("vm1" = "" ∨ ("hello" = "" ∧ false = false) ∨ ("" = "" ∧ false = true)) ∧
    (∃ more, (taskWorkflow "vm1" "hello" false "" happyEnv start).2.trace =
      start.trace ++ Event.CreateNetwork "vm1" :: more) ∧
    (∃ rest, (main "vm1" "hello" false "" happyEnv start).2.trace =
      (taskWorkflow "vm1" "hello" false "" happyEnv start).2.trace ++ rest) ∧
    ((main "vm1" "hello" false "" happyEnv start).1 = Res.ok Ending.returned ↔
      (taskWorkflow "vm1" "hello" false "" happyEnv start).1 = Res.ok Ending.returned) :=
  ⟨(main_refuses_or_runs "" "hello" false "" happyEnv start).1 (Or.inl rfl),
    by decide,
    (main_refuses_or_runs "vm1" "hello" false "" happyEnv start).2 (by decide)⟩

end vanilla
end VHive
namespace VHive

/-! ## C18 and C19: the mount discipline and the rsync options -/

/-- C18: for every device, mount point and `readOnly`, both copies of
`mountExt4` make one call, `syscall.Mount` with file-system type `ext4`; the
flag word contains `MS_NOATIME`, `MS_NODEV`, `MS_NOEXEC`, `MS_NOSUID` and
`MS_SILENT`, it contains `MS_RDONLY` exactly when `readOnly` is true and has no
other bit, and the option string is `noload` when `readOnly` is true and empty
otherwise; the two copies compute the same flags and options. -/
theorem mountExt4_discipline (devicePath mountPath : String) (readOnly : Bool)
    (env : Env) (c : Cfg Host Event) (venv : vanilla.Env) (vc : Cfg Unit vanilla.Event) :
    (mountExt4 devicePath mountPath readOnly env c).2.trace =
      c.trace ++ [Event.Mount devicePath mountPath "ext4" (mountExt4Flags readOnly)
        (strings.Join (mountExt4Options readOnly) ",")] ∧
    (vanilla.mountExt4 devicePath mountPath readOnly venv vc).2.trace =
      vc.trace ++ [vanilla.Event.Mount devicePath mountPath "ext4"
        (vanilla.mountExt4Flags readOnly)
        (strings.Join (vanilla.mountExt4Options readOnly) ",")] ∧
    mountExt4Flags readOnly &&& syscall.MS_NOATIME = syscall.MS_NOATIME ∧
    mountExt4Flags readOnly &&& syscall.MS_NODEV = syscall.MS_NODEV ∧
    mountExt4Flags readOnly &&& syscall.MS_NOEXEC = syscall.MS_NOEXEC ∧
    mountExt4Flags readOnly &&& syscall.MS_NOSUID = syscall.MS_NOSUID ∧
    mountExt4Flags readOnly &&& syscall.MS_SILENT = syscall.MS_SILENT ∧
    (mountExt4Flags readOnly &&& syscall.MS_RDONLY = syscall.MS_RDONLY ↔ readOnly = true) ∧
    mountExt4Flags readOnly = syscall.MS_NOATIME + syscall.MS_NODEV + syscall.MS_NOEXEC +
      syscall.MS_NOSUID + syscall.MS_SILENT + (if readOnly then syscall.MS_RDONLY else 0) ∧
    (strings.Join (mountExt4Options readOnly) "," = "noload" ↔ readOnly = true) ∧
    strings.Join (mountExt4Options readOnly) "," = (if readOnly then "noload" else "") ∧
    vanilla.mountExt4Flags readOnly = mountExt4Flags readOnly ∧
    vanilla.mountExt4Options readOnly = mountExt4Options readOnly := by
  refine ⟨?_, ?_, ?_⟩
  · simp only [mountExt4, Run.call_snd]
  · simp only [vanilla.mountExt4, Run.call_snd]
  · cases readOnly <;> decide

/-- C19: for all paths, the rsync command of `createPatch` and of `applyPatch`
in `remote-firecracker-snapshots-poc/devmapper.go` carries the options `-ar`,
with no `H`, `A` or `X`, while the same functions in
`vanilla_firecracker_snapshots/devmapper.go` pass `-aHAX`. -/
theorem createPatch_rsync_options (imgMountPath ctrSnapMountPath patchPath : String)
    (env : Env) (c : Cfg Host Event) (venv : vanilla.Env) (vc : Cfg Unit vanilla.Event) :
    (∃ more, (createPatch imgMountPath ctrSnapMountPath patchPath env c).2.trace =
      c.trace ++ Event.Exec "sudo" ["rsync", "-ar", "--only-write-batch=" ++ patchPath,
        addTrailingSlash imgMountPath, addTrailingSlash ctrSnapMountPath] :: more) ∧
    (applyPatch ctrSnapMountPath patchPath env c).2.trace =
      c.trace ++ [Event.Exec "sudo" ["rsync", "-ar", "--read-batch=" ++ patchPath,
        addTrailingSlash ctrSnapMountPath]] ∧
    'H' ∉ "-ar".toList ∧ 'A' ∉ "-ar".toList ∧ 'X' ∉ "-ar".toList ∧
    (∃ more, (vanilla.createPatch imgMountPath ctrSnapMountPath patchPath venv vc).2.trace =
      vc.trace ++ vanilla.Event.Exec "sudo" ["rsync", "-aHAX", "--only-write-batch=" ++ patchPath,
        addTrailingSlash imgMountPath, addTrailingSlash ctrSnapMountPath] :: more) ∧
    (vanilla.applyPatch ctrSnapMountPath patchPath venv vc).2.trace =
      vc.trace ++ [vanilla.Event.Exec "sudo" ["rsync", "-aHAX", "--read-batch=" ++ patchPath,
        addTrailingSlash ctrSnapMountPath]] := by
  refine ⟨?_, ?_, by decide, by decide, by decide, ?_, ?_⟩
  · simp only [createPatch, Run.bind_eq, Run.andThen, Run.wrapErr, Run.call]
    cases env.status (c.trace ++ [Event.Exec "sudo" ["rsync", "-ar",
      "--only-write-batch=" ++ patchPath, addTrailingSlash imgMountPath,
      addTrailingSlash ctrSnapMountPath]]) with
    | error e => exact ⟨[], rfl⟩
    | ok u =>
      refine ⟨[Event.Remove (patchPath ++ ".sh")], ?_⟩
      simp only []
      cases env.status (c.trace ++ [Event.Exec "sudo" ["rsync", "-ar",
        "--only-write-batch=" ++ patchPath, addTrailingSlash imgMountPath,
        addTrailingSlash ctrSnapMountPath]] ++ [Event.Remove (patchPath ++ ".sh")]) <;> simp
  · simp only [applyPatch, Run.wrapErr_snd, Run.call_snd]
  · simp only [vanilla.createPatch, Run.bind_eq, Run.andThen, Run.wrapErr, Run.call]
    cases venv.status (vc.trace ++ [vanilla.Event.Exec "sudo" ["rsync", "-aHAX",
      "--only-write-batch=" ++ patchPath, addTrailingSlash imgMountPath,
      addTrailingSlash ctrSnapMountPath]]) with
    | error e => exact ⟨[], rfl⟩
    | ok u =>
      refine ⟨[vanilla.Event.Remove (patchPath ++ ".sh")], ?_⟩
      simp only []
      cases venv.status (vc.trace ++ [vanilla.Event.Exec "sudo" ["rsync", "-aHAX",
        "--only-write-batch=" ++ patchPath, addTrailingSlash imgMountPath,
        addTrailingSlash ctrSnapMountPath]] ++ [vanilla.Event.Remove (patchPath ++ ".sh")]) <;>
        simp
  · simp only [vanilla.applyPatch, Run.wrapErr_snd, Run.call_snd]

end VHive
namespace VHive

/-! ## C16 and C17: the paths of a snapshot -/

namespace filepath

theorem splitOnP_append_sep (p : Char → Bool) (sep : Char) (hsep : p sep = true)
    (a b : List Char) :
    List.splitOnP p (a ++ sep :: b) = List.splitOnP p a ++ List.splitOnP p b := by
  induction a with
  | nil => simp [List.splitOnP_cons, hsep, List.splitOnP_nil]
  | cons x a ih =>
    simp only [List.cons_append, List.splitOnP_cons, ih]
    split
    · rfl
    · cases h : List.splitOnP p a with
      | nil => exact absurd h (List.splitOnP_ne_nil p a)
      | cons y ys => rfl

theorem not_mem_of_mem_splitOnP (p : Char → Bool) (cs : List Char) :
    ∀ e ∈ List.splitOnP p cs, ∀ x ∈ e, p x = false := by
  induction cs with
  | nil => simp [List.splitOnP_nil]
  | cons c cs ih =>
    intro e he x hx
    rw [List.splitOnP_cons] at he
    split at he
    · rcases List.mem_cons.1 he with h | h
      · subst h; simp at hx
      · exact ih e h x hx
    · rename_i hc
      cases h : List.splitOnP p cs with
      | nil => exact absurd h (List.splitOnP_ne_nil p cs)
      | cons y ys =>
        rw [h] at he ih
        simp only [List.modifyHead, List.mem_cons] at he
        rcases he with h1 | h1
        · subst h1
          rcases List.mem_cons.1 hx with h2 | h2
          · subst h2; simpa using hc
          · exact ih y (List.mem_cons_self _ _) x h2
        · exact ih e (List.mem_cons_of_mem _ h1) x hx

theorem elements_append_slash (a b : List Char) :
    elements (a ++ '/' :: b) = elements a ++ elements b := by
  simp only [elements, List.splitOn]
  rw [splitOnP_append_sep _ '/' (by simp), List.filter_append]

theorem isElement_of_mem_elements (cs : List Char) : ∀ e ∈ elements cs, IsElement e := by
  intro e he
  simp only [elements, List.splitOn, List.mem_filter] at he
  obtain ⟨h1, h2⟩ := he
  refine ⟨?_, ?_, ?_⟩
  · intro h; simp [h] at h2
  · intro h; simp [h] at h2
  · intro h
    have := not_mem_of_mem_splitOnP _ cs e h1 '/' h
    simp at this

theorem filter_isElement (k : List (List Char)) (hk : ∀ e ∈ k, IsElement e) :
    k.filter (fun e => e != [] && e != ['.']) = k := by
  rw [List.filter_eq_self]
  intro e he
  obtain ⟨h1, h2, _⟩ := hk e he
  simp [h1, h2]

theorem elements_intercalate (k : List (List Char)) (hk : ∀ e ∈ k, IsElement e) :
    elements (List.intercalate ['/'] k) = k := by
  cases k with
  | nil => simp [elements, List.intercalate, List.splitOn, List.splitOnP_nil]
  | cons e k =>
    simp only [elements]
    rw [List.splitOn_intercalate _ _ (fun l hl => (hk l hl).2.2) (by simp)]
    exact filter_isElement _ hk

theorem elements_render (r : Bool) (k : List (List Char)) (hk : ∀ e ∈ k, IsElement e) :
    elements (render r k) = k := by
  unfold render
  cases r with
  | true =>
    have h := elements_append_slash [] (List.intercalate ['/'] k)
    simp only [List.nil_append] at h
    simp only [if_true]
    rw [h, elements_intercalate k hk]
    simp [elements, List.splitOn, List.splitOnP_nil]
  | false =>
    by_cases h : k = []
    · subst h
      decide
    · simp only [Bool.false_eq_true, if_false, h]
      exact elements_intercalate k hk

theorem head_intercalate (e : List Char) (k : List (List Char)) (he : e ≠ []) :
    (List.intercalate ['/'] (e :: k)).head? = e.head? := by
  cases e with
  | nil => exact absurd rfl he
  | cons c e =>
    cases k <;> simp [List.intercalate, List.intersperse]

theorem head_render (r : Bool) (k : List (List Char)) (hk : ∀ e ∈ k, IsElement e) :
    ((render r k).head? == some '/') = r := by
  unfold render
  cases r with
  | true => simp
  | false =>
    cases k with
    | nil => decide
    | cons e k =>
      have he := hk e (List.mem_cons_self _ _)
      simp only [Bool.false_eq_true, if_false, reduceCtorEq]
      rw [head_intercalate e k he.1]
      cases e with
      | nil => exact absurd rfl he.1
      | cons c e =>
        have : c ≠ '/' := fun h => he.2.2 (by simp [h])
        simp [this]

theorem render_ne_nil (r : Bool) (k : List (List Char)) (hk : ∀ e ∈ k, IsElement e) :
    render r k ≠ [] := by
  intro h
  have := head_render r k hk
  rw [h] at this
  cases r
  · unfold render at h
    cases k with
    | nil => simp at h
    | cons e k =>
      have he := hk e (List.mem_cons_self _ _)
      have h2 := head_intercalate e k he.1
      simp only [Bool.false_eq_true, if_false, reduceCtorEq] at h
      rw [h] at h2
      cases e with
      | nil => exact he.1 rfl
      | cons c e => simp at h2
  · simp at this

end filepath
end VHive
namespace VHive
namespace filepath

theorem mem_cleanStep (r : Bool) (out : List (List Char)) (x e : List Char)
    (he : e ∈ cleanStep r out x) : e ∈ out ∨ e = x := by
  unfold cleanStep at he
  split at he
  · split at he
    · split at he
      · simp at he
      · right; simpa using he
    · split at he
      · rcases List.mem_cons.1 he with h | h
        · exact Or.inr h
        · exact Or.inl h
      · exact Or.inl (List.mem_cons_of_mem _ he)
  · rcases List.mem_cons.1 he with h | h
    · exact Or.inr h
    · exact Or.inl h

theorem isElement_foldl (r : Bool) (es : List (List Char)) :
    ∀ out : List (List Char), (∀ e ∈ out, IsElement e) → (∀ e ∈ es, IsElement e) →
      ∀ e ∈ es.foldl (cleanStep r) out, IsElement e := by
  induction es with
  | nil => intro out ho _ e he; exact ho e he
  | cons x es ih =>
    intro out ho hes
    simp only [List.foldl_cons]
    apply ih
    · intro e he
      rcases mem_cleanStep r out x e he with h | h
      · exact ho e h
      · subst h; exact hes e (List.mem_cons_self _ _)
    · intro e he; exact hes e (List.mem_cons_of_mem _ he)

theorem normalStack_of_all (out : List (List Char))
    (h : out.all (fun x => x == ['.', '.']) = true) : normalStack false out = true := by
  induction out with
  | nil => rfl
  | cons e out ih =>
    simp only [List.all_cons, Bool.and_eq_true, beq_iff_eq] at h
    simp [normalStack, h.1, h.2]

theorem normalStack_cleanStep (r : Bool) (out : List (List Char)) (e : List Char)
    (h : normalStack r out = true) : normalStack r (cleanStep r out e) = true := by
  unfold cleanStep
  by_cases he : e = ['.', '.']
  · subst he
    simp only [if_true]
    cases out with
    | nil =>
      cases r <;> simp [normalStack]
    | cons top rest =>
      by_cases ht : top = ['.', '.']
      · subst ht
        simp only [normalStack, if_true, Bool.and_eq_true] at h
        simp [normalStack, h.1, h.2]
      · simp only [normalStack, ht, if_false] at h
        simp [ht, h]
  · simp [he, normalStack, h]

theorem normalStack_foldl (r : Bool) (es : List (List Char)) :
    ∀ out : List (List Char), normalStack r out = true →
      normalStack r (es.foldl (cleanStep r) out) = true := by
  induction es with
  | nil => intro out h; exact h
  | cons x es ih =>
    intro out h
    exact ih _ (normalStack_cleanStep r out x h)

theorem foldl_reverse_normalStack (r : Bool) (out : List (List Char))
    (h : normalStack r out = true) : out.reverse.foldl (cleanStep r) [] = out := by
  induction out with
  | nil => rfl
  | cons e out ih =>
    rw [List.reverse_cons, List.foldl_append]
    simp only [List.foldl_cons, List.foldl_nil]
    by_cases he : e = ['.', '.']
    · subst he
      simp only [normalStack, if_true, Bool.and_eq_true, Bool.not_eq_true'] at h
      obtain ⟨hr, hall⟩ := h
      subst hr
      rw [ih (normalStack_of_all out hall)]
      cases out with
      | nil => simp [cleanStep]
      | cons top rest =>
        simp only [List.all_cons, Bool.and_eq_true, beq_iff_eq] at hall
        simp [cleanStep, hall.1]
    · simp only [normalStack, he, if_false] at h
      rw [ih h]
      simp [cleanStep, he]

theorem Clean_eq (path : String) (h : path ≠ "") :
    Clean path = String.mk (render (path.toList.head? == some '/')
      ((elements path.toList).foldl (cleanStep (path.toList.head? == some '/')) []).reverse) := by
  unfold Clean render
  simp only [h, if_false]
  cases path.toList.head? == some '/' with
  | true => simp only [if_true]; rfl
  | false =>
    simp only [Bool.false_eq_true, if_false]
    split <;> rfl

theorem Clean_ne_empty (path : String) : Clean path ≠ "" := by
  by_cases h : path = ""
  · subst h; decide
  · rw [Clean_eq path h]
    intro h2
    have h3 : render (path.toList.head? == some '/')
        ((elements path.toList).foldl (cleanStep (path.toList.head? == some '/')) []).reverse
        = [] := by
      have := congrArg String.data h2
      simpa using this
    refine render_ne_nil _ _ ?_ h3
    intro e he
    rw [List.mem_reverse] at he
    exact isElement_foldl _ _ [] (by simp) (isElement_of_mem_elements _) e he

theorem append_slash_ne_empty (x y : String) : x ++ "/" ++ y ≠ "" := by
  intro h
  have := congrArg String.length h
  simp only [String.length_append] at this
  have h1 : "/".length = 1 := by decide
  have h2 : "".length = 0 := by decide
  omega

theorem Clean_Clean_append (x y : String) (hx : x ≠ "") :
    Clean (Clean x ++ "/" ++ y) = Clean (x ++ "/" ++ y) := by
  have hxl : x.toList ≠ [] := by
    intro h
    apply hx
    exact String.ext h
  have h1 : Clean x ++ "/" ++ y ≠ "" := append_slash_ne_empty _ _
  have h2 : x ++ "/" ++ y ≠ "" := append_slash_ne_empty _ _
  rw [Clean_eq _ h1, Clean_eq _ h2, Clean_eq x hx]
  generalize hr : (x.toList.head? == some '/') = r
  generalize hst : (elements x.toList).foldl (cleanStep r) [] = st
  have hel : ∀ e ∈ st.reverse, IsElement e := by
    intro e he
    rw [List.mem_reverse, ← hst] at he
    exact isElement_foldl _ _ [] (by simp) (isElement_of_mem_elements _) e he
  have hn : normalStack r st = true := by
    rw [← hst]
    exact normalStack_foldl r _ [] rfl
  have hl1 : (String.mk (render r st.reverse) ++ "/" ++ y).toList =
      render r st.reverse ++ '/' :: y.toList := by
    simp [String.toList]
  have hl2 : (x ++ "/" ++ y).toList = x.toList ++ '/' :: y.toList := by
    simp [String.toList]
  rw [hl1, hl2, elements_append_slash, elements_append_slash, elements_render r _ hel]
  have hh1 : ((render r st.reverse ++ '/' :: y.toList).head? == some '/') = r := by
    rw [List.head?_append_of_ne_nil _ (render_ne_nil r _ hel)]
    exact head_render r _ hel
  have hh2 : ((x.toList ++ '/' :: y.toList).head? == some '/') = r := by
    rw [List.head?_append_of_ne_nil _ hxl]
    exact hr
  rw [hh1, hh2, List.foldl_append, List.foldl_append, foldl_reverse_normalStack r st hn, hst]

theorem Join_two (x y : String) (hx : x ≠ "") : Join [x, y] = Clean (x ++ "/" ++ y) := by
  have : (x == "") = false := by simpa using hx
  simp [Join, List.dropWhile, this, strings.Join, String.intercalate, String.intercalate.go]

theorem Join_three (x y z : String) (hx : x ≠ "") :
    Join [x, y, z] = Clean (x ++ "/" ++ y ++ "/" ++ z) := by
  have : (x == "") = false := by simpa using hx
  simp [Join, List.dropWhile, this, strings.Join, String.intercalate, String.intercalate.go]

theorem Join_empty_cons (l : List String) : Join ("" :: l) = Join l := by
  simp [Join, List.dropWhile]

theorem Join_single (x : String) (hx : x ≠ "") : Join [x] = Clean x := by
  have : (x == "") = false := by simpa using hx
  simp [Join, List.dropWhile, this, strings.Join, String.intercalate, String.intercalate.go]

theorem Join_Join (b id f : String) : Join [Join [b, id], f] = Join [b, id, f] := by
  by_cases hb : b = ""
  · subst hb
    rw [Join_empty_cons, Join_empty_cons]
    by_cases hid : id = ""
    · subst hid
      rw [Join_empty_cons]
      have : Join [] = "" := rfl
      rw [this, Join_empty_cons]
    · rw [Join_single id hid, Join_two _ _ (Clean_ne_empty id), Join_two _ _ hid,
        Clean_Clean_append id f hid]
  · have h2 : b ++ "/" ++ id ≠ "" := append_slash_ne_empty _ _
    rw [Join_two b id hb, Join_two _ _ (Clean_ne_empty _), Join_three b id f hb,
      Clean_Clean_append _ f h2]

theorem intercalate_append_single (k : List (List Char)) (e : List Char) (hk : k ≠ []) :
    List.intercalate ['/'] (k ++ [e]) = List.intercalate ['/'] k ++ '/' :: e := by
  induction k with
  | nil => exact absurd rfl hk
  | cons a k ih =>
    cases k with
    | nil => simp [List.intercalate, List.intersperse]
    | cons a2 k =>
      have h := ih (by simp)
      simp only [List.intercalate, List.cons_append, List.intersperse, List.flatten_cons,
        List.append_eq] at h ⊢
      rw [h]
      simp

theorem render_append_single (r : Bool) (k : List (List Char)) (e : List Char) :
    ∃ pre, render r (k ++ [e]) = pre ++ e ∧ (pre = [] ∨ ∃ q, pre = q ++ ['/']) ∧
      (k ≠ [] → pre = render r k ++ ['/']) := by
  by_cases hk : k = []
  · subst hk
    cases r
    · exact ⟨[], by simp [render, List.intercalate], Or.inl rfl, fun h => absurd rfl h⟩
    · exact ⟨['/'], by simp [render, List.intercalate], Or.inr ⟨[], rfl⟩,
        fun h => absurd rfl h⟩
  · cases r
    · refine ⟨List.intercalate ['/'] k ++ ['/'], ?_, Or.inr ⟨_, rfl⟩, ?_⟩
      · simp [render, intercalate_append_single k e hk]
      · intro _; simp [render, hk]
    · refine ⟨'/' :: List.intercalate ['/'] k ++ ['/'], ?_, Or.inr ⟨_, rfl⟩, ?_⟩
      · simp [render, intercalate_append_single k e hk]
      · intro _; simp [render]

theorem elements_of_isElement (e : List Char) (he : IsElement e) : elements e = [e] := by
  simp only [elements, List.splitOn]
  rw [List.splitOnP_eq_single]
  · exact filter_isElement [e] (by simpa using he)
  · intro x hx hp
    simp only [beq_iff_eq] at hp
    subst hp
    exact he.2.2 hx

theorem Clean_append_element (x e : String) (hx : x ≠ "") (he : IsElement e.toList)
    (hdd : e ≠ "..") :
    Clean (x ++ "/" ++ e) = String.mk (render (x.toList.head? == some '/')
      (((elements x.toList).foldl (cleanStep (x.toList.head? == some '/')) []).reverse ++
        [e.toList])) := by
  have hxl : x.toList ≠ [] := fun h => hx (String.ext h)
  have hl : (x ++ "/" ++ e).toList = x.toList ++ '/' :: e.toList := by simp [String.toList]
  have hdd2 : e.toList ≠ ['.', '.'] := fun h => hdd (String.ext h)
  rw [Clean_eq _ (append_slash_ne_empty x e), hl, elements_append_slash,
    List.head?_append_of_ne_nil _ hxl, elements_of_isElement _ he, List.foldl_append]
  simp only [List.foldl_cons, List.foldl_nil, cleanStep, hdd2, if_false, List.reverse_cons]

theorem Clean_element (e : String) (he : IsElement e.toList) (hdd : e ≠ "..") : Clean e = e := by
  have hne : e ≠ "" := fun h => he.1 (by rw [h]; rfl)
  have hdd2 : e.toList ≠ ['.', '.'] := fun h => hdd (String.ext h)
  have hr : (e.toList.head? == some '/') = false := by
    cases h : e.toList with
    | nil => exact absurd h he.1
    | cons c cs =>
      have : c ≠ '/' := fun hc => he.2.2 (by rw [h, hc]; simp)
      simp [this]
  rw [Clean_eq e hne, hr, elements_of_isElement _ he]
  simp [cleanStep, hdd2, render, List.intercalate]

theorem Base_render_append (pre e : List Char) (he : IsElement e)
    (hpre : pre = [] ∨ ∃ q, pre = q ++ ['/']) : Base (String.mk (pre ++ e)) = String.mk e := by
  have hne : String.mk (pre ++ e) ≠ "" := by
    intro h
    have := congrArg String.data h
    simp only [List.append_eq_nil] at this
    exact he.1 (by simpa using this.2)
  obtain ⟨c, cs, hrev⟩ : ∃ c cs, e.reverse = c :: cs := by
    cases h : e.reverse with
    | nil => exact absurd (by simpa using h) he.1
    | cons c cs => exact ⟨c, cs, rfl⟩
  have hc : ∀ x ∈ e.reverse, x ≠ '/' := by
    intro x hx h
    subst h
    exact he.2.2 (by simpa using hx)
  have hc0 : c ≠ '/' := hc c (by rw [hrev]; simp)
  have hstrip : stripTrailingSlashes (pre ++ e) = pre ++ e := by
    have hb : (c == '/') = false := by simpa using hc0
    simp only [stripTrailingSlashes, List.reverse_append, hrev, List.cons_append,
      List.dropWhile, hb]
    rw [← List.cons_append, ← hrev]
    simp
  have htake : ((pre ++ e).reverse.takeWhile (fun c => c != '/')) = e.reverse := by
    rw [List.reverse_append]
    rcases hpre with h | ⟨q, h⟩
    · subst h
      simp only [List.reverse_nil, List.append_nil]
      rw [List.takeWhile_eq_self_iff]
      intro x hx
      simpa using hc x hx
    · subst h
      rw [List.reverse_append]
      simp only [List.reverse_cons, List.reverse_nil, List.nil_append, List.singleton_append]
      rw [List.takeWhile_append_of_pos]
      · simp
      · intro x hx
        simpa using hc x hx
  unfold Base
  simp only [hne, if_false]
  have hd : (String.mk (pre ++ e)).toList = pre ++ e := rfl
  simp only [hd, hstrip, htake, List.reverse_reverse, he.1, if_false]

theorem Clean_append_element_literal (x e : String) (hx : x ≠ "")
    (he : IsElement e.toList) (hdd : e ≠ "..") (h1 : Clean x ≠ "/") (h2 : Clean x ≠ ".") :
    Clean (x ++ "/" ++ e) = Clean x ++ "/" ++ e := by
  rw [Clean_append_element x e hx he hdd]
  rw [Clean_eq x hx] at h1 h2 ⊢
  generalize (x.toList.head? == some '/') = r at h1 h2 ⊢
  generalize ((elements x.toList).foldl (cleanStep r) []).reverse = k at h1 h2 ⊢
  have hk : k ≠ [] := by
    intro h
    subst h
    cases r
    · exact h2 rfl
    · exact h1 rfl
  obtain ⟨pre, hpre, _, hlit⟩ := render_append_single r k e.toList
  rw [hpre, hlit hk]
  apply String.ext
  simp [String.toList]

theorem Join_literal (b id : String) (hb : Clean b = b) (h1 : b ≠ "/") (h2 : b ≠ ".")
    (hid : IsElement id.toList) (hdd : id ≠ "..") : Join [b, id] = b ++ "/" ++ id := by
  have hne : b ≠ "" := by
    intro h
    rw [h] at hb
    exact absurd hb (by decide)
  rw [Join_two b id hne, Clean_append_element_literal b id hne hid hdd (by rwa [hb])
    (by rwa [hb]), hb]

theorem Clean_literal (b id : String) (hb : Clean b = b) (h1 : b ≠ "/") (h2 : b ≠ ".")
    (hid : IsElement id.toList) (hdd : id ≠ "..") :
    Clean (b ++ "/" ++ id) = b ++ "/" ++ id := by
  have hne : b ≠ "" := by
    intro h
    rw [h] at hb
    exact absurd hb (by decide)
  rw [← Join_two b id hne]
  exact Join_literal b id hb h1 h2 hid hdd

theorem append_slash_length (x y : String) : 2 ≤ (x ++ "/" ++ y).length ∨ x = "" := by
  by_cases h : x = ""
  · exact Or.inr h
  · left
    have h1 : "/".length = 1 := by decide
    have h2 : x.length ≠ 0 := by
      intro h0
      apply h
      apply String.ext
      exact List.length_eq_zero.1 h0
    simp only [String.length_append]
    omega

theorem Join_three_literal (b id f : String) (hb : Clean b = b) (h1 : b ≠ "/") (h2 : b ≠ ".")
    (hid : IsElement id.toList) (hdd : id ≠ "..") (hf : IsElement f.toList) (hfd : f ≠ "..") :
    Join [b, id, f] = b ++ "/" ++ id ++ "/" ++ f := by
  have hne : b ≠ "" := by
    intro h
    rw [h] at hb
    exact absurd hb (by decide)
  have hlen : 2 ≤ (b ++ "/" ++ id).length := by
    rcases append_slash_length b id with h | h
    · exact h
    · exact absurd h hne
  have hc := Clean_literal b id hb h1 h2 hid hdd
  rw [← Join_Join, Join_literal b id hb h1 h2 hid hdd]
  refine Join_literal _ f hc ?_ ?_ hf hfd
  · intro h
    rw [h] at hlen
    exact absurd hlen (by decide)
  · intro h
    rw [h] at hlen
    exact absurd hlen (by decide)

theorem Base_Join_element (b id : String) (hid : IsElement id.toList) (hdd : id ≠ "..") :
    Base (Join [b, id]) = id := by
  by_cases hb : b = ""
  · subst hb
    have hne : id ≠ "" := fun h => hid.1 (by rw [h]; rfl)
    rw [Join_empty_cons, Join_single id hne, Clean_element id hid hdd]
    exact Base_render_append [] id.toList hid (Or.inl rfl)
  · rw [Join_two b id hb, Clean_append_element b id hb hid hdd]
    obtain ⟨pre, hpre, hshape, _⟩ := render_append_single (b.toList.head? == some '/')
      ((elements b.toList).foldl (cleanStep (b.toList.head? == some '/')) []).reverse id.toList
    rw [hpre]
    exact Base_render_append pre id.toList hid hshape

end filepath

/-- C16 (counterexample): under `/var/snaps` the revision `a/../../../etc` has
the base folder `/etc` and the files `/etc/memfile`, `/etc/snapfile` and
`/etc/infofile`, outside the base directory and not the base directory
followed by the revision and the file name; and under the base directory
`/var/snaps/` the infofile of the revision `rev1` is not the base directory
followed by `/rev1/infofile`. -/
theorem NewSnapshot_paths_not_literal :
    (snapshotting.NewSnapshot "a/../../../etc" "/var/snaps").GetBaseFolder = "/etc" ∧
    (snapshotting.NewSnapshot "a/../../../etc" "/var/snaps").GetMemFilePath = "/etc/memfile" ∧
    (snapshotting.NewSnapshot "a/../../../etc" "/var/snaps").GetSnapFilePath =
      "/etc/snapfile" ∧
    (snapshotting.NewSnapshot "a/../../../etc" "/var/snaps").GetInfoFilePath =
      "/etc/infofile" ∧
    (snapshotting.NewSnapshot "a/../../../etc" "/var/snaps").GetInfoFilePath ≠
      "/var/snaps" ++ "/" ++ "a/../../../etc" ++ "/" ++ "infofile" ∧
    (snapshotting.NewSnapshot "rev1" "/var/snaps/").GetInfoFilePath =
      "/var/snaps/rev1/infofile" ∧
    (snapshotting.NewSnapshot "rev1" "/var/snaps/").GetInfoFilePath ≠
      "/var/snaps/" ++ "/" ++ "rev1" ++ "/" ++ "infofile" := by
  decide

/-- C16 (amended): for every revision `id` and base directory `b`, the base
folder of `NewSnapshot id b` is `filepath.Join` of `b` and `id`, and its
accessors for the memory file, the state file and the infofile return
`filepath.Join` of `b`, `id` and the names `memfile`, `snapfile` and
`infofile`, which are the paths that `bootVMFromSnapshot` builds from
`BasePath` and the revision; when `b` is a cleaned path other than `/` and `.`
and `id` is a single path element other than `..`, these are `b/id`,
`b/id/memfile`, `b/id/snapfile` and `b/id/infofile` letter for letter. -/
theorem NewSnapshot_paths (id b : String) :
    ((snapshotting.NewSnapshot id b).GetBaseFolder = filepath.Join [b, id] ∧
     (snapshotting.NewSnapshot id b).GetMemFilePath = filepath.Join [b, id, "memfile"] ∧
     (snapshotting.NewSnapshot id b).GetSnapFilePath = filepath.Join [b, id, "snapfile"] ∧
     (snapshotting.NewSnapshot id b).GetInfoFilePath = filepath.Join [b, id, "infofile"]) ∧
    (filepath.Clean b = b → b ≠ "/" → b ≠ "." → filepath.IsElement id.toList → id ≠ ".." →
      (snapshotting.NewSnapshot id b).GetBaseFolder = b ++ "/" ++ id ∧
      (snapshotting.NewSnapshot id b).GetMemFilePath = b ++ "/" ++ id ++ "/" ++ "memfile" ∧
      (snapshotting.NewSnapshot id b).GetSnapFilePath = b ++ "/" ++ id ++ "/" ++ "snapfile" ∧
      (snapshotting.NewSnapshot id b).GetInfoFilePath = b ++ "/" ++ id ++ "/" ++ "infofile") := by
  have hm : filepath.IsElement "memfile".toList := ⟨by decide, by decide, by decide⟩
  have hs : filepath.IsElement "snapfile".toList := ⟨by decide, by decide, by decide⟩
  have hi : filepath.IsElement "infofile".toList := ⟨by decide, by decide, by decide⟩
  refine ⟨⟨rfl, filepath.Join_Join b id "memfile", filepath.Join_Join b id "snapfile",
    filepath.Join_Join b id "infofile"⟩, ?_⟩
  intro hb h1 h2 hid hdd
  refine ⟨filepath.Join_literal b id hb h1 h2 hid hdd, ?_, ?_, ?_⟩
  · exact (filepath.Join_Join b id "memfile").trans
      (filepath.Join_three_literal b id "memfile" hb h1 h2 hid hdd hm (by decide))
  · exact (filepath.Join_Join b id "snapfile").trans
      (filepath.Join_three_literal b id "snapfile" hb h1 h2 hid hdd hs (by decide))
  · exact (filepath.Join_Join b id "infofile").trans
      (filepath.Join_three_literal b id "infofile" hb h1 h2 hid hdd hi (by decide))

/-- C16 (witness): `NewSnapshot_paths` at the revision `rev1` under
`/var/snaps`. -/
theorem NewSnapshot_paths_witness :
    filepath.Clean "/var/snaps" = "/var/snaps" ∧ filepath.IsElement "rev1".toList ∧
    (snapshotting.NewSnapshot "rev1" "/var/snaps").GetBaseFolder = "/var/snaps" ++ "/" ++ "rev1" ∧
    (snapshotting.NewSnapshot "rev1" "/var/snaps").GetMemFilePath =
      "/var/snaps" ++ "/" ++ "rev1" ++ "/" ++ "memfile" ∧
    (snapshotting.NewSnapshot "rev1" "/var/snaps").GetSnapFilePath =
      "/var/snaps" ++ "/" ++ "rev1" ++ "/" ++ "snapfile" ∧
    (snapshotting.NewSnapshot "rev1" "/var/snaps").GetInfoFilePath =
      "/var/snaps" ++ "/" ++ "rev1" ++ "/" ++ "infofile" :=
  ⟨by decide, ⟨by decide, by decide, by decide⟩,
    (NewSnapshot_paths "rev1" "/var/snaps").2 (by decide) (by decide) (by decide)
      ⟨by decide, by decide, by decide⟩ (by decide)⟩

/-- C17 (counterexample): under `/var/snaps`, the last path element of the
base folder is `b` for the revision `a/b`, `snaps` for the empty revision and
`var` for the revision `..`. -/
theorem NewSnapshot_base_not_revision :
    filepath.Base (snapshotting.NewSnapshot "a/b" "/var/snaps").GetBaseFolder = "b" ∧
    filepath.Base (snapshotting.NewSnapshot "" "/var/snaps").GetBaseFolder = "snaps" ∧
    filepath.Base (snapshotting.NewSnapshot ".." "/var/snaps").GetBaseFolder = "var" := by
  decide

/-- C17: for every base directory and every revision `id` that is a single
path element (not empty, without a slash, neither `.` nor `..`), the last path
element of the base folder of `NewSnapshot id base` is `id`. -/
theorem NewSnapshot_base_is_revision (id base : String)
    (hid : filepath.IsElement id.toList) (hdd : id ≠ "..") :
    filepath.Base (snapshotting.NewSnapshot id base).GetBaseFolder = id :=
  filepath.Base_Join_element base id hid hdd

/-- C17 (witness): `NewSnapshot_base_is_revision` at the revision
`helloworld-go-00001` under `/var/snaps`. -/
theorem NewSnapshot_base_is_revision_witness :
    filepath.IsElement "helloworld-go-00001".toList ∧ "helloworld-go-00001" ≠ ".." ∧
    filepath.Base (snapshotting.NewSnapshot "helloworld-go-00001" "/var/snaps").GetBaseFolder =
      "helloworld-go-00001" :=
  ⟨⟨by decide, by decide, by decide⟩, by decide,
    NewSnapshot_base_is_revision "helloworld-go-00001" "/var/snaps"
      ⟨by decide, by decide, by decide⟩ (by decide)⟩

end VHive
namespace VHive

/-! ## C21: the network of a failed start -/

namespace Run

variable {Env Ev σ α β : Type}

theorem only_ret (P : Ev → Prop) (a : α) : Only P (ret a : Run Env Ev σ α) :=
  fun _ _ => ⟨[], by simp [ret], by simp⟩

theorem only_fail (P : Ev → Prop) (e : Error) : Only P (fail e : Run Env Ev σ α) :=
  fun _ _ => ⟨[], by simp [fail], by simp⟩

theorem only_panic (P : Ev → Prop) (msg : String) : Only P (panic msg : Run Env Ev σ α) :=
  fun _ _ => ⟨[], by simp [panic], by simp⟩

theorem only_ask (P : Ev → Prop) (answer : Env → List Ev → α) :
    Only P (ask answer : Run Env Ev σ α) :=
  fun _ _ => ⟨[], by simp [ask], by simp⟩

theorem only_get (P : Ev → Prop) : Only P (get : Run Env Ev σ σ) :=
  fun _ _ => ⟨[], by simp [get], by simp⟩

theorem only_modify (P : Ev → Prop) (f : σ → σ) : Only P (modify f : Run Env Ev σ Unit) :=
  fun _ _ => ⟨[], by simp [modify], by simp⟩

theorem only_deref (P : Ev → Prop) (p : Option α) : Only P (deref p : Run Env Ev σ α) := by
  cases p
  · exact only_panic P _
  · exact only_ret P _

theorem only_call (P : Ev → Prop) (ev : Ev) (answer : Env → List Ev → Except Error α)
    (h : P ev) : Only P (call ev answer : Run Env Ev σ α) := by
  intro env c
  refine ⟨[ev], ?_, by simpa using h⟩
  rw [call_snd]

theorem only_andThen (P : Ev → Prop) (m : Run Env Ev σ α) (f : α → Run Env Ev σ β)
    (hm : Only P m) (hf : ∀ a, Only P (f a)) : Only P (andThen m f) := by
  intro env c
  obtain ⟨more, h1, hP⟩ := hm env c
  unfold andThen
  rcases h : m env c with ⟨r, c1⟩
  rw [h] at h1
  cases r with
  | ok a =>
    obtain ⟨more2, h2, hP2⟩ := hf a env c1
    refine ⟨more ++ more2, ?_, ?_⟩
    · simp only [h2]
      rw [h1, List.append_assoc]
    · intro ev hev
      rcases List.mem_append.1 hev with h3 | h3
      · exact hP ev h3
      · exact hP2 ev h3
  | err e => exact ⟨more, h1, hP⟩
  | panic p => exact ⟨more, h1, hP⟩

theorem only_wrapErr (P : Ev → Prop) (pre : String) (m : Run Env Ev σ α) (hm : Only P m) :
    Only P (wrapErr pre m) := by
  intro env c
  rw [wrapErr_snd]
  exact hm env c

theorem only_ignoreErr (P : Ev → Prop) (m : Run Env Ev σ α) (hm : Only P m) :
    Only P (ignoreErr m) := by
  intro env c
  rw [ignoreErr_snd]
  exact hm env c

theorem only_withDefer (P : Ev → Prop) (cleanup : Run Env Ev σ Unit) (body : Run Env Ev σ α)
    (hc : Only P cleanup) (hb : Only P body) : Only P (withDefer cleanup body) := by
  intro env c
  obtain ⟨more, h1, hP⟩ := hb env c
  unfold withDefer
  rcases h : body env c with ⟨r, c1⟩
  rw [h] at h1
  obtain ⟨more2, h2, hP2⟩ := hc env c1
  simp only []
  rcases h3 : cleanup env c1 with ⟨r2, c2⟩
  rw [h3] at h2
  refine ⟨more ++ more2, ?_, ?_⟩
  · have h1' : c1.trace = c.trace ++ more := h1
    have h2' : c2.trace = c1.trace ++ more2 := h2
    cases r2 <;> simp only [h2', h1', List.append_assoc]
  · intro ev hev
    rcases List.mem_append.1 hev with h4 | h4
    · exact hP ev h4
    · exact hP2 ev h4

end Run

namespace vanilla

end vanilla
end VHive
namespace VHive

/-! ## C22: the image cache -/

/-- C22: for every image reference `imageName`, when the cache holds an image
for it `getContainerImage` returns that image with no call and no change; when
it holds none, `getContainerImage` makes exactly one call, `Pull` of
`getImageURL imageName` for the snapshotter.  If the pull succeeds the result
is the pulled image, the cache afterwards is the old one with `imageName`
mapped to it, and a further call returns the same image with no call; if the
pull fails the error is returned with the pull's name in front and the cache is
the one before the call. -/
theorem getContainerImage_cache (imageName : String) (env : Env) (c : Cfg Host Event) :
    (∀ image, c.st.orch.cachedImages imageName = some image →
      getContainerImage imageName env c = (Res.ok image, c)) ∧
    (c.st.orch.cachedImages imageName = none →
      (getContainerImage imageName env c).2.trace =
        c.trace ++ [Event.Pull (getImageURL imageName) snapshotter] ∧
      (∀ image,
        env.image (c.trace ++ [Event.Pull (getImageURL imageName) snapshotter]) =
          Except.ok image →
        (getContainerImage imageName env c).1 = Res.ok image ∧
        (getContainerImage imageName env c).2.st.orch.cachedImages =
          c.st.orch.cachedImages.set imageName image ∧
        ∀ env2, getContainerImage imageName env2 (getContainerImage imageName env c).2 =
          (Res.ok image, (getContainerImage imageName env c).2)) ∧
      (∀ e,
        env.image (c.trace ++ [Event.Pull (getImageURL imageName) snapshotter]) =
          Except.error e →
        getContainerImage imageName env c =
          (Res.err ("pulling container image: " ++ e),
            { c with trace := c.trace ++ [Event.Pull (getImageURL imageName) snapshotter] }))) := by
  have hit : ∀ (env : Env) (c : Cfg Host Event) image,
      c.st.orch.cachedImages imageName = some image →
      getContainerImage imageName env c = (Res.ok image, c) := by
    intro env c image h
    simp only [getContainerImage, Run.bind_eq, Run.andThen, getOrch, h, Run.pure_eq, Run.ret]
  refine ⟨hit env c, ?_⟩
  intro hmiss
  refine ⟨?_, ?_, ?_⟩
  · simp only [getContainerImage, Run.bind_eq, Run.andThen, getOrch, hmiss, Run.pure_eq,
      Run.ret, Run.wrapErr, Run.call, modifyOrch, Run.modify]
    cases env.image (c.trace ++ [Event.Pull (getImageURL imageName) snapshotter]) <;> rfl
  · intro image hok
    have heval : getContainerImage imageName env c =
        (Res.ok image,
          { st := { c.st with orch := { c.st.orch with
              cachedImages := c.st.orch.cachedImages.set imageName image } },
            trace := c.trace ++ [Event.Pull (getImageURL imageName) snapshotter] }) := by
      simp only [getContainerImage, Run.bind_eq, Run.andThen, getOrch, hmiss, Run.pure_eq,
        Run.ret, Run.wrapErr, Run.call, modifyOrch, Run.modify, hok]
    rw [heval]
    refine ⟨rfl, rfl, ?_⟩
    intro env2
    exact hit env2 _ image (by simp [GoMap.set])
  · intro e herr
    simp only [getContainerImage, Run.bind_eq, Run.andThen, getOrch, hmiss, Run.pure_eq,
      Run.ret, Run.wrapErr, Run.call, modifyOrch, Run.modify, herr]

/-- C22 (witness): `getContainerImage_cache` at the cached reference `hello`
and at the reference `world`, which is not cached and whose pull succeeds. -/
theorem getContainerImage_cache_witness :
    demoCfg.st.orch.cachedImages "hello" = some { name := "docker.io/hello" } ∧
    getContainerImage "hello" happyEnv demoCfg = (Res.ok { name := "docker.io/hello" }, demoCfg) ∧
    demoCfg.st.orch.cachedImages "world" = none ∧
    happyEnv.image (demoCfg.trace ++ [Event.Pull (getImageURL "world") snapshotter]) =
      Except.ok { name := "docker.io/world" } ∧
    (getContainerImage "world" happyEnv demoCfg).1 = Res.ok { name := "docker.io/world" } ∧
    (getContainerImage "world" happyEnv demoCfg).2.st.orch.cachedImages =
      demoCfg.st.orch.cachedImages.set "world" { name := "docker.io/world" } ∧
    ∀ env2, getContainerImage "world" env2 (getContainerImage "world" happyEnv demoCfg).2 =
      (Res.ok { name := "docker.io/world" }, (getContainerImage "world" happyEnv demoCfg).2) :=
  ⟨by decide,
    (getContainerImage_cache "hello" happyEnv demoCfg).1 { name := "docker.io/hello" }
      (by decide),
    by decide, rfl,
    ((getContainerImage_cache "world" happyEnv demoCfg).2 (by decide)).2.1
      { name := "docker.io/world" } rfl⟩

end VHive
namespace VHive

/-! ## C23 and C24: the calls of the patch extraction -/

theorem only_getOrch (P : Event → Prop) : Run.Only P getOrch :=
  fun _ _ => ⟨[], by simp [getOrch], by simp⟩

theorem only_modifyOrch (P : Event → Prop) (f : Orchestrator → Orchestrator) :
    Run.Only P (modifyOrch f) :=
  Run.only_modify P _

theorem extractPatch_calls (vmID patchPath : String) :
    Run.Only (isExtractPatchCall vmID) (extractPatch vmID patchPath) := by
  unfold extractPatch extractPatchCleanup createCtrSnap getImageKey mountCtrSnap unmountCtrSnap
    createPatch mountExt4 unMountExt4
  simp only [Run.bind_eq, Run.pure_eq]
  repeat' first
    | exact Run.only_call _ _ _ (by simp [isExtractPatchCall])
    | exact Run.only_ret _ _
    | exact Run.only_panic _ _
    | exact Run.only_deref _ _
    | exact Run.only_ask _ _
    | exact only_getOrch _
    | exact only_modifyOrch _ _
    | apply Run.only_wrapErr
    | apply Run.only_ignoreErr
    | apply Run.only_withDefer
    | apply Run.only_andThen
    | split
    | intro _

theorem getSnapKey_injective (a b : String) (h : getSnapKey a = getSnapKey b) : a = b := by
  unfold getSnapKey at h
  have h2 := congrArg String.data h
  simp only [String.data_append, List.append_cancel_left_eq] at h2
  exact String.ext h2

theorem temp_key_ne_getSnapKey (a b : String) : "tempimagesnap" ++ a ≠ getSnapKey b := by
  intro h
  unfold getSnapKey at h
  have h2 := congrArg (fun s : String => s.data.head?) h
  have h3 : ("tempimagesnap" ++ a).data.head? = some 't' := by
    rw [String.data_append]; rfl
  have h4 : ("demo-snap" ++ b).data.head? = some 'd' := by
    rw [String.data_append]; rfl
  simp only [h3, h4] at h2
  exact absurd h2 (by decide)

/-- C23: for all VM identifiers `a` and `b`, equal or not and the empty string
included, `"tempimagesnap" ++ a` differs from `getSnapKey b`, and `getSnapKey`
is injective; and every lease that `extractPatch` creates and every snapshot
that it prepares or removes is under the key `"tempimagesnap" ++ vmID`, so none
is under the container-snapshot key of any VM. -/
theorem temp_snapshot_key_distinct (vmID patchPath : String) (env : Env) (c : Cfg Host Event) :
    (∀ a b, "tempimagesnap" ++ a ≠ getSnapKey b) ∧
    (∀ a b, getSnapKey a = getSnapKey b → a = b) ∧
    ∃ more, (extractPatch vmID patchPath env c).2.trace = c.trace ++ more ∧
      (∀ key, Event.LeaseCreate key ∈ more → key = "tempimagesnap" ++ vmID) ∧
      (∀ leaseID key parent, Event.Prepare leaseID key parent ∈ more →
        key = "tempimagesnap" ++ vmID) ∧
      (∀ key, Event.SnapshotRemove key ∈ more → key = "tempimagesnap" ++ vmID) ∧
      ∀ b leaseID parent, Event.LeaseCreate (getSnapKey b) ∉ more ∧
        Event.Prepare leaseID (getSnapKey b) parent ∉ more ∧
        Event.SnapshotRemove (getSnapKey b) ∉ more := by
  refine ⟨temp_key_ne_getSnapKey, getSnapKey_injective, ?_⟩
  obtain ⟨more, hm, hP⟩ := extractPatch_calls vmID patchPath env c
  have h1 : ∀ key, Event.LeaseCreate key ∈ more → key = "tempimagesnap" ++ vmID :=
    fun key h => by simpa [isExtractPatchCall] using hP _ h
  have h2 : ∀ leaseID key parent, Event.Prepare leaseID key parent ∈ more →
      key = "tempimagesnap" ++ vmID :=
    fun leaseID key parent h => by simpa [isExtractPatchCall] using hP _ h
  have h3 : ∀ key, Event.SnapshotRemove key ∈ more → key = "tempimagesnap" ++ vmID :=
    fun key h => by simpa [isExtractPatchCall] using hP _ h
  refine ⟨more, hm, h1, h2, h3, ?_⟩
  intro b leaseID parent
  refine ⟨?_, ?_, ?_⟩
  · intro h; exact temp_key_ne_getSnapKey vmID b (h1 _ h).symm
  · intro h; exact temp_key_ne_getSnapKey vmID b (h2 _ _ _ h).symm
  · intro h; exact temp_key_ne_getSnapKey vmID b (h3 _ h).symm

/-- C23 (witness): `temp_snapshot_key_distinct` at the VM `vm1` and at the
empty identifier. -/
theorem temp_snapshot_key_distinct_witness :
    "tempimagesnap" ++ "vm1" ≠ getSnapKey "vm1" ∧ "tempimagesnap" ++ "" ≠ getSnapKey "" ∧
    (getSnapKey "vm1" = getSnapKey "vm1" → "vm1" = "vm1") :=
  ⟨(temp_snapshot_key_distinct "vm1" "/var/snaps/rev1/patchfile" happyEnv demoCfg).1 "vm1" "vm1",
    (temp_snapshot_key_distinct "vm1" "/var/snaps/rev1/patchfile" happyEnv demoCfg).1 "" "",
    (temp_snapshot_key_distinct "vm1" "/var/snaps/rev1/patchfile" happyEnv demoCfg).2.1
      "vm1" "vm1"⟩

end VHive
namespace VHive

namespace Run

variable {Env Ev σ α β : Type}

end Run

end VHive
namespace VHive
namespace firecracker

/-! ## C25: the pod map after an error -/

/-- C25 (counterexample): on a user-container request of `pod-1` that names
the image, the revision and the port, starting from an empty pod map,
`createUserContainer` returns the error of the stock runtime, and that of
`insertActive`, with the configuration of the started VM stashed under
`pod-1`. -/
theorem createUserContainer_error_leaves_stash :
    demoCfg.st.vmConfigs "pod-1" = none ∧
    (createUserContainer plainRequest stockFailingEnv demoCfg).1 =
      Res.err "stock runtime failed" ∧
    (createUserContainer plainRequest stockFailingEnv demoCfg).2.st.vmConfigs "pod-1" =
      some { guestIP := "172.16.0.2", guestPort := "8080" } ∧
    (createUserContainer plainRequest insertFailingEnv demoCfg).1 =
      Res.err "insertActive failed" ∧
    (createUserContainer plainRequest insertFailingEnv demoCfg).2.st.vmConfigs "pod-1" =
      some { guestIP := "172.16.0.2", guestPort := "8080" } := by
  decide

/-- C25: `createUserContainer` stashes the configuration of the VM exactly
when the image, the revision and the port are named, the memory size and the
vCPU count are well formed and `startVM` succeeds.  In every other case it
returns an error and the service is as it was before the call.  Once the
configuration is stashed it stays in the pod map under the request's sandbox
id, also when `createUserContainer` then returns the error of the stock
runtime or of `insertActive`. -/
theorem createUserContainer_pod_map (r : CreateContainerRequest) (env : Env)
    (c : Cfg FirecrackerService Event) :
    ((getEnvVal guestImageEnv r.Config).2 = none ∧ (getEnvVal revisionEnv r.Config).2 = none ∧
        (getMemorySize r.Config).2 = none ∧ (getvCPUCount r.Config).2 = none ∧
        (getEnvVal guestPortEnv r.Config).2 = none →
      ∀ funcInst,
        env.vm (c.trace ++ [Event.StockCreateContainer r,
          Event.startVM (getEnvVal guestImageEnv r.Config).1 (getEnvVal revisionEnv r.Config).1
            (getMemorySize r.Config).1 (getvCPUCount r.Config).1]) = Except.ok funcInst →
        (createUserContainer r env c).2.st.vmConfigs =
          c.st.vmConfigs.set r.PodSandboxId
            { guestIP := funcInst.StartVMResponse.GuestIP,
              guestPort := (getEnvVal guestPortEnv r.Config).1 } ∧
        (∀ e, env.stock (c.trace ++ [Event.StockCreateContainer r]) = Except.error e →
          (createUserContainer r env c).1 = Res.err e) ∧
        (∀ resp e, env.stock (c.trace ++ [Event.StockCreateContainer r]) = Except.ok resp →
          env.status (c.trace ++ [Event.StockCreateContainer r,
            Event.startVM (getEnvVal guestImageEnv r.Config).1
              (getEnvVal revisionEnv r.Config).1
              (getMemorySize r.Config).1 (getvCPUCount r.Config).1,
            Event.insertActive resp.ContainerId funcInst]) = Except.error e →
          (createUserContainer r env c).1 = Res.err e)) ∧
    (((getEnvVal guestImageEnv r.Config).2 ≠ none ∨ (getEnvVal revisionEnv r.Config).2 ≠ none ∨
        (getMemorySize r.Config).2 ≠ none ∨ (getvCPUCount r.Config).2 ≠ none ∨
        (getEnvVal guestPortEnv r.Config).2 ≠ none ∨
        ∃ e, env.vm (c.trace ++ [Event.StockCreateContainer r,
          Event.startVM (getEnvVal guestImageEnv r.Config).1 (getEnvVal revisionEnv r.Config).1
            (getMemorySize r.Config).1 (getvCPUCount r.Config).1]) = Except.error e) →
      (createUserContainer r env c).2.st = c.st ∧
      ∃ e, (createUserContainer r env c).1 = Res.err e) := by
  rcases hgi : getEnvVal guestImageEnv r.Config with ⟨image, _ | e1⟩
  · rcases hrv : getEnvVal revisionEnv r.Config with ⟨revision, _ | e2⟩
    · rcases hms : getMemorySize r.Config with ⟨mem, _ | e3⟩
      · rcases hvc : getvCPUCount r.Config with ⟨cpu, _ | e4⟩
        · simp only [createUserContainer, Run.bind_eq, Run.pure_eq, Run.andThen, goStockCreate,
            hgi, hrv, hms, hvc, orReturn, Run.ret, Run.call]
          have htr : c.trace ++ [Event.StockCreateContainer r] ++
              [Event.startVM image revision mem cpu] =
              c.trace ++ [Event.StockCreateContainer r, Event.startVM image revision mem cpu] := by
            simp
          rw [htr]
          cases hv : env.vm (c.trace ++
              [Event.StockCreateContainer r, Event.startVM image revision mem cpu]) with
          | error e => simp [Run.fail]
          | ok fi =>
            simp only []
            rcases hp : getEnvVal guestPortEnv r.Config with ⟨port, _ | e5⟩
            · simp only [Run.ret, insertVMConfig, Run.modify, Run.fail]
              cases hs : env.stock (c.trace ++ [Event.StockCreateContainer r]) with
              | error e => simp [Run.fail]
              | ok resp =>
                simp only [Run.andThen, Run.call]
                have htr2 : c.trace ++ [Event.StockCreateContainer r,
                    Event.startVM image revision mem cpu] ++
                    [Event.insertActive resp.ContainerId fi] =
                    c.trace ++ [Event.StockCreateContainer r,
                      Event.startVM image revision mem cpu,
                      Event.insertActive resp.ContainerId fi] := by
                  simp
                rw [htr2]
                cases hi : env.status (c.trace ++ [Event.StockCreateContainer r,
                    Event.startVM image revision mem cpu,
                    Event.insertActive resp.ContainerId fi]) with
                | ok u =>
                  simp only [Run.ret]
                  refine ⟨fun _ fi2 h2 => ?_, by simp⟩
                  cases h2
                  refine ⟨rfl, by simp, ?_⟩
                  intro resp2 e h3 h4
                  cases h3
                  rw [hi] at h4
                  cases h4
                | error e0 =>
                  refine ⟨fun _ fi2 h2 => ?_, by simp⟩
                  cases h2
                  refine ⟨rfl, by simp, ?_⟩
                  intro resp2 e h3 h4
                  cases h3
                  rw [hi] at h4
                  cases h4
                  rfl
            · simp [Run.fail]
        · simp [createUserContainer, Run.bind_eq, Run.andThen, goStockCreate, hgi, hrv, hms,
            hvc, orReturn, Run.ret, Run.fail]
      · simp [createUserContainer, Run.bind_eq, Run.andThen, goStockCreate, hgi, hrv, hms,
          orReturn, Run.ret, Run.fail]
    · simp [createUserContainer, Run.bind_eq, Run.andThen, goStockCreate, hgi, hrv, orReturn,
        Run.ret, Run.fail]
  · simp [createUserContainer, Run.bind_eq, Run.andThen, goStockCreate, hgi, orReturn, Run.ret,
      Run.fail]

/-- C25 (witness): `createUserContainer_pod_map` at `plainRequest` when the
stock runtime fails, and at `noPortRequest`, which lacks the port. -/
theorem createUserContainer_pod_map_witness :
    ((createUserContainer plainRequest stockFailingEnv demoCfg).2.st.vmConfigs =
        demoCfg.st.vmConfigs.set plainRequest.PodSandboxId
          { guestIP := "172.16.0.2",
            guestPort := (getEnvVal guestPortEnv plainRequest.Config).1 } ∧
      (createUserContainer plainRequest stockFailingEnv demoCfg).1 =
        Res.err "stock runtime failed") ∧
    (getEnvVal guestPortEnv noPortRequest.Config).2 ≠ none ∧
    (createUserContainer noPortRequest happyEnv demoCfg).2.st = demoCfg.st ∧
    ∃ e, (createUserContainer noPortRequest happyEnv demoCfg).1 = Res.err e :=
  ⟨⟨((createUserContainer_pod_map plainRequest stockFailingEnv demoCfg).1 (by decide)
        { StartVMResponse := { GuestIP := "172.16.0.2" } } rfl).1,
      ((createUserContainer_pod_map plainRequest stockFailingEnv demoCfg).1 (by decide)
        { StartVMResponse := { GuestIP := "172.16.0.2" } } rfl).2.1 "stock runtime failed" rfl⟩,
    by decide,
    (createUserContainer_pod_map noPortRequest happyEnv demoCfg).2
      (Or.inr (Or.inr (Or.inr (Or.inr (Or.inl (by decide))))))⟩

end firecracker
end VHive
